import Mathlib

/-!
# CVN video pipeline: a shallow embedding of `src/cvn`

The development follows the C++ sources of the CVN library:

* `camera.hpp`  : the single-slot frame handoff `SampleGrabberCallback`
* `fonte.hpp`   : `Fonte`, `ConfigFiltro` and the registry `GerenciadorFontes`
* `filtros.hpp` : the pixel filters of `Filtros`
* `captura.hpp` : the screen capture `Captura`
* `janela.hpp`  : the window registry `GerenciadorJanelas`
* `cvn.cpp`     : `aplicar_filtros`, `capturar_frame`, the `cvn_fonte_*` exports,
  `cvn_reproduzir` and `cvn_camera_fechar`

Modelling conventions.

* A byte (`unsigned char`) is a `Fin 256`; a non-null `unsigned char*` buffer is a
  `List Byte` whose length is the size of the allocated block; a pointer that may be
  null is an `Option (List Byte)`.
* A `for (int i = 0; i < n; i++)` loop is a `List.foldl` over `List.range n` that threads
  the buffer being written.
* A store outside the block leaves the list unchanged and a load outside the block
  yields `0`; both are undefined behaviour in C, and the theorems that depend on
  loads and stores carry the hypothesis that makes every access lie inside the block.
* `int` index arithmetic is carried out in `Nat`/`Int` without wrap-around (signed
  overflow is undefined in C; buffers are far smaller than `2^31` bytes). Where an `int`
  holds a value computed from a caller's parameter or from a sum over pixels (the
  brightness shift, the window sums of `blur`, the byte count of a captured region) the
  result is reduced by `int32`, as the compiled code does.
* The `int` width, height and channel count a filter of `Filtros` receives are `Nat`:
  the blocks handed to the filters are frames, whose dimensions are not negative. The
  filters are modelled on a non-null block; their `if (!dados) return` guard concerns
  the null pointer, which no caller in `cvn.cpp` passes.
* `malloc` with a non-negative size always succeeds and hands out a zero-filled block.
* `float` values are kept abstract: the carrier type `F` and the operations the code
  performs in floating point are the fields of `FloatOps F`.
-/

namespace cvn

/-! ## Bytes and raw memory -/

/-- An `unsigned char`. -/
abbrev Byte := Fin 256

/-- Conversion of an `int` to `unsigned char` (reduction modulo 256). -/
def toByte (i : Int) : Byte :=
  ⟨(i % 256).toNat, by
    have h1 : 0 ≤ i % 256 := Int.emod_nonneg i (by decide)
    have h2 : i % 256 < 256 := Int.emod_lt_of_pos i (by decide)
    omega⟩

/-- Load `p[i]`. -/
def ler_byte (p : List Byte) (i : Nat) : Byte := p.getD i 0

/-- The call `malloc(n)`: a fresh block of `n` bytes. -/
def malloc (n : Nat) : List Byte := List.replicate n 0

/-- The call `memcpy(dst + doff, src + soff, n)`, byte by byte. -/
def memcpy (dst : List Byte) (doff : Nat) (src : List Byte) (soff : Nat) (n : Nat) : List Byte :=
  (List.range n).foldl (fun d i => d.set (doff + i) (ler_byte src (soff + i))) dst

/-- The call `std::swap(p[i], p[j])`. -/
def swap_bytes (p : List Byte) (i j : Nat) : List Byte :=
  let tmp := ler_byte p i
  (p.set i (ler_byte p j)).set j tmp

/-- The call `std::clamp(v, 0, 255)` followed by the conversion to `unsigned char`. -/
def clamp_byte (v : Int) : Byte :=
  toByte (if v < 0 then 0 else if 255 < v then 255 else v)

/-- The value an `int` variable holds after it is assigned the arithmetic result `v`: the
representative of `v` modulo `2^32` in the range from `-2^31` to `2^31 - 1`. Inside that
range it is `v`; outside it C leaves the result undefined and the compiled code wraps. -/
def int32 (v : Int) : Int := (v + 2147483648) % 4294967296 - 2147483648

/-! ## camera.hpp: the frame slot -/

/-- A captured image: pixel block, width and height. -/
structure Frame where
  dados : List Byte
  largura : Int
  altura : Int
deriving DecidableEq, Repr

/-- Data members of `SampleGrabberCallback` (the critical section and the COM reference
count carry no data of the handoff). -/
structure SampleGrabberCallback where
  dados : Option (List Byte) := none
  largura : Int := 0
  altura : Int := 0
  tamanho : Int := 0
  novo_frame : Bool := false
deriving DecidableEq, Repr

/-- The method `SampleGrabberCallback::BufferCB(Time, pBuffer, BufferLen)`; the sample is the
list `pBuffer` and `BufferLen` is its length. -/
def SampleGrabberCallback.BufferCB (s : SampleGrabberCallback) (pBuffer : List Byte) :
    SampleGrabberCallback :=
  let BufferLen : Int := pBuffer.length
  let s1 : SampleGrabberCallback :=
    if s.dados.isNone || s.tamanho != BufferLen then
      { s with dados := some (malloc pBuffer.length), tamanho := BufferLen }
    else s
  match s1.dados with
  | some dados =>
    { s1 with dados := some (memcpy dados 0 pBuffer 0 pBuffer.length), novo_frame := true }
  | none => s1

/-- The pixel loop of `obter_frame_rgba`: BGR rows bottom-up to RGBA rows top-down. -/
def bgr_para_rgba (dados : List Byte) (largura altura : Nat) (rgba : List Byte) : List Byte :=
  (List.range altura).foldl (fun rgba y =>
    (List.range largura).foldl (fun rgba x =>
      let src_y := altura - 1 - y
      let src_idx := (src_y * largura + x) * 3
      let dst_idx := (y * largura + x) * 4
      let rgba := rgba.set (dst_idx + 0) (ler_byte dados (src_idx + 2))
      let rgba := rgba.set (dst_idx + 1) (ler_byte dados (src_idx + 1))
      let rgba := rgba.set (dst_idx + 2) (ler_byte dados (src_idx + 0))
      rgba.set (dst_idx + 3) 255) rgba) rgba

/-- The method `SampleGrabberCallback::obter_frame_rgba(out_largura, out_altura)`: the
returned pointer together with the two out-parameters is the `Option Frame`; the second
component is the slot afterwards. -/
def SampleGrabberCallback.obter_frame_rgba (s : SampleGrabberCallback) :
    Option Frame × SampleGrabberCallback :=
  match s.dados with
  | none => (none, s)
  | some dados =>
    if !s.novo_frame || s.largura ≤ 0 || s.altura ≤ 0 then (none, s)
    else
      let pixels := s.largura.toNat * s.altura.toNat
      let rgba := malloc (pixels * 4)
      let rgba := bgr_para_rgba dados s.largura.toNat s.altura.toNat rgba
      (some ⟨rgba, s.largura, s.altura⟩, { s with novo_frame := false })

/-- Representation invariant of the slot: `tamanho` is the size of the block `dados`. -/
def SampleGrabberCallback.Coerente (s : SampleGrabberCallback) : Prop :=
  ∀ d, s.dados = some d → (d.length : Int) = s.tamanho

/-! ## fonte.hpp: sources, filter chains and the source registry -/

/-- The enumeration `TipoFonte`. -/
inductive TipoFonte where
  | NENHUM | CAMERA | TELA | REGIAO
deriving DecidableEq, Repr

/-- The enumeration `TipoFiltro`. -/
inductive TipoFiltro where
  | NENHUM | CINZA | INVERTER | BRILHO | CONTRASTE | LIMIAR | BLUR | BORDAS | SEPIA
  | SATURACAO | FLIP_H | FLIP_V | ROTACIONAR | REDIMENSIONAR | LIMIAR_FILTRO
deriving DecidableEq, Repr

/-- The struct `ConfigFiltro`; `F` is the carrier of `float`. -/
structure ConfigFiltro (F : Type) where
  tipo : TipoFiltro
  valor1 : F
  valor2 : F
deriving DecidableEq, Repr

/-- The struct `Fonte`. -/
structure Fonte (F : Type) where
  tipo : TipoFonte := TipoFonte.NENHUM
  indice : Int := 0
  x : Int := 0
  y : Int := 0
  largura : Int := 0
  altura : Int := 0
  filtros : List (ConfigFiltro F) := []
  valida : Bool := false
deriving DecidableEq, Repr

/-- The factory `Fonte::criar_camera`. -/
def Fonte.criar_camera {F : Type} (cam_indice : Int) : Fonte F :=
  { tipo := TipoFonte.CAMERA, indice := cam_indice, valida := true }

/-- The factory `Fonte::criar_tela`. -/
def Fonte.criar_tela {F : Type} (monitor_indice : Int) : Fonte F :=
  { tipo := TipoFonte.TELA, indice := monitor_indice, valida := true }

/-- The factory `Fonte::criar_regiao`. -/
def Fonte.criar_regiao {F : Type} (monitor_indice rx ry rlargura raltura : Int) : Fonte F :=
  { tipo := TipoFonte.REGIAO, indice := monitor_indice, x := rx, y := ry,
    largura := rlargura, altura := raltura, valida := true }

/-- The method `Fonte::com_filtro`: a copy of the source with one more filter at the end. -/
def Fonte.com_filtro {F : Type} (self : Fonte F) (tipo : TipoFiltro) (v1 v2 : F) : Fonte F :=
  let nova := self
  let cf : ConfigFiltro F := { tipo := tipo, valor1 := v1, valor2 := v2 }
  { nova with filtros := nova.filtros ++ [cf] }

/-- The struct `MonitorInfo`. -/
structure MonitorInfo where
  indice : Int
  x : Int
  y : Int
  largura : Int
  altura : Int
  primario : Bool
deriving DecidableEq, Repr

/-- The class `GerenciadorFontes`: the vector of owned `Fonte*`, a released entry being
a null pointer. -/
structure GerenciadorFontes (F : Type) where
  fontes : List (Option (Fonte F)) := []
deriving DecidableEq, Repr

/-- The method `GerenciadorFontes::criar`: the new id and the registry afterwards. -/
def GerenciadorFontes.criar {F : Type} (g : GerenciadorFontes F) (fonte : Fonte F) :
    Int × GerenciadorFontes F :=
  let id : Int := g.fontes.length
  (id, { g with fontes := g.fontes ++ [some fonte] })

/-- The method `GerenciadorFontes::obter`. -/
def GerenciadorFontes.obter {F : Type} (g : GerenciadorFontes F) (id : Int) : Option (Fonte F) :=
  if id < 0 ∨ id ≥ (g.fontes.length : Int) then none
  else (g.fontes.getD id.toNat none)

/-- The method `GerenciadorFontes::clonar_com_filtro`: the returned id (`-1` on failure) and
the registry afterwards. -/
def GerenciadorFontes.clonar_com_filtro {F : Type} (g : GerenciadorFontes F) (id : Int)
    (tipo : TipoFiltro) (v1 v2 : F) : Int × GerenciadorFontes F :=
  match g.obter id with
  | none => (-1, g)
  | some f =>
    let nova := f.com_filtro tipo v1 v2
    g.criar nova

/-- The method `GerenciadorFontes::liberar`. -/
def GerenciadorFontes.liberar {F : Type} (g : GerenciadorFontes F) (id : Int) :
    GerenciadorFontes F :=
  if id < 0 ∨ id ≥ (g.fontes.length : Int) then g
  else { g with fontes := g.fontes.set id.toNat none }

/-- The method `GerenciadorFontes::liberar_todas`. -/
def GerenciadorFontes.liberar_todas {F : Type} (_g : GerenciadorFontes F) : GerenciadorFontes F :=
  { fontes := [] }

/-- Successive `clonar_com_filtro` calls, each one applied to the id returned by the previous
call: the last id and the registry afterwards. -/
def GerenciadorFontes.clonar_em_cadeia {F : Type} (g : GerenciadorFontes F) (id : Int) :
    List (ConfigFiltro F) → Int × GerenciadorFontes F
  | [] => (id, g)
  | cf :: resto =>
    let r := g.clonar_com_filtro id cf.tipo cf.valor1 cf.valor2
    GerenciadorFontes.clonar_em_cadeia r.2 r.1 resto

/-! ## filtros.hpp: the pixel filters -/

/-- The computations the code performs in `float`/`double`, and the resampler of the
stb library, which is not part of `src/`. Every filter below takes them as a parameter,
so a theorem holds for whatever these operations compute. -/
structure FloatOps (F : Type) where
  /-- The cast `(int)f`. -/
  para_int : F → Int
  /-- The value `(unsigned char)(0.299f * r + 0.587f * g + 0.114f * b)`. -/
  luminancia : Byte → Byte → Byte → Byte
  /-- The value `(int)(((v / 255.0f - 0.5f) * valor + 0.5f) * 255.0f)`. -/
  contraste_px : F → Byte → Int
  /-- The value `(int)(0.393f * r + 0.769f * g + 0.189f * b)`. -/
  sepia_r : Byte → Byte → Byte → Int
  /-- The value `(int)(0.349f * r + 0.686f * g + 0.168f * b)`. -/
  sepia_g : Byte → Byte → Byte → Int
  /-- The value `(int)(0.272f * r + 0.534f * g + 0.131f * b)`. -/
  sepia_b : Byte → Byte → Byte → Int
  /-- The value `(int)(r' * 255)` of `saturacao`, from `valor` and the pixel's `r g b`. -/
  saturacao_r : F → Byte → Byte → Byte → Int
  /-- The value `(int)(g' * 255)` of `saturacao`. -/
  saturacao_g : F → Byte → Byte → Byte → Int
  /-- The value `(int)(b' * 255)` of `saturacao`. -/
  saturacao_b : F → Byte → Byte → Byte → Int
  /-- The call `stbir_resize_uint8_linear(in, in_w, in_h, in_stride, out, out_w, out_h,
  out_stride, STBIR_RGBA)`: the output block afterwards. -/
  stbir_resize_uint8_linear :
    List Byte → Int → Int → Int → List Byte → Int → Int → Int → List Byte

namespace Filtros

/-- The filter `Filtros::cinza`. -/
def cinza {F : Type} (ops : FloatOps F) (dados : List Byte) (largura altura canais : Nat) :
    List Byte :=
  if canais < 3 then dados
  else
    let total := largura * altura
    (List.range total).foldl (fun dados i =>
      let idx := i * canais
      let r := ler_byte dados (idx + 0)
      let g := ler_byte dados (idx + 1)
      let b := ler_byte dados (idx + 2)
      let cinza := ops.luminancia r g b
      let dados := dados.set (idx + 0) cinza
      let dados := dados.set (idx + 1) cinza
      dados.set (idx + 2) cinza) dados

/-- The filter `Filtros::inverter`. -/
def inverter (dados : List Byte) (largura altura canais : Nat) : List Byte :=
  let total := largura * altura
  (List.range total).foldl (fun dados i =>
    let idx := i * canais
    let dados := dados.set (idx + 0) (toByte (255 - ((ler_byte dados (idx + 0)).val : Int)))
    let dados := dados.set (idx + 1) (toByte (255 - ((ler_byte dados (idx + 1)).val : Int)))
    dados.set (idx + 2) (toByte (255 - ((ler_byte dados (idx + 2)).val : Int)))) dados

/-- The filter `Filtros::brilho`; the sum `dados[idx + c] + valor` is an `int`. -/
def brilho (dados : List Byte) (largura altura canais : Nat) (valor : Int) : List Byte :=
  let total := largura * altura
  (List.range total).foldl (fun dados i =>
    let idx := i * canais
    (List.range 3).foldl (fun dados c =>
      let novo : Int := int32 (((ler_byte dados (idx + c)).val : Int) + valor)
      dados.set (idx + c) (clamp_byte novo)) dados) dados

/-- The filter `Filtros::contraste`. -/
def contraste {F : Type} (ops : FloatOps F) (dados : List Byte) (largura altura canais : Nat)
    (valor : F) : List Byte :=
  let total := largura * altura
  (List.range total).foldl (fun dados i =>
    let idx := i * canais
    (List.range 3).foldl (fun dados c =>
      let novo := ops.contraste_px valor (ler_byte dados (idx + c))
      dados.set (idx + c) (clamp_byte novo)) dados) dados

/-- The filter `Filtros::limiar`. -/
def limiar {F : Type} (ops : FloatOps F) (dados : List Byte) (largura altura canais : Nat)
    (valor : Int) : List Byte :=
  if canais < 3 then dados
  else
    let total := largura * altura
    (List.range total).foldl (fun dados i =>
      let idx := i * canais
      let r := ler_byte dados (idx + 0)
      let g := ler_byte dados (idx + 1)
      let b := ler_byte dados (idx + 2)
      let cinza := ops.luminancia r g b
      let resultado : Byte := if ((cinza.val : Int) ≥ valor) then 255 else 0
      let dados := dados.set (idx + 0) resultado
      let dados := dados.set (idx + 1) resultado
      dados.set (idx + 2) resultado) dados

/-- The body of the innermost loop of `Filtros::blur` at the window offsets `dy` and `dx`
around the pixel `(x, y)`, read from the snapshot `temp`; `acc` holds the four `int`
variables `(soma_r, soma_g, soma_b, count)`. -/
def blur_passo (temp : List Byte) (largura altura canais : Nat) (x y : Nat)
    (acc : Int × Int × Int × Int) (dy dx : Int) : Int × Int × Int × Int :=
  let nx : Int := int32 (((x : Nat) : Int) + dx)
  let ny : Int := int32 (((y : Nat) : Int) + dy)
  if nx ≥ 0 ∧ nx < ((largura : Nat) : Int) ∧ ny ≥ 0 ∧ ny < ((altura : Nat) : Int) then
    let idx := ((ny * ((largura : Nat) : Int) + nx) * ((canais : Nat) : Int)).toNat
    (int32 (acc.1 + (((ler_byte temp (idx + 0)).val : Nat) : Int)),
     int32 (acc.2.1 + (((ler_byte temp (idx + 1)).val : Nat) : Int)),
     int32 (acc.2.2.1 + (((ler_byte temp (idx + 2)).val : Nat) : Int)),
     int32 (acc.2.2.2 + 1))
  else acc

/-- The loop `for (int v = inicio; v <= fim; v++)` run from the value `v` for at most `fuel`
iterations, the body being `corpo`: the state at the exit, or `none` when the loop (or a
loop inside its body) is still running after `fuel` iterations. -/
def laco_ate {α : Type} (fim : Int) (corpo : α → Int → Option α) : Nat → Int → α → Option α
  | 0, _, _ => none
  | fuel + 1, v, acc =>
    if v ≤ fim then
      match corpo acc v with
      | some acc2 => laco_ate fim corpo fuel (int32 (v + 1)) acc2
      | none => none
    else some acc

/-- The two window loops of `Filtros::blur` at pixel `(x, y)`,
`for (int dy = -raio; dy <= raio; dy++) for (int dx = -raio; dx <= raio; dx++)`, each run
for at most `fuel` iterations: `(soma_r, soma_g, soma_b, count)` at the exit, or `none`. -/
def blur_somas_laco (temp : List Byte) (largura altura canais : Nat) (raio : Int) (x y : Nat)
    (fuel : Nat) : Option (Int × Int × Int × Int) :=
  laco_ate raio (fun acc dy =>
    laco_ate raio (fun acc dx => some (blur_passo temp largura altura canais x y acc dy dx))
      fuel (int32 (-raio)) acc) fuel (int32 (-raio)) (0, 0, 0, 0)

/-- The window sums `(soma_r, soma_g, soma_b, count)` of `Filtros::blur` at pixel `(x, y)`
when the two window loops return: `dy` and `dx` run through the `2 * raio + 1` offsets
`-raio, ..., raio`, `i` and `j` counting the iterations. The loops return this value for
`0 <= raio < 2147483647`; for `raio = 2147483647` the loop test `dy <= raio` never fails
and they do not return (see `blur_somas_laco`). -/
def blur_somas (temp : List Byte) (largura altura canais : Nat) (raio : Int) (x y : Nat) :
    Int × Int × Int × Int :=
  let lado := (2 * raio + 1).toNat
  (List.range lado).foldl (fun acc (i : Nat) =>
    (List.range lado).foldl (fun acc (j : Nat) =>
      blur_passo temp largura altura canais x y acc
        (((i : Nat) : Int) - raio) (((j : Nat) : Int) - raio)) acc) (0, 0, 0, 0)

/-- The filter `Filtros::blur`; `soma / count` is the truncating division of two `int`
values, and the quotient is converted to `unsigned char`. -/
def blur (dados : List Byte) (largura altura canais : Nat) (raio : Int) : List Byte :=
  if raio ≤ 0 then dados
  else
    let tamanho := largura * altura * canais
    let temp := memcpy (malloc tamanho) 0 dados 0 tamanho
    (List.range altura).foldl (fun dados y =>
      (List.range largura).foldl (fun dados x =>
        let s := blur_somas temp largura altura canais raio x y
        let count := s.2.2.2
        let idx := (y * largura + x) * canais
        let dados := dados.set (idx + 0) (toByte (Int.tdiv s.1 count))
        let dados := dados.set (idx + 1) (toByte (Int.tdiv s.2.1 count))
        dados.set (idx + 2) (toByte (Int.tdiv s.2.2.1 count))) dados) dados

/-- The Sobel kernel `gx[i][j]` of `Filtros::bordas`. -/
def sobel_gx (i j : Nat) : Int :=
  (([[-1, 0, 1], [-2, 0, 2], [-1, 0, 1]] : List (List Int)).getD i []).getD j 0

/-- The Sobel kernel `gy[i][j]` of `Filtros::bordas`. -/
def sobel_gy (i j : Nat) : Int :=
  (([[-1, -2, -1], [0, 0, 0], [1, 2, 1]] : List (List Int)).getD i []).getD j 0

/-- The two kernel responses `(soma_x, soma_y)` of `Filtros::bordas` at the interior pixel
`(x, y)`, read from the grayscale copy `temp`; `i = dy + 1` and `j = dx + 1`. -/
def bordas_somas (temp : List Byte) (largura canais : Nat) (x y : Nat) : Int × Int :=
  (List.range 3).foldl (fun acc i =>
    (List.range 3).foldl (fun acc j =>
      let idx := ((y + i - 1) * largura + (x + j - 1)) * canais
      let pixel : Int := ((ler_byte temp idx).val : Int)
      (acc.1 + pixel * sobel_gx i j, acc.2 + pixel * sobel_gy i j)) acc) (0, 0)

/-- The filter `Filtros::bordas`; `(int)sqrt(n)` of a non-negative `int` below `2^31` is the
integer square root. -/
def bordas {F : Type} (ops : FloatOps F) (dados : List Byte) (largura altura canais : Nat) :
    List Byte :=
  if canais < 3 then dados
  else
    let tamanho := largura * altura * canais
    let temp := memcpy (malloc tamanho) 0 dados 0 tamanho
    let temp := cinza ops temp largura altura canais
    (List.range' 1 (altura - 2)).foldl (fun dados y =>
      (List.range' 1 (largura - 2)).foldl (fun dados x =>
        let s := bordas_somas temp largura canais x y
        let magnitude : Int := (Nat.sqrt (s.1 * s.1 + s.2 * s.2).toNat : Int)
        let magnitude := clamp_byte magnitude
        let idx := (y * largura + x) * canais
        let dados := dados.set (idx + 0) magnitude
        let dados := dados.set (idx + 1) magnitude
        dados.set (idx + 2) magnitude) dados) dados

/-- The filter `Filtros::sepia`. -/
def sepia {F : Type} (ops : FloatOps F) (dados : List Byte) (largura altura canais : Nat) :
    List Byte :=
  if canais < 3 then dados
  else
    let total := largura * altura
    (List.range total).foldl (fun dados i =>
      let idx := i * canais
      let r := ler_byte dados (idx + 0)
      let g := ler_byte dados (idx + 1)
      let b := ler_byte dados (idx + 2)
      let novo_r := ops.sepia_r r g b
      let novo_g := ops.sepia_g r g b
      let novo_b := ops.sepia_b r g b
      let dados := dados.set (idx + 0) (clamp_byte novo_r)
      let dados := dados.set (idx + 1) (clamp_byte novo_g)
      dados.set (idx + 2) (clamp_byte novo_b)) dados

/-- The filter `Filtros::saturacao`. -/
def saturacao {F : Type} (ops : FloatOps F) (dados : List Byte) (largura altura canais : Nat)
    (valor : F) : List Byte :=
  if canais < 3 then dados
  else
    let total := largura * altura
    (List.range total).foldl (fun dados i =>
      let idx := i * canais
      let r := ler_byte dados (idx + 0)
      let g := ler_byte dados (idx + 1)
      let b := ler_byte dados (idx + 2)
      let dados := dados.set (idx + 0) (clamp_byte (ops.saturacao_r valor r g b))
      let dados := dados.set (idx + 1) (clamp_byte (ops.saturacao_g valor r g b))
      dados.set (idx + 2) (clamp_byte (ops.saturacao_b valor r g b))) dados

/-- The filter `Filtros::flip_h`. -/
def flip_h (dados : List Byte) (largura altura canais : Nat) : List Byte :=
  (List.range altura).foldl (fun dados y =>
    (List.range (largura / 2)).foldl (fun dados x =>
      let idx1 := (y * largura + x) * canais
      let idx2 := (y * largura + (largura - 1 - x)) * canais
      (List.range canais).foldl (fun dados c =>
        swap_bytes dados (idx1 + c) (idx2 + c)) dados) dados) dados

/-- The filter `Filtros::flip_v`; the pair threaded through the loop is `(dados, temp)`. -/
def flip_v (dados : List Byte) (largura altura canais : Nat) : List Byte :=
  let linha_bytes := largura * canais
  let temp := malloc linha_bytes
  ((List.range (altura / 2)).foldl (fun (st : List Byte × List Byte) y =>
    let idx1 := y * linha_bytes
    let idx2 := (altura - 1 - y) * linha_bytes
    let temp := memcpy st.2 0 st.1 idx1 linha_bytes
    let dados := memcpy st.1 idx1 st.1 idx2 linha_bytes
    let dados := memcpy dados idx2 temp 0 linha_bytes
    (dados, temp)) (dados, temp)).1

/-- The filter `Filtros::rotacionar`: the new block and the updated `largura`, `altura`. -/
def rotacionar (dados : List Byte) (largura altura canais : Nat) (graus : Int) :
    List Byte × Nat × Nat :=
  let graus := Int.tmod (Int.tmod graus 360 + 360) 360
  if graus = 0 then
    let tamanho := largura * altura * canais
    let copia := malloc tamanho
    (memcpy copia 0 dados 0 tamanho, largura, altura)
  else
    let nova_largura := if graus = 90 ∨ graus = 270 then altura else largura
    let nova_altura := if graus = 90 ∨ graus = 270 then largura else altura
    let novo := malloc (nova_largura * nova_altura * canais)
    let novo := (List.range altura).foldl (fun novo y =>
      (List.range largura).foldl (fun novo x =>
        let nx := if graus = 90 then altura - 1 - y
                  else if graus = 180 then largura - 1 - x else y
        let ny := if graus = 90 then x
                  else if graus = 180 then altura - 1 - y else largura - 1 - x
        let idx_origem := (y * largura + x) * canais
        let idx_destino := (ny * nova_largura + nx) * canais
        (List.range canais).foldl (fun novo c =>
          novo.set (idx_destino + c) (ler_byte dados (idx_origem + c))) novo) novo) novo
    (novo, nova_largura, nova_altura)

end Filtros

/-! ## cvn.cpp: the filter chain -/

/-- One iteration of the loop of `aplicar_filtros`: the `switch` on `f.tipo`, acting on the
triple `(resultado, largura, altura)`. The filters receive the current dimensions; a frame
has non-negative dimensions unless a resize stage asked for two negative ones. In the
`REDIMENSIONAR` case a negative byte count makes `malloc` return null and the stage is
skipped. Releasing the replaced block is memory management and is not modelled. -/
def aplicar_filtro {F : Type} (ops : FloatOps F) (canais : Nat) (st : Frame)
    (f : ConfigFiltro F) : Frame :=
  let largura := st.largura.toNat
  let altura := st.altura.toNat
  match f.tipo with
  | TipoFiltro.CINZA => { st with dados := Filtros.cinza ops st.dados largura altura canais }
  | TipoFiltro.INVERTER => { st with dados := Filtros.inverter st.dados largura altura canais }
  | TipoFiltro.BRILHO =>
    { st with dados := Filtros.brilho st.dados largura altura canais (ops.para_int f.valor1) }
  | TipoFiltro.CONTRASTE =>
    { st with dados := Filtros.contraste ops st.dados largura altura canais f.valor1 }
  | TipoFiltro.LIMIAR =>
    { st with dados := Filtros.limiar ops st.dados largura altura canais (ops.para_int f.valor1) }
  | TipoFiltro.BLUR =>
    { st with dados := Filtros.blur st.dados largura altura canais (ops.para_int f.valor1) }
  | TipoFiltro.BORDAS => { st with dados := Filtros.bordas ops st.dados largura altura canais }
  | TipoFiltro.SEPIA => { st with dados := Filtros.sepia ops st.dados largura altura canais }
  | TipoFiltro.SATURACAO =>
    { st with dados := Filtros.saturacao ops st.dados largura altura canais f.valor1 }
  | TipoFiltro.FLIP_H => { st with dados := Filtros.flip_h st.dados largura altura canais }
  | TipoFiltro.FLIP_V => { st with dados := Filtros.flip_v st.dados largura altura canais }
  | TipoFiltro.REDIMENSIONAR =>
    let nova_largura := ops.para_int f.valor1
    let nova_altura := ops.para_int f.valor2
    let bytes : Int := nova_largura * nova_altura * (canais : Int)
    if bytes < 0 then st
    else
      let novo := malloc bytes.toNat
      let novo := ops.stbir_resize_uint8_linear st.dados st.largura st.altura
        (st.largura * (canais : Int)) novo nova_largura nova_altura
        (nova_largura * (canais : Int))
      { dados := novo, largura := nova_largura, altura := nova_altura }
  | _ => st

/-- The function `aplicar_filtros(dados, largura, altura, canais, filtros)`: the returned
block with the updated `largura` and `altura`. -/
def aplicar_filtros {F : Type} (ops : FloatOps F) (dados : List Byte) (largura altura : Int)
    (canais : Nat) (filtros : List (ConfigFiltro F)) : Frame :=
  filtros.foldl (aplicar_filtro ops canais) { dados := dados, largura := largura, altura := altura }

/-- The in-place filter kinds of the chain: every kind except rotate and resize (and the
two kinds that name no filter). -/
def TipoFiltro.no_lugar : TipoFiltro → Bool
  | TipoFiltro.CINZA | TipoFiltro.INVERTER | TipoFiltro.BRILHO | TipoFiltro.CONTRASTE
  | TipoFiltro.LIMIAR | TipoFiltro.BLUR | TipoFiltro.BORDAS | TipoFiltro.SEPIA
  | TipoFiltro.SATURACAO | TipoFiltro.FLIP_H | TipoFiltro.FLIP_V => true
  | _ => false

/-- The `Filtros` function that corresponds to a filter spec, called by hand on a `w x h`
block with `canais` channels, with the argument conversions of the `cvn_*` image exports. -/
def filtro_manual {F : Type} (ops : FloatOps F) (w h canais : Nat) (f : ConfigFiltro F)
    (dados : List Byte) : List Byte :=
  match f.tipo with
  | TipoFiltro.CINZA => Filtros.cinza ops dados w h canais
  | TipoFiltro.INVERTER => Filtros.inverter dados w h canais
  | TipoFiltro.BRILHO => Filtros.brilho dados w h canais (ops.para_int f.valor1)
  | TipoFiltro.CONTRASTE => Filtros.contraste ops dados w h canais f.valor1
  | TipoFiltro.LIMIAR => Filtros.limiar ops dados w h canais (ops.para_int f.valor1)
  | TipoFiltro.BLUR => Filtros.blur dados w h canais (ops.para_int f.valor1)
  | TipoFiltro.BORDAS => Filtros.bordas ops dados w h canais
  | TipoFiltro.SEPIA => Filtros.sepia ops dados w h canais
  | TipoFiltro.SATURACAO => Filtros.saturacao ops dados w h canais f.valor1
  | TipoFiltro.FLIP_H => Filtros.flip_h dados w h canais
  | TipoFiltro.FLIP_V => Filtros.flip_v dados w h canais
  | _ => dados

/-- Sequential manual application: the stages of a chain invoked one after another, in
chain order, each on the output of the one before. -/
def aplicacao_manual {F : Type} (ops : FloatOps F) (w h canais : Nat) :
    List (ConfigFiltro F) → List Byte → List Byte
  | [], dados => dados
  | f :: resto, dados => aplicacao_manual ops w h canais resto (filtro_manual ops w h canais f dados)

/-! ## camera.hpp, captura.hpp, cvn.cpp: capturing a frame from a source -/

/-- The struct `Camera`, without its DirectShow interface pointers. -/
structure Camera where
  callback : Option SampleGrabberCallback := none
  ativa : Bool := false
  largura : Int := 640
  altura : Int := 480
deriving DecidableEq, Repr

/-- The class `GerenciadorCameras`: the vector of `Camera*`, a closed camera being a null
pointer. -/
structure GerenciadorCameras where
  cameras : List (Option Camera) := []
deriving DecidableEq, Repr

/-- The method `GerenciadorCameras::ler`: the frame, if any, and the manager afterwards. -/
def GerenciadorCameras.ler (g : GerenciadorCameras) (id : Int) :
    Option Frame × GerenciadorCameras :=
  if id < 0 ∨ id ≥ (g.cameras.length : Int) then (none, g)
  else
    match g.cameras.getD id.toNat none with
    | none => (none, g)
    | some cam =>
      if !cam.ativa then (none, g)
      else
        match cam.callback with
        | none => (none, g)
        | some cb =>
          let r := cb.obter_frame_rgba
          (r.1, { g with cameras := g.cameras.set id.toNat (some { cam with callback := some r.2 }) })

/-- The method `GerenciadorCameras::fechar`. -/
def GerenciadorCameras.fechar (g : GerenciadorCameras) (id : Int) : GerenciadorCameras :=
  if id < 0 ∨ id ≥ (g.cameras.length : Int) then g
  else { g with cameras := g.cameras.set id.toNat none }

/-- A monitor as the operating system reports it to `MonitorEnumProc`: the rectangle
`rcMonitor` and the primary flag. -/
structure MonitorSO where
  left : Int
  top : Int
  right : Int
  bottom : Int
  primario : Bool
deriving DecidableEq, Repr

/-- The operating-system services the capture code calls. -/
structure Ambiente where
  /-- The monitors in the order `EnumDisplayMonitors` visits them. -/
  monitores : List MonitorSO
  /-- The metric `GetSystemMetrics(SM_XVIRTUALSCREEN)`. -/
  xvirtualscreen : Int
  /-- The metric `GetSystemMetrics(SM_YVIRTUALSCREEN)`. -/
  yvirtualscreen : Int
  /-- The metric `GetSystemMetrics(SM_CXVIRTUALSCREEN)`. -/
  cxvirtualscreen : Int
  /-- The metric `GetSystemMetrics(SM_CYVIRTUALSCREEN)`. -/
  cyvirtualscreen : Int
  /-- The metric `GetSystemMetrics(SM_CXSCREEN)`. -/
  cxscreen : Int
  /-- The metric `GetSystemMetrics(SM_CYSCREEN)`. -/
  cyscreen : Int
  /-- The BGRA bytes `BitBlt` and `GetDIBits` deliver for the screen rectangle
  `(x, y, largura, altura)`. -/
  pixels_bgra : Int → Int → Int → Int → List Byte

/-- The callback `MonitorEnumProc`, appending one monitor to `g_monitores`. -/
def MonitorEnumProc (g_monitores : List MonitorInfo) (mi : MonitorSO) : List MonitorInfo :=
  g_monitores ++ [{ indice := g_monitores.length, x := mi.left, y := mi.top,
                    largura := mi.right - mi.left, altura := mi.bottom - mi.top,
                    primario := mi.primario }]

/-- The method `GerenciadorFontes::obter_monitor`: the returned flag and the four
out-parameters `(x, y, largura, altura)`. -/
def obter_monitor (amb : Ambiente) (indice : Int) : Bool × Int × Int × Int × Int :=
  let g_monitores := amb.monitores.foldl MonitorEnumProc []
  if indice < 0 ∨ indice ≥ (g_monitores.length : Int) then
    (false, amb.xvirtualscreen, amb.yvirtualscreen, amb.cxvirtualscreen, amb.cyvirtualscreen)
  else
    match g_monitores.get? indice.toNat with
    | some m => (true, m.x, m.y, m.largura, m.altura)
    | none => (false, amb.xvirtualscreen, amb.yvirtualscreen, amb.cxvirtualscreen,
        amb.cyvirtualscreen)

namespace Captura

/-- The function `Captura::extrair_pixels`, given the bytes `temp` that `GetDIBits` wrote:
BGRA to RGBA with alpha forced to 255. The byte count `largura * altura * 4` and the pixel
count `largura * altura` are `int` values; a negative byte count makes `malloc` return
null, and the function then returns null. -/
def extrair_pixels (temp : List Byte) (largura altura : Int) : Option (List Byte) :=
  let tamanho := int32 (int32 (largura * altura) * 4)
  if tamanho < 0 then none
  else
    let dados := malloc tamanho.toNat
    some ((List.range (int32 (largura * altura)).toNat).foldl (fun dados i =>
      let dados := dados.set (i * 4 + 0) (ler_byte temp (i * 4 + 2))
      let dados := dados.set (i * 4 + 1) (ler_byte temp (i * 4 + 1))
      let dados := dados.set (i * 4 + 2) (ler_byte temp (i * 4 + 0))
      dados.set (i * 4 + 3) 255) dados)

/-- The function `Captura::capturar_regiao_interna`. -/
def capturar_regiao_interna (amb : Ambiente) (x y largura altura : Int) : Option (List Byte) :=
  extrair_pixels (amb.pixels_bgra x y largura altura) largura altura

/-- The function `Captura::regiao`. -/
def regiao (amb : Ambiente) (x y largura altura : Int) : Option (List Byte) :=
  if largura ≤ 0 ∨ altura ≤ 0 then none
  else capturar_regiao_interna amb x y largura altura

end Captura

/-- What `capturar_frame` leaves behind: the returned pointer, the two reference
parameters `largura` and `altura`, and the camera manager. -/
structure ResultadoCaptura where
  dados : Option (List Byte)
  largura : Int
  altura : Int
  cameras : GerenciadorCameras
deriving DecidableEq, Repr

/-- The function `capturar_frame(fonte, largura, altura)` of cvn.cpp; `fonte` is the pointer
the registry returned, `largura` and `altura` are the values the reference parameters hold on
entry. -/
def capturar_frame {F : Type} (ops : FloatOps F) (amb : Ambiente) (cams : GerenciadorCameras)
    (fonte : Option (Fonte F)) (largura altura : Int) : ResultadoCaptura :=
  match fonte with
  | none => ⟨none, largura, altura, cams⟩
  | some fonte =>
    if !fonte.valida then ⟨none, largura, altura, cams⟩
    else
      let bruto : Option ResultadoCaptura :=
        match fonte.tipo with
        | TipoFonte.CAMERA =>
          let r := cams.ler fonte.indice
          match r.1 with
          | some fr => some ⟨some fr.dados, fr.largura, fr.altura, r.2⟩
          | none => some ⟨none, largura, altura, r.2⟩
        | TipoFonte.TELA =>
          let m := obter_monitor amb fonte.indice
          some ⟨Captura.regiao amb m.2.1 m.2.2.1 m.2.2.2.1 m.2.2.2.2, m.2.2.2.1, m.2.2.2.2, cams⟩
        | TipoFonte.REGIAO =>
          let m := obter_monitor amb fonte.indice
          some ⟨Captura.regiao amb (m.2.1 + fonte.x) (m.2.2.1 + fonte.y) fonte.largura
            fonte.altura, fonte.largura, fonte.altura, cams⟩
        | TipoFonte.NENHUM => none
      match bruto with
      | none => ⟨none, largura, altura, cams⟩
      | some c =>
        match c.dados with
        | some dados =>
          if !fonte.filtros.isEmpty then
            let r := aplicar_filtros ops dados c.largura c.altura 4 fonte.filtros
            ⟨some r.dados, r.largura, r.altura, c.cameras⟩
          else c
        | none => c

/-! ## Index maps used to state the loop lemmas -/

/-- Byte index of channel `t.2.2` of the pixel in column `t.2.1` of row `t.1`, in a block of
width `w` with `c` channels. -/
def idx_px (w c : Nat) (t : Nat × Nat × Nat) : Nat := (t.1 * w + t.2.1) * c + t.2.2

/-- Byte index of the same channel of the horizontally mirrored pixel. -/
def idx_px_espelho (w c : Nat) (t : Nat × Nat × Nat) : Nat :=
  (t.1 * w + (w - 1 - t.2.1)) * c + t.2.2

/-- Byte index of offset `t.2` in row `t.1` of a block whose rows have `lb` bytes. -/
def idx_linha (lb : Nat) (t : Nat × Nat) : Nat := t.1 * lb + t.2

/-- Byte index of the same offset in the vertically mirrored row. -/
def idx_linha_espelho (lb h : Nat) (t : Nat × Nat) : Nat := (h - 1 - t.1) * lb + t.2

/-- The value `255 - b` that `inverter` stores, as an `unsigned char`. -/
def inverter_byte (b : Byte) : Byte := toByte (255 - (b.val : Int))

/-- Byte index at which `rotacionar` by 90 degrees stores channel `t.2.2` of the source
pixel in column `t.2.1` of row `t.1`; `h` is the source height (the new width). -/
def idx_rot90 (h c : Nat) (t : Nat × Nat × Nat) : Nat :=
  (t.2.1 * h + (h - 1 - t.1)) * c + t.2.2

/-- Byte index at which `rotacionar` by 270 degrees stores channel `t.2.2` of the source
pixel in column `t.2.1` of row `t.1`; `w` and `h` are the source width and height. -/
def idx_rot270 (w h c : Nat) (t : Nat × Nat × Nat) : Nat :=
  ((w - 1 - t.2.1) * h + t.1) * c + t.2.2

/-! ## Concrete inputs for evaluating the definitions -/

/-- An instance of the floating-point operations in exact integer arithmetic, with `float`
parameters restricted to whole numbers; the resampler leaves the output block as
allocated. It serves to evaluate the pipeline on concrete inputs. -/
def ops_exemplo : FloatOps Int where
  para_int := fun v => v
  luminancia := fun r g b =>
    toByte ((299 * (r.val : Int) + 587 * (g.val : Int) + 114 * (b.val : Int)) / 1000)
  contraste_px := fun valor v => Int.tdiv ((2 * (v.val : Int) - 255) * valor + 255) 2
  sepia_r := fun r g b => (393 * (r.val : Int) + 769 * (g.val : Int) + 189 * (b.val : Int)) / 1000
  sepia_g := fun r g b => (349 * (r.val : Int) + 686 * (g.val : Int) + 168 * (b.val : Int)) / 1000
  sepia_b := fun r g b => (272 * (r.val : Int) + 534 * (g.val : Int) + 131 * (b.val : Int)) / 1000
  saturacao_r := fun valor r g b =>
    let l : Int := 299 * (r.val : Int) + 587 * (g.val : Int) + 114 * (b.val : Int)
    Int.tdiv (l + (1000 * (r.val : Int) - l) * valor) 1000
  saturacao_g := fun valor r g b =>
    let l : Int := 299 * (r.val : Int) + 587 * (g.val : Int) + 114 * (b.val : Int)
    Int.tdiv (l + (1000 * (g.val : Int) - l) * valor) 1000
  saturacao_b := fun valor r g b =>
    let l : Int := 299 * (r.val : Int) + 587 * (g.val : Int) + 114 * (b.val : Int)
    Int.tdiv (l + (1000 * (b.val : Int) - l) * valor) 1000
  stbir_resize_uint8_linear := fun _ _ _ _ novo _ _ _ => novo

/-- A registry that holds one region source. -/
def registo_exemplo : GerenciadorFontes Int :=
  { fontes := [some (Fonte.criar_regiao 0 10 20 30 40)] }

/-- A frame of width 1 and height 2 with four channels. -/
def frame_exemplo : List Byte := [10, 20, 30, 255, 200, 210, 220, 255]

/-! ## Further index maps -/

/-- Byte index at which `rotacionar` by 180 degrees stores channel `t.2.2` of the source
pixel in column `t.2.1` of row `t.1`; `w` and `h` are the source width and height. -/
def idx_rot180 (w h c : Nat) (t : Nat × Nat × Nat) : Nat :=
  ((h - 1 - t.1) * w + (w - 1 - t.2.1)) * c + t.2.2

/-! ## The shape shared by the per-pixel colour loops -/

/-- One iteration of a colour loop of `Filtros` (`cinza`, `limiar`, `sepia`, `saturacao`):
the three colour bytes of pixel `i` are loaded and then replaced by the three bytes
`v r g b`. -/
def pixel_rgb (v : Byte → Byte → Byte → Byte × Byte × Byte) (canais : Nat)
    (dados : List Byte) (i : Nat) : List Byte :=
  let idx := i * canais
  let r := ler_byte dados (idx + 0)
  let g := ler_byte dados (idx + 1)
  let b := ler_byte dados (idx + 2)
  let dados := dados.set (idx + 0) (v r g b).1
  let dados := dados.set (idx + 1) (v r g b).2.1
  dados.set (idx + 2) (v r g b).2.2

/-- The three bytes `limiar` stores for a pixel: the binary result, three times. -/
def limiar_rgb {F : Type} (ops : FloatOps F) (valor : Int) (r g b : Byte) : Byte × Byte × Byte :=
  let cinza := ops.luminancia r g b
  let resultado : Byte := if ((cinza.val : Int) ≥ valor) then 255 else 0
  (resultado, resultado, resultado)

/-! ## The window of blur in exact arithmetic -/

/-- What one window position of `Filtros::blur` contributes when the sums are taken in exact
arithmetic, for `dy = i - raio` and `dx = j - raio`: a position inside the image adds its
three colour bytes to the sums and one to the count. -/
def blur_acumular (temp : List Byte) (largura altura canais : Nat) (raio : Int) (x y i : Nat)
    (acc : Nat × Nat × Nat × Nat) (j : Nat) : Nat × Nat × Nat × Nat :=
  let dy : Int := (i : Int) - raio
  let dx : Int := (j : Int) - raio
  let nx : Int := (x : Int) + dx
  let ny : Int := (y : Int) + dy
  if nx ≥ 0 ∧ nx < (largura : Int) ∧ ny ≥ 0 ∧ ny < (altura : Int) then
    let idx := ((ny * (largura : Int) + nx) * (canais : Int)).toNat
    (acc.1 + (ler_byte temp (idx + 0)).val,
     acc.2.1 + (ler_byte temp (idx + 1)).val,
     acc.2.2.1 + (ler_byte temp (idx + 2)).val,
     acc.2.2.2 + 1)
  else acc

/-- The window sums of `Filtros::blur` at pixel `(x, y)` in exact arithmetic: the three
channel sums and the number of window positions inside the image, as natural numbers. -/
def blur_somas_exatas (temp : List Byte) (largura altura canais : Nat) (raio : Int)
    (x y : Nat) : Nat × Nat × Nat × Nat :=
  (List.range (2 * raio + 1).toNat).foldl (fun acc i =>
    (List.range (2 * raio + 1).toNat).foldl (blur_acumular temp largura altura canais raio x y i)
      acc) (0, 0, 0, 0)

/-- A 2 x 2 RGBA frame whose four pixels carry the colour `(5, 6, 7)` and different alpha
values. -/
def frame_uniforme : List Byte := [5, 6, 7, 1, 5, 6, 7, 2, 5, 6, 7, 3, 5, 6, 7, 4]

/-! ## cvn.cpp: argument decoding and the source filter exports -/

/-- The variant `Var` of the host language; `D` is the carrier of `double`, and the shared
pointer to an `Instancia` carries no data the library reads. -/
inductive Var (D : Type) where
  | str (s : String)
  | int (i : Int)
  | double (d : D)
  | bool (b : Bool)
  | instancia

/-- The numeric conversions the argument helpers perform. -/
structure Conversoes (D F : Type) where
  /-- The cast `(int)d` of a `double`. -/
  double_para_int : D → Int
  /-- The cast `(float)d` of a `double`. -/
  double_para_float : D → F
  /-- The cast `(float)i` of an `int`. -/
  int_para_float : Int → F
  /-- The `float` zero: the literal `0.0f` and the default argument `0` of `com_filtro`. -/
  zero : F

/-- The helper `get_int`. -/
def get_int {D F : Type} (cv : Conversoes D F) : Var D → Int
  | Var.int i => i
  | Var.double d => cv.double_para_int d
  | _ => 0

/-- The helper `get_float`. -/
def get_float {D F : Type} (cv : Conversoes D F) : Var D → F
  | Var.double d => cv.double_para_float d
  | Var.int i => cv.int_para_float i
  | _ => cv.zero

/-- The export `cvn_fonte_cinza`: the returned `int` and the registry afterwards. -/
def cvn_fonte_cinza {D F : Type} (cv : Conversoes D F) (g : GerenciadorFontes F)
    (args : List (Var D)) : Int × GerenciadorFontes F :=
  match args with
  | a0 :: _ => g.clonar_com_filtro (get_int cv a0) TipoFiltro.CINZA cv.zero cv.zero
  | _ => (-1, g)

/-- The export `cvn_fonte_inverter`. -/
def cvn_fonte_inverter {D F : Type} (cv : Conversoes D F) (g : GerenciadorFontes F)
    (args : List (Var D)) : Int × GerenciadorFontes F :=
  match args with
  | a0 :: _ => g.clonar_com_filtro (get_int cv a0) TipoFiltro.INVERTER cv.zero cv.zero
  | _ => (-1, g)

/-- The export `cvn_fonte_brilho`. -/
def cvn_fonte_brilho {D F : Type} (cv : Conversoes D F) (g : GerenciadorFontes F)
    (args : List (Var D)) : Int × GerenciadorFontes F :=
  match args with
  | a0 :: a1 :: _ =>
    g.clonar_com_filtro (get_int cv a0) TipoFiltro.BRILHO (get_float cv a1) cv.zero
  | _ => (-1, g)

/-- The export `cvn_fonte_contraste`. -/
def cvn_fonte_contraste {D F : Type} (cv : Conversoes D F) (g : GerenciadorFontes F)
    (args : List (Var D)) : Int × GerenciadorFontes F :=
  match args with
  | a0 :: a1 :: _ =>
    g.clonar_com_filtro (get_int cv a0) TipoFiltro.CONTRASTE (get_float cv a1) cv.zero
  | _ => (-1, g)

/-- The export `cvn_fonte_blur`. -/
def cvn_fonte_blur {D F : Type} (cv : Conversoes D F) (g : GerenciadorFontes F)
    (args : List (Var D)) : Int × GerenciadorFontes F :=
  match args with
  | a0 :: a1 :: _ =>
    g.clonar_com_filtro (get_int cv a0) TipoFiltro.BLUR (get_float cv a1) cv.zero
  | _ => (-1, g)

/-- The export `cvn_fonte_bordas`. -/
def cvn_fonte_bordas {D F : Type} (cv : Conversoes D F) (g : GerenciadorFontes F)
    (args : List (Var D)) : Int × GerenciadorFontes F :=
  match args with
  | a0 :: _ => g.clonar_com_filtro (get_int cv a0) TipoFiltro.BORDAS cv.zero cv.zero
  | _ => (-1, g)

/-- The export `cvn_fonte_sepia`. -/
def cvn_fonte_sepia {D F : Type} (cv : Conversoes D F) (g : GerenciadorFontes F)
    (args : List (Var D)) : Int × GerenciadorFontes F :=
  match args with
  | a0 :: _ => g.clonar_com_filtro (get_int cv a0) TipoFiltro.SEPIA cv.zero cv.zero
  | _ => (-1, g)

/-- The export `cvn_fonte_saturacao`. -/
def cvn_fonte_saturacao {D F : Type} (cv : Conversoes D F) (g : GerenciadorFontes F)
    (args : List (Var D)) : Int × GerenciadorFontes F :=
  match args with
  | a0 :: a1 :: _ =>
    g.clonar_com_filtro (get_int cv a0) TipoFiltro.SATURACAO (get_float cv a1) cv.zero
  | _ => (-1, g)

/-- The export `cvn_fonte_flip_h`. -/
def cvn_fonte_flip_h {D F : Type} (cv : Conversoes D F) (g : GerenciadorFontes F)
    (args : List (Var D)) : Int × GerenciadorFontes F :=
  match args with
  | a0 :: _ => g.clonar_com_filtro (get_int cv a0) TipoFiltro.FLIP_H cv.zero cv.zero
  | _ => (-1, g)

/-- The export `cvn_fonte_flip_v`. -/
def cvn_fonte_flip_v {D F : Type} (cv : Conversoes D F) (g : GerenciadorFontes F)
    (args : List (Var D)) : Int × GerenciadorFontes F :=
  match args with
  | a0 :: _ => g.clonar_com_filtro (get_int cv a0) TipoFiltro.FLIP_V cv.zero cv.zero
  | _ => (-1, g)

/-- The export `cvn_fonte_redimensionar`. -/
def cvn_fonte_redimensionar {D F : Type} (cv : Conversoes D F) (g : GerenciadorFontes F)
    (args : List (Var D)) : Int × GerenciadorFontes F :=
  match args with
  | a0 :: a1 :: a2 :: _ =>
    g.clonar_com_filtro (get_int cv a0) TipoFiltro.REDIMENSIONAR (get_float cv a1)
      (get_float cv a2)
  | _ => (-1, g)

/-- Conversions between whole numbers, for evaluating the exports on concrete inputs. -/
def conversoes_exemplo : Conversoes Int Int where
  double_para_int := fun d => d
  double_para_float := fun d => d
  int_para_float := fun i => i
  zero := 0

/-- A registry with one live screen source under id 0 and a released entry under id 1. -/
def registo_com_liberada : GerenciadorFontes Int :=
  { fontes := [some (Fonte.criar_tela 0), none] }

/-! ## The stages of capturar_frame -/

/-- The entry `MonitorEnumProc` appends for the monitor `mi` when `n` monitors were
enumerated before it. -/
def monitor_info (n : Nat) (mi : MonitorSO) : MonitorInfo :=
  { indice := n, x := mi.left, y := mi.top, largura := mi.right - mi.left,
    altura := mi.bottom - mi.top, primario := mi.primario }

/-- The entries `EnumDisplayMonitors` makes `MonitorEnumProc` append, starting at index `n`. -/
def enumerar_desde : Nat → List MonitorSO → List MonitorInfo
  | _, [] => []
  | n, mi :: resto => monitor_info n mi :: enumerar_desde (n + 1) resto

/-- The last stage of `capturar_frame`: a captured block goes through the filter chain of
the source when the chain is not empty. -/
def filtrar_captura {F : Type} (ops : FloatOps F) (fonte : Fonte F) (c : ResultadoCaptura) :
    ResultadoCaptura :=
  match c.dados with
  | some dados =>
    if !fonte.filtros.isEmpty then
      let r := aplicar_filtros ops dados c.largura c.altura 4 fonte.filtros
      ⟨some r.dados, r.largura, r.altura, c.cameras⟩
    else c
  | none => c

/-- A desktop of two monitors: the primary one, 2 x 1 at the origin, and a second one,
1 x 2, to its right; every pixel of the screen carries its x coordinate in all channels. -/
def amb_dois : Ambiente where
  monitores := [⟨0, 0, 2, 1, true⟩, ⟨2, 0, 3, 2, false⟩]
  xvirtualscreen := 0
  yvirtualscreen := 0
  cxvirtualscreen := 3
  cyvirtualscreen := 2
  cxscreen := 2
  cyscreen := 1
  pixels_bgra := fun x _ largura altura => List.replicate (largura * altura * 4).toNat (toByte x)

/-! ## janela.hpp: the window registry -/

/-- The struct `JanelaInfo`, without its window and bitmap handles. -/
structure JanelaInfo where
  largura : Int
  altura : Int
  executando : Bool
deriving DecidableEq, Repr

/-- The class `GerenciadorJanelas`: the map from title to `JanelaInfo`, in insertion order.
The map `hwnd_para_titulo` is its inverse on the window handles and is not kept apart: a
window is named by its title. -/
structure GerenciadorJanelas where
  classe_registrada : Bool := false
  janelas : List (String × JanelaInfo) := []
deriving DecidableEq, Repr

/-- A window message as far as `WndProc` and the message loops tell messages apart; the
window it is addressed to is given by its title, `none` standing for a handle that
`hwnd_para_titulo` does not know. -/
inductive Mensagem where
  | WM_QUIT
  | WM_DESTROY (titulo : Option String)
  | WM_KEYDOWN_ESCAPE (titulo : Option String)
  | outra
deriving DecidableEq, Repr

/-- Outcome of the two operating-system calls of `obter_ou_criar` that can fail. -/
structure SOJanela where
  /-- Whether `RegisterClassExW` succeeds. -/
  registrar_ok : Bool
  /-- Whether `CreateWindowW` returns a window. -/
  criar_ok : Bool
deriving DecidableEq, Repr

/-- The assignment `janelas[titulo] = info`. -/
def definir_janela (janelas : List (String × JanelaInfo)) (titulo : String) (info : JanelaInfo) :
    List (String × JanelaInfo) :=
  match janelas.lookup titulo with
  | some _ => janelas.map (fun e => if e.1 == titulo then (titulo, info) else e)
  | none => janelas ++ [(titulo, info)]

/-- The call `janelas.erase(titulo)`. -/
def apagar_janela (janelas : List (String × JanelaInfo)) (titulo : String) :
    List (String × JanelaInfo) :=
  janelas.filter (fun e => !(e.1 == titulo))

/-- The window procedure `WndProc`, as far as it changes the registry: `WM_DESTROY` erases
the window, the escape key clears its `executando` flag. -/
def WndProc (g : GerenciadorJanelas) : Mensagem → GerenciadorJanelas
  | Mensagem.WM_DESTROY (some t) =>
    match g.janelas.lookup t with
    | some _ => { g with janelas := apagar_janela g.janelas t }
    | none => g
  | Mensagem.WM_KEYDOWN_ESCAPE (some t) =>
    match g.janelas.lookup t with
    | some info => { g with janelas := definir_janela g.janelas t { info with executando := false } }
    | none => g
  | _ => g

/-- The method `GerenciadorJanelas::obter_ou_criar`: the entry, if any, and the registry
afterwards; an existing entry is resized when the dimensions differ. -/
def GerenciadorJanelas.obter_ou_criar (g : GerenciadorJanelas) (so : SOJanela) (titulo : String)
    (largura altura : Int) : Option JanelaInfo × GerenciadorJanelas :=
  match g.janelas.lookup titulo with
  | some info =>
    if info.largura != largura || info.altura != altura then
      let info2 : JanelaInfo := { info with largura := largura, altura := altura }
      (some info2, { g with janelas := definir_janela g.janelas titulo info2 })
    else (some info, g)
  | none =>
    if !g.classe_registrada && !so.registrar_ok then (none, g)
    else
      let g1 : GerenciadorJanelas := { g with classe_registrada := true }
      if !so.criar_ok then (none, g1)
      else
        let info : JanelaInfo := { largura := largura, altura := altura, executando := true }
        (some info, { g1 with janelas := definir_janela g1.janelas titulo info })

/-- The method `GerenciadorJanelas::atualizar`: the returned flag and the registry
afterwards. The pixels go to the off-screen bitmap, which is state of the window system;
a negative byte count makes `malloc` return null. -/
def GerenciadorJanelas.atualizar (g : GerenciadorJanelas) (so : SOJanela) (titulo : String)
    (_dados : List Byte) (largura altura : Int) : Bool × GerenciadorJanelas :=
  let r := g.obter_ou_criar so titulo largura altura
  match r.1 with
  | none => (false, r.2)
  | some _ => if largura * altura * 4 < 0 then (false, r.2) else (true, r.2)

/-- The `PeekMessage` loop of `processar_mensagens` over the messages it is handed, followed
by the final read of `executando`. When the window was erased meanwhile the final read
goes through the iterator of the erased entry, whose flag was cleared just before the
erase: the value is `false`. -/
def drenar_mensagens (titulo : String) : List Mensagem → GerenciadorJanelas →
    Bool × GerenciadorJanelas
  | [], g =>
    match g.janelas.lookup titulo with
    | some info => (info.executando, g)
    | none => (false, g)
  | Mensagem.WM_QUIT :: _, g =>
    match g.janelas.lookup titulo with
    | some info =>
      (false, { g with janelas := definir_janela g.janelas titulo { info with executando := false } })
    | none => (false, g)
  | m :: resto, g => drenar_mensagens titulo resto (WndProc g m)

/-- The method `GerenciadorJanelas::processar_mensagens`, given the messages pending in the
queue. -/
def GerenciadorJanelas.processar_mensagens (g : GerenciadorJanelas) (titulo : String)
    (fila : List Mensagem) : Bool × GerenciadorJanelas :=
  match g.janelas.lookup titulo with
  | none => (false, g)
  | some _ => drenar_mensagens titulo fila g

/-! ## cvn.cpp: the playback loop -/

/-- What the world outside the process does while `cvn_reproduzir` runs. -/
structure Exterior where
  /-- The screen and monitors at the time of the `k`-th call of `capturar_frame`. -/
  amb : Nat → Ambiente
  /-- The samples the capture threads delivered through `BufferCB` since the previous call
  of `capturar_frame` and before the `k`-th one, as pairs (camera id, bytes). -/
  entregas : Nat → List (Int × List Byte)
  /-- The messages `PeekMessage` hands out during the `k`-th call of `processar_mensagens`. -/
  mensagens : Nat → List Mensagem
  /-- The outcome of the window-system calls of the `k`-th call of `atualizar`. -/
  janela_so : Nat → SOJanela

/-- The state of the process: the three registries, and counters of the calls made so far
together with the arguments of the `Sleep` calls, oldest first. -/
structure Processo (F : Type) where
  fontes : GerenciadorFontes F := {}
  cameras : GerenciadorCameras := {}
  janelas : GerenciadorJanelas := {}
  capturas : Nat := 0
  atualizacoes : Nat := 0
  processamentos : Nat := 0
  sleeps : List Int := []
deriving DecidableEq, Repr

/-- A capture thread delivering one sample: `BufferCB` on the callback of the camera, when
the camera is still open. -/
def GerenciadorCameras.entregar (g : GerenciadorCameras) (e : Int × List Byte) :
    GerenciadorCameras :=
  if e.1 < 0 ∨ e.1 ≥ (g.cameras.length : Int) then g
  else
    match g.cameras.getD e.1.toNat none with
    | none => g
    | some cam =>
      match cam.callback with
      | none => g
      | some cb =>
        { g with cameras :=
            g.cameras.set e.1.toNat (some { cam with callback := some (cb.BufferCB e.2) }) }

/-- A call of `capturar_frame` inside the process: the pending deliveries land, the frame is
captured from the current screen, the call is counted. -/
def Processo.capturar {F : Type} (p : Processo F) (ops : FloatOps F) (ext : Exterior)
    (fonte : Option (Fonte F)) (largura altura : Int) : ResultadoCaptura × Processo F :=
  let cams := (ext.entregas p.capturas).foldl GerenciadorCameras.entregar p.cameras
  let r := capturar_frame ops (ext.amb p.capturas) cams fonte largura altura
  (r, { p with cameras := r.cameras, capturas := p.capturas + 1 })

/-- A call of `GerenciadorJanelas::atualizar` inside the process. -/
def Processo.atualizar {F : Type} (p : Processo F) (ext : Exterior) (titulo : String)
    (dados : List Byte) (largura altura : Int) : Processo F :=
  { p with
    janelas := (p.janelas.atualizar (ext.janela_so p.atualizacoes) titulo dados largura altura).2,
    atualizacoes := p.atualizacoes + 1 }

/-- A call of `GerenciadorJanelas::processar_mensagens` inside the process. -/
def Processo.processar_mensagens {F : Type} (p : Processo F) (ext : Exterior) (titulo : String) :
    Bool × Processo F :=
  let r := p.janelas.processar_mensagens titulo (ext.mensagens p.processamentos)
  (r.1, { p with janelas := r.2, processamentos := p.processamentos + 1 })

/-- A call of `Sleep(ms)`. -/
def Processo.dormir {F : Type} (p : Processo F) (ms : Int) : Processo F :=
  { p with sleeps := p.sleeps ++ [ms] }

/-- The local variables of `cvn_reproduzir` after its first loop, with the process. -/
structure ResultadoInicial (F : Type) where
  dados : Option (List Byte)
  largura : Int
  altura : Int
  p : Processo F
deriving DecidableEq, Repr

/-- The loop `while (!dados && tentativas < 100)` of `cvn_reproduzir`; the first argument is
`100 - tentativas`, the number of attempts still allowed. -/
def esperar_primeiro_frame {F : Type} (ops : FloatOps F) (ext : Exterior) (fonte : Fonte F) :
    Nat → Processo F → Int → Int → ResultadoInicial F
  | 0, p, largura, altura => ⟨none, largura, altura, p⟩
  | n + 1, p, largura, altura =>
    let c := p.capturar ops ext (some fonte) largura altura
    match c.1.dados with
    | some dados => ⟨some dados, c.1.largura, c.1.altura, c.2⟩
    | none => esperar_primeiro_frame ops ext fonte n (c.2.dormir 50) c.1.largura c.1.altura

/-- The loop `while (true)` of `cvn_reproduzir`, run for at most `fuel` iterations: the
process at the `break`, or `none` when the iterations are used up. -/
def laco_exibicao {F : Type} (ops : FloatOps F) (ext : Exterior) (titulo : String)
    (fonte : Fonte F) (ms : Int) : Nat → Processo F → Int → Int → Option (Processo F)
  | 0, _, _, _ => none
  | fuel + 1, p, largura, altura =>
    let r := p.processar_mensagens ext titulo
    if !r.1 then some r.2
    else
      let c := r.2.capturar ops ext (some fonte) largura altura
      let p2 :=
        match c.1.dados with
        | some dados => c.2.atualizar ext titulo dados c.1.largura c.1.altura
        | none => c.2
      laco_exibicao ops ext titulo fonte ms fuel (p2.dormir ms) c.1.largura c.1.altura

/-- The export `cvn_reproduzir` on its three decoded arguments: the returned flag and the
process afterwards, or `none` when the playback loop is still running after `fuel`
iterations. -/
def cvn_reproduzir {F : Type} (ops : FloatOps F) (ext : Exterior) (fuel : Nat) (p : Processo F)
    (titulo : String) (fonte_id ms : Int) : Option (Bool × Processo F) :=
  match p.fontes.obter fonte_id with
  | none => some (false, p)
  | some fonte =>
    if !fonte.valida then some (false, p)
    else
      let ini := esperar_primeiro_frame ops ext fonte 100 p 0 0
      match ini.dados with
      | none => some (false, ini.p)
      | some dados =>
        let p1 := ini.p.atualizar ext titulo dados ini.largura ini.altura
        match laco_exibicao ops ext titulo fonte ms fuel p1 ini.largura ini.altura with
        | none => none
        | some p2 =>
          if fonte.tipo = TipoFonte.CAMERA then
            some (true, { p2 with cameras := p2.cameras.fechar fonte.indice })
          else some (true, p2)

/-- The process and the two dimension variables after `k` attempts of the first loop that
all returned no frame. -/
def falhas {F : Type} (ops : FloatOps F) (ext : Exterior) (fonte : Fonte F) :
    Nat → Processo F × Int × Int → Processo F × Int × Int
  | 0, s => s
  | k + 1, s =>
    let c := s.1.capturar ops ext (some fonte) s.2.1 s.2.2
    falhas ops ext fonte k (c.2.dormir 50, c.1.largura, c.1.altura)

/-- An exterior in which the desktop is `amb_dois`, no camera delivers a sample, a quit
message is pending at every call of `processar_mensagens`, and windows can be created. -/
def ext_exemplo : Exterior where
  amb := fun _ => amb_dois
  entregas := fun _ => []
  mensagens := fun _ => [Mensagem.WM_QUIT]
  janela_so := fun _ => ⟨true, true⟩

/-- A process whose source registry holds, under id 0, a region source of width 0 and,
under id 1, a screen source for monitor 0. -/
def processo_exemplo : Processo Int :=
  { fontes := { fontes := [some (Fonte.criar_regiao 0 0 0 0 1), some (Fonte.criar_tela 0)] } }

/-- A process with one open 1 x 1 camera whose slot holds a fresh sample, and the camera
source for it under id 0. -/
def processo_camera : Processo Int :=
  { fontes := { fontes := [some (Fonte.criar_camera 0)] },
    cameras := { cameras := [some
      { callback := some { dados := some [1, 2, 3], largura := 1, altura := 1, tamanho := 3,
                           novo_frame := true },
        ativa := true, largura := 1, altura := 1 }] } }

/-- The image positions `p = (nx, ny)` with `nx < w`, `ny < h`, `|nx - x| <= r` and
`|ny - y| <= r`: the window of radius `r` around `(x, y)`, clipped to the image. -/
def janela_blur (w h : Nat) (r : Int) (x y : Nat) : List (Nat × Nat) :=
  (List.product (List.range w) (List.range h)).filter (fun p =>
    decide (|((p.1 : Nat) : Int) - ((x : Nat) : Int)| ≤ r ∧
      |((p.2 : Nat) : Int) - ((y : Nat) : Int)| ≤ r))

/-- The box mean of channel `k` around `(x, y)`: the sum of that channel of the block `d`
over the clipped window, divided (truncating) by the number of window positions. -/
def media_janela (d : List Byte) (w h c : Nat) (r : Int) (x y k : Nat) : Nat :=
  ((janela_blur w h r x y).map (fun p => (ler_byte d ((p.2 * w + p.1) * c + k)).val)).sum
    / (janela_blur w h r x y).length

/-- What the window position `dy = i - raio`, `dx = j - raio` of the loops of
`Filtros::blur` adds to a sum whose summand at the image position `(nx, ny)` is
`g nx ny`. -/
def blur_termo (g : Nat → Nat → Nat) (largura altura : Nat) (raio : Int) (x y i j : Nat) :
    Nat :=
  let dy : Int := ((i : Nat) : Int) - raio
  let dx : Int := ((j : Nat) : Int) - raio
  let nx : Int := ((x : Nat) : Int) + dx
  let ny : Int := ((y : Nat) : Int) + dy
  if nx ≥ 0 ∧ nx < ((largura : Nat) : Int) ∧ ny ≥ 0 ∧ ny < ((altura : Nat) : Int) then
    g nx.toNat ny.toNat
  else 0

/-- The byte `Filtros::blur` stores in colour channel `t.2.2` of the pixel in column `t.2.1`
of row `t.1`, computed from the snapshot `temp`. -/
def blur_valor (temp : List Byte) (largura altura canais : Nat) (raio : Int)
    (t : Nat × Nat × Nat) : Byte :=
  let s := Filtros.blur_somas temp largura altura canais raio t.2.1 t.1
  toByte (Int.tdiv (([s.1, s.2.1, s.2.2.1] : List Int).getD t.2.2 0) s.2.2.2)

/-- A 2 x 2 RGBA frame with four different colours. -/
def frame_quatro : List Byte :=
  [10, 20, 30, 255, 20, 40, 60, 255, 30, 60, 90, 255, 41, 80, 120, 255]

/-! ## The value bordas stores -/

/-- The byte `Filtros::bordas` stores in the three colour channels of the interior pixel in
column `t.2.1` of row `t.1`, computed from the grayscale copy `temp`. -/
def bordas_valor (temp : List Byte) (largura canais : Nat) (t : Nat × Nat × Nat) : Byte :=
  let s := Filtros.bordas_somas temp largura canais t.2.1 t.1
  clamp_byte (Nat.sqrt (s.1 * s.1 + s.2 * s.2).toNat : Int)

/-- A 3 x 3 block with three channels, black except for the bottom-right pixel, which is
the green `(0, 4, 0)` of luminance `0.587 * 4 = 2.348`, stored as the gray value 2. -/
def frame_sobel : List Byte :=
  [0, 0, 0, 0, 0, 0, 0, 0, 0,
   0, 0, 0, 0, 0, 0, 0, 0, 0,
   0, 0, 0, 0, 0, 0, 0, 4, 0]

/-! ## The Sobel magnitude, as the specification words it -/

/-- The three bytes `cinza` stores for a pixel: the luminance, three times. -/
def cinza_rgb {F : Type} (ops : FloatOps F) (r g b : Byte) : Byte × Byte × Byte :=
  (ops.luminancia r g b, ops.luminancia r g b, ops.luminancia r g b)

/-- The Sobel kernel `gx`. -/
def nucleo_gx : List (List Int) := [[-1, 0, 1], [-2, 0, 2], [-1, 0, 1]]

/-- The Sobel kernel `gy`. -/
def nucleo_gy : List (List Int) := [[-1, -2, -1], [0, 0, 0], [1, 2, 1]]

/-- The gray value of the pixel `(x, y)` of the block `d`: the luminance of its colour. -/
def cinza_de {F : Type} (ops : FloatOps F) (d : List Byte) (w c : Nat) (x y : Nat) : Int :=
  ((ops.luminancia (ler_byte d ((y * w + x) * c + 0)) (ler_byte d ((y * w + x) * c + 1))
    (ler_byte d ((y * w + x) * c + 2))).val : Int)

/-- The response at `(x, y)` of a 3 x 3 kernel applied to the gray image `g`: the sum over
the nine neighbours `(x + j - 1, y + i - 1)` of the gray value times the kernel entry in
row `i` and column `j`. -/
def resposta (nucleo : List (List Int)) (g : Nat → Nat → Int) (x y : Nat) : Int :=
  ((List.range 3).map (fun i =>
    ((List.range 3).map (fun j =>
      g (x + j - 1) (y + i - 1) * ((nucleo.getD i []).getD j 0))).sum)).sum

/-- The square root of `n` rounded to the nearest integer: the least `m` with
`sqrt n < m + 1/2`, that is, with `4 * n < (2 * m + 1)^2`. -/
def raiz_arredondada (n : Nat) : Nat :=
  ((List.range (n + 1)).find? (fun m => decide (4 * n < (2 * m + 1) * (2 * m + 1)))).getD 0

/-! ## The pixel loop of obter_frame_rgba -/

/-- The byte the pixel loop of `obter_frame_rgba` stores in channel `t.2.2` of the output
pixel in column `t.2.1` of row `t.1`: the three colour bytes of the source pixel in reverse
order, then 255. -/
def bgr_valor (dados : List Byte) (largura altura : Nat) (t : Nat × Nat × Nat) : Byte :=
  let src_y := altura - 1 - t.1
  let src_idx := (src_y * largura + t.2.1) * 3
  ([ler_byte dados (src_idx + 2), ler_byte dados (src_idx + 1), ler_byte dados (src_idx + 0),
    255] : List Byte).getD t.2.2 0

/-- The pixel loop of `obter_frame_rgba` with its loads recorded instead of performed: the
indices of `dados` it reads, in program order. -/
def bgr_para_rgba_leituras (largura altura : Nat) : List Nat :=
  (List.range altura).foldl (fun lidos y =>
    (List.range largura).foldl (fun lidos x =>
      let src_y := altura - 1 - y
      let src_idx := (src_y * largura + x) * 3
      lidos ++ [src_idx + 2, src_idx + 1, src_idx + 0]) lidos) []

/-- A slot of a 1 x 2 session that holds a fresh sample of two BGR pixels. -/
def slot_exemplo : SampleGrabberCallback :=
  { dados := some [1, 2, 3, 4, 5, 6], largura := 1, altura := 2, tamanho := 6,
    novo_frame := true }

/-- The method `obter_frame_rgba` with its loads from the stored sample recorded: the
indices of `dados` a call reads, in program order (none when the call returns early). -/
def SampleGrabberCallback.obter_frame_rgba_leituras (s : SampleGrabberCallback) : List Nat :=
  match s.dados with
  | none => []
  | some _ =>
    if !s.novo_frame || s.largura ≤ 0 || s.altura ≤ 0 then []
    else bgr_para_rgba_leituras s.largura.toNat s.altura.toNat

/-! ## The stores of rotacionar -/

/-- The function `Filtros::rotacionar` with the stores into the new block recorded instead
of performed: the positions it writes, in program order, and the number of bytes it
allocated for the new block. For an angle that normalises to 0 the block is filled by
`memcpy`, which writes the positions `0, ..., tamanho - 1`. -/
def Filtros.rotacionar_destinos (largura altura canais : Nat) (graus : Int) : List Nat × Nat :=
  let graus := Int.tmod (Int.tmod graus 360 + 360) 360
  if graus = 0 then
    let tamanho := largura * altura * canais
    (List.range tamanho, tamanho)
  else
    let nova_largura := if graus = 90 ∨ graus = 270 then altura else largura
    let nova_altura := if graus = 90 ∨ graus = 270 then largura else altura
    let escritas := (List.range altura).foldl (fun escritas y =>
      (List.range largura).foldl (fun escritas x =>
        let nx := if graus = 90 then altura - 1 - y
                  else if graus = 180 then largura - 1 - x else y
        let ny := if graus = 90 then x
                  else if graus = 180 then altura - 1 - y else largura - 1 - x
        let idx_destino := (ny * nova_largura + nx) * canais
        (List.range canais).foldl (fun escritas c =>
          escritas ++ [idx_destino + c]) escritas) escritas) []
    (escritas, nova_largura * nova_altura * canais)

/-! ## The bytes sepia and saturacao store -/

/-- The three bytes `sepia` stores for a pixel. -/
def sepia_rgb {F : Type} (ops : FloatOps F) (r g b : Byte) : Byte × Byte × Byte :=
  (clamp_byte (ops.sepia_r r g b), clamp_byte (ops.sepia_g r g b),
   clamp_byte (ops.sepia_b r g b))

/-- The three bytes `saturacao` stores for a pixel. -/
def saturacao_rgb {F : Type} (ops : FloatOps F) (valor : F) (r g b : Byte) :
    Byte × Byte × Byte :=
  (clamp_byte (ops.saturacao_r valor r g b), clamp_byte (ops.saturacao_g valor r g b),
   clamp_byte (ops.saturacao_b valor r g b))

/-! ## cvn.cpp: closing a camera through a source handle -/

/-- The export `cvn_camera_fechar` on its decoded argument: the returned flag and the
process afterwards. -/
def cvn_camera_fechar {F : Type} (p : Processo F) (fonte_id : Int) : Bool × Processo F :=
  let cameras :=
    match p.fontes.obter fonte_id with
    | some fonte =>
      if fonte.tipo = TipoFonte.CAMERA then p.cameras.fechar fonte.indice else p.cameras
    | none => p.cameras
  (true, { p with cameras := cameras, fontes := p.fontes.liberar fonte_id })

/-- The session `id` of a camera registry is closed: `id` is negative, or the camera vector
holds no camera at position `id` (a null pointer, or no entry at all); these are the ids
for which `ler` returns null before it looks at a callback. -/
def GerenciadorCameras.SessaoFechada (g : GerenciadorCameras) (id : Int) : Prop :=
  id < 0 ∨ g.cameras.getD id.toNat none = none

/-- A chain of one grayscale filter. -/
def cadeia_exemplo : List (ConfigFiltro Int) := [⟨TipoFiltro.CINZA, 0, 0⟩]

/-- The process `processo_camera` after the camera source under id 0 was cloned with
`cadeia_exemplo`: the derived source is under id 1. -/
def processo_derivada : Processo Int :=
  { processo_camera with
    fontes := (processo_camera.fontes.clonar_em_cadeia 0 cadeia_exemplo).2 }

/-! ## Chains without a rotate spec -/

/-- A `2904 x 2904` RGBA frame whose bytes are all 255: `2904 * 2904 = 8433216` pixels, so
that the sum of one channel over the whole frame is `8433216 * 255 = 2150470080`, above
`2^31 - 1 = 2147483647`. -/
def frame_branco : List Byte := List.replicate (2904 * 2904 * 4) 255
/-! ## Index arithmetic of interleaved pixel blocks -/

/-- A position `a * c + k` with `k < c` determines `a` and `k`. -/
theorem mul_add_inj {c a k a2 k2 : Nat} (hk : k < c) (hk2 : k2 < c)
    (h : a * c + k = a2 * c + k2) : a = a2 ∧ k = k2 := by
  have hc : 0 < c := by omega
  have h1 : (a * c + k) / c = a := by
    rw [Nat.mul_comm, Nat.mul_add_div hc, Nat.div_eq_of_lt hk]; rfl
  have h2 : (a2 * c + k2) / c = a2 := by
    rw [Nat.mul_comm, Nat.mul_add_div hc, Nat.div_eq_of_lt hk2]; rfl
  have ha : a = a2 := by rw [← h1, ← h2, h]
  subst ha
  exact ⟨rfl, by omega⟩

/-- The byte index `(y * w + x) * c + k` of channel `k` of pixel `(x, y)` determines
`y`, `x` and `k`. -/
theorem idx_inj {w c y x k y2 x2 k2 : Nat} (hx : x < w) (hx2 : x2 < w) (hk : k < c)
    (hk2 : k2 < c) (h : (y * w + x) * c + k = (y2 * w + x2) * c + k2) :
    y = y2 ∧ x = x2 ∧ k = k2 := by
  obtain ⟨h1, h2⟩ := mul_add_inj hk hk2 h
  obtain ⟨h3, h4⟩ := mul_add_inj hx hx2 h1
  exact ⟨h3, h4, h2⟩

/-- A position `a * c + k` with `a < n` and `k < c` lies below `n * c`. -/
theorem mul_add_lt {n c a k : Nat} (ha : a < n) (hk : k < c) : a * c + k < n * c := by
  have h1 : (a + 1) * c ≤ n * c := Nat.mul_le_mul_right c ha
  have h2 : (a + 1) * c = a * c + c := by ring
  omega

/-- The byte index of channel `k` of pixel `(x, y)` lies inside a `w x h` block. -/
theorem idx_lt {w h c y x k : Nat} (hy : y < h) (hx : x < w) (hk : k < c) :
    (y * w + x) * c + k < w * h * c := by
  have h1 : y * w + x < h * w := mul_add_lt hy hx
  have h2 := mul_add_lt (c := c) (k := k) h1 hk
  have h3 : h * w * c = w * h * c := by ring
  omega

/-- Every position below `n * c` is `a * c + k` with `a < n` and `k < c`. -/
theorem exists_mul_add {n c i : Nat} (hi : i < n * c) :
    ∃ a k, a < n ∧ k < c ∧ i = a * c + k := by
  have hc : 0 < c := by
    rcases Nat.eq_zero_or_pos c with h0 | h0
    · subst h0; simp at hi
    · exact h0
  refine ⟨i / c, i % c, ?_, Nat.mod_lt _ hc, (Nat.div_add_mod' i c).symm⟩
  exact (Nat.div_lt_iff_lt_mul hc).2 hi

/-- Every position inside a `w x h` block with `c` channels is the byte index of one
channel of one pixel. -/
theorem exists_idx {w h c i : Nat} (hi : i < w * h * c) :
    ∃ y x k, y < h ∧ x < w ∧ k < c ∧ i = (y * w + x) * c + k := by
  obtain ⟨a, k, ha, hk, rfl⟩ := exists_mul_add hi
  have ha2 : a < h * w := by rw [Nat.mul_comm]; exact ha
  obtain ⟨y, x, hy, hx, rfl⟩ := exists_mul_add ha2
  exact ⟨y, x, k, hy, hx, hk, rfl⟩

/-! ## Arithmetic of `int` values -/

/-- Inside the range of an `int` the reduction `int32` changes nothing. -/
theorem int32_of_range (v : Int) (h1 : -2147483648 ≤ v) (h2 : v ≤ 2147483647) :
    int32 v = v := by
  unfold int32
  omega

/-- The value `int32` returns lies in the range of an `int`. -/
theorem int32_range (v : Int) : -2147483648 ≤ int32 v ∧ int32 v ≤ 2147483647 := by
  unfold int32
  omega

/-- Reducing an intermediate sum does not change the reduced total. -/
theorem int32_int32_add (a b : Int) : int32 (int32 a + b) = int32 (a + b) := by
  unfold int32
  omega

/-! ## Loops that store into a block -/

/-- A loop nest over two ranges is one loop over the pairs, in the same order. -/
theorem foldl_product {α β γ : Type} (l1 : List α) (l2 : List β) (g : γ → α × β → γ)
    (init : γ) :
    (List.product l1 l2).foldl g init
      = l1.foldl (fun acc a => l2.foldl (fun acc b => g acc (a, b)) acc) init := by
  induction l1 generalizing init with
  | nil => rfl
  | cons a l1 ih =>
    have h : List.product (a :: l1) l2 = List.map (fun b => (a, b)) l2 ++ List.product l1 l2 :=
      List.product_cons a l1 l2
    rw [h, List.foldl_append, List.foldl_map, ih, List.foldl_cons]

/-- Load through `getElem?`. -/
theorem ler_byte_eq (p : List Byte) (i : Nat) : ler_byte p i = p[i]?.getD 0 := by
  unfold ler_byte
  exact List.getD_eq_getElem?_getD p i 0

/-- Two blocks that agree at a position load the same byte there. -/
theorem ler_byte_congr {p q : List Byte} {i j : Nat} (h : p[i]? = q[j]?) :
    ler_byte p i = ler_byte q j := by
  rw [ler_byte_eq, ler_byte_eq, h]

/-- Inside the block a load returns the stored element. -/
theorem getElem?_eq_ler_byte {p : List Byte} {i : Nat} (h : i < p.length) :
    p[i]? = some (ler_byte p i) := by
  rw [ler_byte_eq, List.getElem?_eq_getElem h]; rfl

section modificar
variable {τ : Type} (f : τ → Nat) (v : τ → Byte → Byte)

/-- A loop whose iteration `t` rewrites the byte at `f t` from its current value keeps the
size of the block. -/
theorem length_foldl_modificar (ts : List τ) (d : List Byte) :
    (ts.foldl (fun d t => d.set (f t) (v t (ler_byte d (f t)))) d).length = d.length := by
  induction ts generalizing d with
  | nil => rfl
  | cons a ts ih => rw [List.foldl_cons, ih, List.length_set]

/-- Such a loop leaves alone every position that no iteration addresses. -/
theorem getElem?_foldl_modificar_of_ne (ts : List τ) (d : List Byte) (k : Nat)
    (h : ∀ t ∈ ts, f t ≠ k) :
    (ts.foldl (fun d t => d.set (f t) (v t (ler_byte d (f t)))) d)[k]? = d[k]? := by
  induction ts generalizing d with
  | nil => rfl
  | cons a ts ih =>
    rw [List.foldl_cons, ih _ (fun t ht => h t (List.mem_cons_of_mem _ ht))]
    exact List.getElem?_set_ne (h a (List.mem_cons_self _ _))

/-- When the iterations address pairwise different positions, the position of iteration
`t` ends up holding the value that iteration computes from the original byte. -/
theorem getElem?_foldl_modificar_of_mem (ts : List τ) (d : List Byte) (hnd : ts.Nodup)
    (hinj : ∀ a ∈ ts, ∀ b ∈ ts, f a = f b → a = b) (t : τ) (ht : t ∈ ts)
    (hlt : f t < d.length) :
    (ts.foldl (fun d t => d.set (f t) (v t (ler_byte d (f t)))) d)[f t]?
      = some (v t (ler_byte d (f t))) := by
  induction ts generalizing d with
  | nil => cases ht
  | cons a ts ih =>
    rw [List.foldl_cons]
    obtain ⟨hnot, hnd2⟩ := List.nodup_cons.1 hnd
    rcases List.mem_cons.1 ht with hta | hts
    · subst hta
      rw [getElem?_foldl_modificar_of_ne]
      · exact List.getElem?_set_self hlt
      · intro s hs hfs
        have : s = t := hinj s (List.mem_cons_of_mem _ hs) t (List.mem_cons_self _ _) hfs
        exact hnot (this ▸ hs)
    · have hne : f a ≠ f t := by
        intro hfa
        have : a = t := hinj a (List.mem_cons_self _ _) t (List.mem_cons_of_mem _ hts) hfa
        exact hnot (this ▸ hts)
      have hinj2 : ∀ a ∈ ts, ∀ b ∈ ts, f a = f b → a = b := fun x hx y hy =>
        hinj x (List.mem_cons_of_mem _ hx) y (List.mem_cons_of_mem _ hy)
      rw [ih _ hnd2 hinj2 hts (by rw [List.length_set]; exact hlt)]
      rw [ler_byte_congr (List.getElem?_set_ne hne)]

end modificar

/-! ## Loops that swap bytes -/

/-- A swap keeps the size of the block. -/
theorem length_swap_bytes (p : List Byte) (i j : Nat) : (swap_bytes p i j).length = p.length := by
  simp [swap_bytes]

/-- A swap leaves every other position alone. -/
theorem getElem?_swap_bytes_of_ne (p : List Byte) {i j k : Nat} (hi : i ≠ k) (hj : j ≠ k) :
    (swap_bytes p i j)[k]? = p[k]? := by
  unfold swap_bytes
  rw [List.getElem?_set_ne hj, List.getElem?_set_ne hi]

/-- After a swap the first position holds what the second one held. -/
theorem getElem?_swap_bytes_left (p : List Byte) {i j : Nat} (hi : i < p.length)
    (hj : j < p.length) : (swap_bytes p i j)[i]? = p[j]? := by
  unfold swap_bytes
  by_cases hij : j = i
  · subst hij
    rw [List.getElem?_set_self (by rw [List.length_set]; exact hj)]
    exact (getElem?_eq_ler_byte hj).symm
  · rw [List.getElem?_set_ne hij, List.getElem?_set_self hi]
    exact (getElem?_eq_ler_byte hj).symm

/-- After a swap the second position holds what the first one held. -/
theorem getElem?_swap_bytes_right (p : List Byte) {i j : Nat} (hi : i < p.length)
    (hj : j < p.length) : (swap_bytes p i j)[j]? = p[i]? := by
  unfold swap_bytes
  rw [List.getElem?_set_self (by rw [List.length_set]; exact hj)]
  exact (getElem?_eq_ler_byte hi).symm

section trocar
variable {τ : Type} (f g : τ → Nat)

/-- A loop of swaps keeps the size of the block. -/
theorem length_foldl_swap (ts : List τ) (d : List Byte) :
    (ts.foldl (fun d t => swap_bytes d (f t) (g t)) d).length = d.length := by
  induction ts generalizing d with
  | nil => rfl
  | cons a ts ih => rw [List.foldl_cons, ih, length_swap_bytes]

/-- A loop of swaps leaves alone every position that no swap addresses. -/
theorem getElem?_foldl_swap_of_ne (ts : List τ) (d : List Byte) (k : Nat)
    (h : ∀ t ∈ ts, f t ≠ k ∧ g t ≠ k) :
    (ts.foldl (fun d t => swap_bytes d (f t) (g t)) d)[k]? = d[k]? := by
  induction ts generalizing d with
  | nil => rfl
  | cons a ts ih =>
    rw [List.foldl_cons, ih _ (fun t ht => h t (List.mem_cons_of_mem _ ht))]
    exact getElem?_swap_bytes_of_ne d (h a (List.mem_cons_self _ _)).1
      (h a (List.mem_cons_self _ _)).2

/-- When the swaps of a loop address pairwise different positions, each swapped pair ends
up exchanged with respect to the original block. -/
theorem getElem?_foldl_swap_of_mem (ts : List τ) (d : List Byte) (hnd : ts.Nodup)
    (hf : ∀ a ∈ ts, ∀ b ∈ ts, f a = f b → a = b)
    (hg : ∀ a ∈ ts, ∀ b ∈ ts, g a = g b → a = b)
    (hfg : ∀ a ∈ ts, ∀ b ∈ ts, f a ≠ g b)
    (t : τ) (ht : t ∈ ts) (hlt : f t < d.length) (hlt2 : g t < d.length) :
    (ts.foldl (fun d t => swap_bytes d (f t) (g t)) d)[f t]? = d[g t]? ∧
    (ts.foldl (fun d t => swap_bytes d (f t) (g t)) d)[g t]? = d[f t]? := by
  induction ts generalizing d with
  | nil => cases ht
  | cons a ts ih =>
    rw [List.foldl_cons]
    obtain ⟨hnot, hnd2⟩ := List.nodup_cons.1 hnd
    have ha : a ∈ a :: ts := List.mem_cons_self _ _
    rcases List.mem_cons.1 ht with hta | hts
    · subst hta
      constructor
      · rw [getElem?_foldl_swap_of_ne]
        · exact getElem?_swap_bytes_left d hlt hlt2
        · intro s hs
          have hs2 : s ∈ t :: ts := List.mem_cons_of_mem _ hs
          exact ⟨fun h => hnot (hf s hs2 t ha h ▸ hs), fun h => hfg t ha s hs2 h.symm⟩
      · rw [getElem?_foldl_swap_of_ne]
        · exact getElem?_swap_bytes_right d hlt hlt2
        · intro s hs
          have hs2 : s ∈ t :: ts := List.mem_cons_of_mem _ hs
          exact ⟨fun h => hfg s hs2 t ha h, fun h => hnot (hg s hs2 t ha h ▸ hs)⟩
    · have ht2 : t ∈ a :: ts := List.mem_cons_of_mem _ hts
      have hne : a ≠ t := fun h => hnot (h ▸ hts)
      have h1 : f a ≠ f t := fun h => hne (hf a ha t ht2 h)
      have h2 : g a ≠ g t := fun h => hne (hg a ha t ht2 h)
      have h3 : f a ≠ g t := hfg a ha t ht2
      have h4 : g a ≠ f t := fun h => hfg t ht2 a ha h.symm
      have key := ih (swap_bytes d (f a) (g a)) hnd2
        (fun x hx y hy => hf x (List.mem_cons_of_mem _ hx) y (List.mem_cons_of_mem _ hy))
        (fun x hx y hy => hg x (List.mem_cons_of_mem _ hx) y (List.mem_cons_of_mem _ hy))
        (fun x hx y hy => hfg x (List.mem_cons_of_mem _ hx) y (List.mem_cons_of_mem _ hy))
        hts (by rw [length_swap_bytes]; exact hlt) (by rw [length_swap_bytes]; exact hlt2)
      rw [key.1, key.2, getElem?_swap_bytes_of_ne d h3 h2, getElem?_swap_bytes_of_ne d h1 h4]
      exact ⟨rfl, rfl⟩

end trocar

/-! ## flip_h -/

/-- The loop nest of the filter `flip_h` is one loop of byte swaps over the triples
(row, column, channel). -/
theorem flip_h_eq_foldl (d : List Byte) (w h c : Nat) :
    Filtros.flip_h d w h c
      = (List.product (List.range h) (List.product (List.range (w / 2)) (List.range c))).foldl
          (fun d t => swap_bytes d (idx_px w c t) (idx_px_espelho w c t)) d := by
  simp only [foldl_product]
  rfl

/-- Membership in the list of triples a three-level loop nest runs through. -/
theorem mem_triplos {h w c y x k : Nat} :
    (y, x, k) ∈ List.product (List.range h) (List.product (List.range w) (List.range c))
      ↔ y < h ∧ x < w ∧ k < c := by
  simp [List.pair_mem_product]

/-- A three-level loop nest visits every triple once. -/
theorem nodup_triplos (h w c : Nat) :
    (List.product (List.range h) (List.product (List.range w) (List.range c))).Nodup :=
  List.Nodup.product (List.nodup_range h) (List.Nodup.product (List.nodup_range w) (List.nodup_range c))

/-- The filter `flip_h` keeps the size of the block. -/
theorem length_flip_h (d : List Byte) (w h c : Nat) :
    (Filtros.flip_h d w h c).length = d.length := by
  rw [flip_h_eq_foldl, length_foldl_swap]

/-- Closed form of `flip_h`: channel `k` of the pixel in column `w - 1 - x` of row `y` holds
what channel `k` of the pixel in column `x` of that row held. -/
theorem flip_h_getElem? (d : List Byte) (w h c : Nat) (hlen : w * h * c ≤ d.length)
    {y x k : Nat} (hy : y < h) (hx : x < w) (hk : k < c) :
    (Filtros.flip_h d w h c)[(y * w + (w - 1 - x)) * c + k]? = d[(y * w + x) * c + k]? := by
  rw [flip_h_eq_foldl]
  have hF : ∀ a ∈ List.product (List.range h) (List.product (List.range (w / 2)) (List.range c)),
      ∀ b ∈ List.product (List.range h) (List.product (List.range (w / 2)) (List.range c)),
      idx_px w c a = idx_px w c b → a = b := by
    rintro ⟨y1, x1, k1⟩ ha ⟨y2, x2, k2⟩ hb hab
    obtain ⟨-, ha2, ha3⟩ := mem_triplos.1 ha
    obtain ⟨-, hb2, hb3⟩ := mem_triplos.1 hb
    simp only [idx_px, idx_px_espelho] at hab
    obtain ⟨e1, e2, e3⟩ := idx_inj (w := w) (by omega) (by omega) ha3 hb3 hab
    subst e1 e2 e3; rfl
  have hG : ∀ a ∈ List.product (List.range h) (List.product (List.range (w / 2)) (List.range c)),
      ∀ b ∈ List.product (List.range h) (List.product (List.range (w / 2)) (List.range c)),
      idx_px_espelho w c a = idx_px_espelho w c b → a = b := by
    rintro ⟨y1, x1, k1⟩ ha ⟨y2, x2, k2⟩ hb hab
    obtain ⟨-, ha2, ha3⟩ := mem_triplos.1 ha
    obtain ⟨-, hb2, hb3⟩ := mem_triplos.1 hb
    simp only [idx_px, idx_px_espelho] at hab
    obtain ⟨e1, e2, e3⟩ := idx_inj (w := w) (by omega) (by omega) ha3 hb3 hab
    have e4 : x1 = x2 := by omega
    subst e1 e4 e3; rfl
  have hFG : ∀ a ∈ List.product (List.range h) (List.product (List.range (w / 2)) (List.range c)),
      ∀ b ∈ List.product (List.range h) (List.product (List.range (w / 2)) (List.range c)),
      idx_px w c a ≠ idx_px_espelho w c b := by
    rintro ⟨y1, x1, k1⟩ ha ⟨y2, x2, k2⟩ hb hab
    obtain ⟨-, ha2, ha3⟩ := mem_triplos.1 ha
    obtain ⟨-, hb2, hb3⟩ := mem_triplos.1 hb
    simp only [idx_px, idx_px_espelho] at hab
    obtain ⟨e1, e2, e3⟩ := idx_inj (w := w) (by omega) (by omega) ha3 hb3 hab
    omega
  by_cases h1 : x < w / 2
  · have ht : (y, x, k) ∈ List.product (List.range h)
        (List.product (List.range (w / 2)) (List.range c)) := mem_triplos.2 ⟨hy, h1, hk⟩
    have hb1 : idx_px w c (y, x, k) < d.length :=
      lt_of_lt_of_le (idx_lt hy hx hk) hlen
    have hb2 : idx_px_espelho w c (y, x, k) < d.length :=
      lt_of_lt_of_le (idx_lt (x := w - 1 - x) hy (by omega) hk) hlen
    exact (getElem?_foldl_swap_of_mem _ _ _ d (nodup_triplos _ _ _) hF hG hFG _ ht hb1 hb2).2
  · by_cases h2 : w - 1 - x < w / 2
    · have ht : (y, w - 1 - x, k) ∈ List.product (List.range h)
          (List.product (List.range (w / 2)) (List.range c)) := mem_triplos.2 ⟨hy, h2, hk⟩
      have hb1 : idx_px w c (y, w - 1 - x, k) < d.length :=
        lt_of_lt_of_le (idx_lt (x := w - 1 - x) hy (by omega) hk) hlen
      have hb2 : idx_px_espelho w c (y, w - 1 - x, k) < d.length :=
        lt_of_lt_of_le (idx_lt (x := w - 1 - (w - 1 - x)) hy (by omega) hk) hlen
      have key := (getElem?_foldl_swap_of_mem _ _ _ d (nodup_triplos _ _ _) hF hG hFG _ ht
        hb1 hb2).1
      have e : w - 1 - (w - 1 - x) = x := by omega
      simp only [idx_px, idx_px_espelho, e] at key
      exact key
    · have e : w - 1 - x = x := by omega
      rw [e]
      apply getElem?_foldl_swap_of_ne
      rintro ⟨y2, x2, k2⟩ hb
      obtain ⟨-, hb2, hb3⟩ := mem_triplos.1 hb
      constructor
      · intro hab
        simp only [idx_px, idx_px_espelho] at hab
        obtain ⟨e1, e2, e3⟩ := idx_inj (w := w) (by omega) (by omega) hb3 hk hab
        omega
      · intro hab
        simp only [idx_px, idx_px_espelho] at hab
        obtain ⟨e1, e2, e3⟩ := idx_inj (w := w) (by omega) (by omega) hb3 hk hab
        omega

/-- Claim C7. `flip_h` is an involution on every block of `w * h * c` bytes (any width,
odd ones included, any channel count), and one `flip_h` moves every channel `k` of the
pixel at `(x, y)` to the pixel at `(w - 1 - x, y)`. -/
theorem flip_h_involucao (d : List Byte) (w h c : Nat) (hlen : d.length = w * h * c) :
    Filtros.flip_h (Filtros.flip_h d w h c) w h c = d ∧
    ∀ y x k, y < h → x < w → k < c →
      ler_byte (Filtros.flip_h d w h c) ((y * w + (w - 1 - x)) * c + k)
        = ler_byte d ((y * w + x) * c + k) := by
  constructor
  · apply List.ext_getElem?
    intro n
    by_cases hn : n < w * h * c
    · obtain ⟨y, x, k, hy, hx, hk, rfl⟩ := exists_idx hn
      have h1 := flip_h_getElem? (Filtros.flip_h d w h c) w h c
        (by rw [length_flip_h, hlen]) hy (show w - 1 - x < w by omega) hk
      have e : w - 1 - (w - 1 - x) = x := by omega
      rw [e] at h1
      rw [h1]
      exact flip_h_getElem? d w h c (by rw [hlen]) hy hx hk
    · rw [List.getElem?_eq_none (by rw [length_flip_h, length_flip_h, hlen]; omega),
        List.getElem?_eq_none (by rw [hlen]; omega)]
  · intro y x k hy hx hk
    exact ler_byte_congr (flip_h_getElem? d w h c (by rw [hlen]) hy hx hk)

/-- Witness of C7: a 3 x 1 block with two channels. -/
theorem flip_h_involucao_witness :
    ([1, 2, 3, 4, 5, 6] : List Byte).length = 3 * 1 * 2 ∧
    (Filtros.flip_h (Filtros.flip_h [1, 2, 3, 4, 5, 6] 3 1 2) 3 1 2 = [1, 2, 3, 4, 5, 6] ∧
    ∀ y x k, y < 1 → x < 3 → k < 2 →
      ler_byte (Filtros.flip_h [1, 2, 3, 4, 5, 6] 3 1 2) ((y * 3 + (3 - 1 - x)) * 2 + k)
        = ler_byte [1, 2, 3, 4, 5, 6] ((y * 3 + x) * 2 + k)) :=
  ⟨by decide, flip_h_involucao [1, 2, 3, 4, 5, 6] 3 1 2 (by decide)⟩

/-! ## memcpy and flip_v -/

/-- A `memcpy` keeps the size of the destination block. -/
theorem length_memcpy (dst : List Byte) (doff : Nat) (src : List Byte) (soff n : Nat) :
    (memcpy dst doff src soff n).length = dst.length :=
  length_foldl_modificar (fun i => doff + i) (fun i _ => ler_byte src (soff + i)) _ dst

/-- A `memcpy` leaves alone the bytes outside the destination range. -/
theorem getElem?_memcpy_of_ne (dst : List Byte) (doff : Nat) (src : List Byte) (soff n k : Nat)
    (h : k < doff ∨ doff + n ≤ k) : (memcpy dst doff src soff n)[k]? = dst[k]? := by
  apply getElem?_foldl_modificar_of_ne (fun i => doff + i) (fun i _ => ler_byte src (soff + i))
  intro t ht
  have : t < n := List.mem_range.1 ht
  omega

/-- A `memcpy` puts byte `i` of the source range at byte `i` of the destination range. -/
theorem getElem?_memcpy_of_lt (dst : List Byte) (doff : Nat) (src : List Byte) (soff n i : Nat)
    (hi : i < n) (hlt : doff + i < dst.length) :
    (memcpy dst doff src soff n)[doff + i]? = some (ler_byte src (soff + i)) :=
  getElem?_foldl_modificar_of_mem (fun i => doff + i) (fun i _ => ler_byte src (soff + i))
    (List.range n) dst (List.nodup_range n)
    (fun a _ b _ hab => by simp only at hab; omega) i
    (List.mem_range.2 hi) hlt

/-- Copying a whole block into a fresh block of the same size yields the block. -/
theorem memcpy_malloc (src : List Byte) : memcpy (malloc src.length) 0 src 0 src.length = src := by
  apply List.ext_getElem?
  intro k
  have hl : (malloc src.length).length = src.length := by simp [malloc]
  by_cases hk : k < src.length
  · have := getElem?_memcpy_of_lt (malloc src.length) 0 src 0 src.length k hk (by omega)
    simp only [Nat.zero_add] at this
    rw [this, getElem?_eq_ler_byte hk]
  · rw [List.getElem?_eq_none (by rw [length_memcpy, hl]; omega),
      List.getElem?_eq_none (by omega)]

/-- Swapping two rows offset by offset: the positions of the two rows are exchanged. -/
theorem getElem?_foldl_swap_linha (d : List Byte) (lb a b : Nat) (hab : a ≠ b)
    (ha : (a + 1) * lb ≤ d.length) (hb : (b + 1) * lb ≤ d.length) (i : Nat) (hi : i < lb) :
    ((List.range lb).foldl (fun d i => swap_bytes d (a * lb + i) (b * lb + i)) d)[a * lb + i]?
        = d[b * lb + i]? ∧
    ((List.range lb).foldl (fun d i => swap_bytes d (a * lb + i) (b * lb + i)) d)[b * lb + i]?
        = d[a * lb + i]? := by
  have h1 : (a + 1) * lb = a * lb + lb := by ring
  have h2 : (b + 1) * lb = b * lb + lb := by ring
  refine getElem?_foldl_swap_of_mem (fun i => a * lb + i) (fun i => b * lb + i) (List.range lb) d
    (List.nodup_range lb) ?_ ?_ ?_ i (List.mem_range.2 hi) ?_ ?_
  · intro x _ y _ hxy
    simp only at hxy
    omega
  · intro x _ y _ hxy
    simp only at hxy
    omega
  · intro x hx y hy hxy
    simp only at hxy
    have hx2 := List.mem_range.1 hx
    have hy2 := List.mem_range.1 hy
    exact hab (mul_add_inj hx2 hy2 hxy).1
  · simp only; omega
  · simp only; omega

/-- One iteration of the loop of `flip_v` (three `memcpy` through the row buffer `temp`)
exchanges the two rows byte by byte. -/
theorem flip_v_passo (d temp : List Byte) (lb a b : Nat) (hab : a ≠ b)
    (ha : (a + 1) * lb ≤ d.length) (hb : (b + 1) * lb ≤ d.length) (htemp : temp.length = lb) :
    memcpy (memcpy d (a * lb) d (b * lb) lb) (b * lb) (memcpy temp 0 d (a * lb) lb) 0 lb
      = (List.range lb).foldl (fun d i => swap_bytes d (a * lb + i) (b * lb + i)) d := by
  have h1 : (a + 1) * lb = a * lb + lb := by ring
  have h2 : (b + 1) * lb = b * lb + lb := by ring
  have hdisj : a * lb + lb ≤ b * lb ∨ b * lb + lb ≤ a * lb := by
    rcases Nat.lt_or_gt_of_ne hab with h | h
    · left; rw [← h1]; exact Nat.mul_le_mul_right lb h
    · right; rw [← h2]; exact Nat.mul_le_mul_right lb h
  apply List.ext_getElem?
  intro k
  by_cases hkb : b * lb ≤ k ∧ k < b * lb + lb
  · obtain ⟨i, rfl⟩ : ∃ i, k = b * lb + i := ⟨k - b * lb, by omega⟩
    have hi : i < lb := by omega
    rw [(getElem?_foldl_swap_linha d lb a b hab ha hb i hi).2]
    rw [getElem?_memcpy_of_lt _ _ _ _ _ _ hi (by rw [length_memcpy]; omega)]
    have ht := getElem?_memcpy_of_lt temp 0 d (a * lb) lb i hi (by omega)
    simp only [Nat.zero_add] at ht
    have e : ler_byte (memcpy temp 0 d (a * lb) lb) (0 + i) = ler_byte d (a * lb + i) := by
      rw [ler_byte_eq, Nat.zero_add, ht]; rfl
    rw [e, getElem?_eq_ler_byte (by omega)]
  · rw [getElem?_memcpy_of_ne _ _ _ _ _ _ (by omega)]
    by_cases hka : a * lb ≤ k ∧ k < a * lb + lb
    · obtain ⟨i, rfl⟩ : ∃ i, k = a * lb + i := ⟨k - a * lb, by omega⟩
      have hi : i < lb := by omega
      rw [(getElem?_foldl_swap_linha d lb a b hab ha hb i hi).1]
      rw [getElem?_memcpy_of_lt _ _ _ _ _ _ hi (by omega)]
      rw [getElem?_eq_ler_byte (by omega)]
    · rw [getElem?_memcpy_of_ne _ _ _ _ _ _ (by omega)]
      symm
      apply getElem?_foldl_swap_of_ne
      intro t ht
      have := List.mem_range.1 ht
      constructor <;> omega

/-- The loop of `flip_v` is one loop of byte swaps over the pairs (row, offset). -/
theorem flip_v_eq_foldl (d : List Byte) (w h c : Nat) (hlen : h * (w * c) ≤ d.length) :
    Filtros.flip_v d w h c
      = (List.product (List.range (h / 2)) (List.range (w * c))).foldl
          (fun d t => swap_bytes d (idx_linha (w * c) t) (idx_linha_espelho (w * c) h t)) d := by
  rw [foldl_product]
  unfold Filtros.flip_v
  simp only [idx_linha, idx_linha_espelho]
  generalize hlb : w * c = lb at *
  have key : ∀ (ys : List Nat), (∀ y ∈ ys, y < h / 2) → ∀ (d temp : List Byte),
      h * lb ≤ d.length → temp.length = lb →
      (ys.foldl (fun (st : List Byte × List Byte) y =>
        (memcpy (memcpy st.1 (y * lb) st.1 ((h - 1 - y) * lb) lb) ((h - 1 - y) * lb)
          (memcpy st.2 0 st.1 (y * lb) lb) 0 lb, memcpy st.2 0 st.1 (y * lb) lb)) (d, temp)).1
      = ys.foldl (fun d y => (List.range lb).foldl
          (fun d i => swap_bytes d (y * lb + i) ((h - 1 - y) * lb + i)) d) d := by
    intro ys
    induction ys with
    | nil => intro _ d temp _ _; rfl
    | cons y ys ih =>
      intro hys d temp hd htemp
      have hy : y < h / 2 := hys y (List.mem_cons_self _ _)
      have hb1 : (y + 1) * lb ≤ d.length :=
        le_trans (Nat.mul_le_mul_right lb (by omega)) hd
      have hb2 : (h - 1 - y + 1) * lb ≤ d.length :=
        le_trans (Nat.mul_le_mul_right lb (by omega)) hd
      have hstep := flip_v_passo d temp lb y (h - 1 - y) (by omega) hb1 hb2 htemp
      rw [List.foldl_cons, List.foldl_cons]
      simp only
      rw [hstep]
      apply ih (fun z hz => hys z (List.mem_cons_of_mem _ hz))
      · rw [length_foldl_swap]; exact hd
      · rw [length_memcpy]; exact htemp
  exact key (List.range (h / 2)) (fun y hy => List.mem_range.1 hy) d (malloc lb) hlen
    (by simp [malloc])

/-- The filter `flip_v` keeps the size of the block. -/
theorem length_flip_v (d : List Byte) (w h c : Nat) (hlen : h * (w * c) ≤ d.length) :
    (Filtros.flip_v d w h c).length = d.length := by
  rw [flip_v_eq_foldl d w h c hlen, length_foldl_swap]

/-- Closed form of `flip_v`: offset `i` of row `h - 1 - y` holds what offset `i` of row `y`
held. -/
theorem flip_v_getElem? (d : List Byte) (w h c : Nat) (hlen : h * (w * c) ≤ d.length)
    {y i : Nat} (hy : y < h) (hi : i < w * c) :
    (Filtros.flip_v d w h c)[(h - 1 - y) * (w * c) + i]? = d[y * (w * c) + i]? := by
  rw [flip_v_eq_foldl d w h c hlen]
  generalize w * c = lb at *
  have hF : ∀ a ∈ List.product (List.range (h / 2)) (List.range lb),
      ∀ b ∈ List.product (List.range (h / 2)) (List.range lb),
      idx_linha lb a = idx_linha lb b → a = b := by
    rintro ⟨y1, i1⟩ ha ⟨y2, i2⟩ hb hab
    simp only [List.pair_mem_product, List.mem_range] at ha hb
    simp only [idx_linha] at hab
    obtain ⟨e1, e2⟩ := mul_add_inj ha.2 hb.2 hab
    subst e1 e2; rfl
  have hG : ∀ a ∈ List.product (List.range (h / 2)) (List.range lb),
      ∀ b ∈ List.product (List.range (h / 2)) (List.range lb),
      idx_linha_espelho lb h a = idx_linha_espelho lb h b → a = b := by
    rintro ⟨y1, i1⟩ ha ⟨y2, i2⟩ hb hab
    simp only [List.pair_mem_product, List.mem_range] at ha hb
    simp only [idx_linha_espelho] at hab
    obtain ⟨e1, e2⟩ := mul_add_inj ha.2 hb.2 hab
    have e3 : y1 = y2 := by omega
    subst e3 e2; rfl
  have hFG : ∀ a ∈ List.product (List.range (h / 2)) (List.range lb),
      ∀ b ∈ List.product (List.range (h / 2)) (List.range lb),
      idx_linha lb a ≠ idx_linha_espelho lb h b := by
    rintro ⟨y1, i1⟩ ha ⟨y2, i2⟩ hb hab
    simp only [List.pair_mem_product, List.mem_range] at ha hb
    simp only [idx_linha, idx_linha_espelho] at hab
    obtain ⟨e1, e2⟩ := mul_add_inj ha.2 hb.2 hab
    omega
  have hnd : (List.product (List.range (h / 2)) (List.range lb)).Nodup :=
    List.Nodup.product (List.nodup_range _) (List.nodup_range _)
  have hbound : ∀ r, r < h → r * lb + i < d.length := fun r hr =>
    lt_of_lt_of_le (mul_add_lt hr hi) hlen
  by_cases h1 : y < h / 2
  · have ht : (y, i) ∈ List.product (List.range (h / 2)) (List.range lb) := by
      simp only [List.pair_mem_product, List.mem_range]; exact ⟨h1, hi⟩
    exact (getElem?_foldl_swap_of_mem _ _ _ d hnd hF hG hFG _ ht (hbound y hy)
      (hbound (h - 1 - y) (by omega))).2
  · by_cases h2 : h - 1 - y < h / 2
    · have ht : (h - 1 - y, i) ∈ List.product (List.range (h / 2)) (List.range lb) := by
        simp only [List.pair_mem_product, List.mem_range]; exact ⟨h2, hi⟩
      have key := (getElem?_foldl_swap_of_mem _ _ _ d hnd hF hG hFG _ ht
        (hbound (h - 1 - y) (by omega)) (hbound (h - 1 - (h - 1 - y)) (by omega))).1
      have e : h - 1 - (h - 1 - y) = y := by omega
      simp only [idx_linha, idx_linha_espelho, e] at key
      exact key
    · have e : h - 1 - y = y := by omega
      rw [e]
      apply getElem?_foldl_swap_of_ne
      rintro ⟨y2, i2⟩ hb
      simp only [List.pair_mem_product, List.mem_range] at hb
      constructor
      · intro hab
        simp only [idx_linha] at hab
        have := (mul_add_inj hb.2 hi hab).1
        omega
      · intro hab
        simp only [idx_linha_espelho] at hab
        have := (mul_add_inj hb.2 hi hab).1
        omega

/-- Claim C8. `flip_v` is an involution on every block of `w * h * c` bytes (any height,
odd ones included), and one `flip_v` moves row `y` to row `h - 1 - y`, every byte keeping
its offset inside the row. -/
theorem flip_v_involucao (d : List Byte) (w h c : Nat) (hlen : d.length = w * h * c) :
    Filtros.flip_v (Filtros.flip_v d w h c) w h c = d ∧
    ∀ y i, y < h → i < w * c →
      ler_byte (Filtros.flip_v d w h c) ((h - 1 - y) * (w * c) + i)
        = ler_byte d (y * (w * c) + i) := by
  have hl : h * (w * c) = w * h * c := by ring
  have hle : h * (w * c) ≤ d.length := by rw [hlen, hl]
  have hle2 : h * (w * c) ≤ (Filtros.flip_v d w h c).length := by
    rw [length_flip_v d w h c hle]; exact hle
  constructor
  · apply List.ext_getElem?
    intro n
    by_cases hn : n < h * (w * c)
    · obtain ⟨y, i, hy, hi, rfl⟩ := exists_mul_add hn
      have h1 := flip_v_getElem? (Filtros.flip_v d w h c) w h c hle2
        (show h - 1 - y < h by omega) hi
      have e : h - 1 - (h - 1 - y) = y := by omega
      rw [e] at h1
      rw [h1]
      exact flip_v_getElem? d w h c hle hy hi
    · rw [List.getElem?_eq_none (by
          rw [length_flip_v _ w h c hle2, length_flip_v d w h c hle, hlen, ← hl]; omega),
        List.getElem?_eq_none (by rw [hlen, ← hl]; omega)]
  · intro y i hy hi
    exact ler_byte_congr (flip_v_getElem? d w h c hle hy hi)

/-- Witness of C8: a 2 x 3 block with one channel. -/
theorem flip_v_involucao_witness :
    ([1, 2, 3, 4, 5, 6] : List Byte).length = 2 * 3 * 1 ∧
    (Filtros.flip_v (Filtros.flip_v [1, 2, 3, 4, 5, 6] 2 3 1) 2 3 1 = [1, 2, 3, 4, 5, 6] ∧
    ∀ y i, y < 3 → i < 2 * 1 →
      ler_byte (Filtros.flip_v [1, 2, 3, 4, 5, 6] 2 3 1) ((3 - 1 - y) * (2 * 1) + i)
        = ler_byte [1, 2, 3, 4, 5, 6] (y * (2 * 1) + i)) :=
  ⟨by decide, flip_v_involucao [1, 2, 3, 4, 5, 6] 2 3 1 (by decide)⟩

/-! ## inverter -/

/-- The stored value is `255 - b`, without wrap-around. -/
theorem val_inverter_byte (b : Byte) : (inverter_byte b).val = 255 - b.val := by
  have hb := b.isLt
  simp only [inverter_byte, toByte]
  omega

/-- Inverting a byte twice gives the byte back. -/
theorem inverter_byte_inverter_byte (b : Byte) : inverter_byte (inverter_byte b) = b := by
  apply Fin.ext
  rw [val_inverter_byte, val_inverter_byte]
  have hb := b.isLt
  omega

/-- The loop of `inverter` is one loop over the pairs (pixel, colour channel). -/
theorem inverter_eq_foldl (d : List Byte) (w h c : Nat) :
    Filtros.inverter d w h c
      = (List.product (List.range (w * h)) (List.range 3)).foldl
          (fun d t => d.set (t.1 * c + t.2) (inverter_byte (ler_byte d (t.1 * c + t.2)))) d := by
  rw [foldl_product]
  rfl

/-- The filter `inverter` keeps the size of the block. -/
theorem length_inverter (d : List Byte) (w h c : Nat) :
    (Filtros.inverter d w h c).length = d.length := by
  rw [inverter_eq_foldl]
  exact length_foldl_modificar (fun t : Nat × Nat => t.1 * c + t.2)
    (fun _ b => inverter_byte b) _ d

/-- The filter `inverter` replaces each colour byte by its complement. -/
theorem inverter_getElem?_cor (d : List Byte) (w h c : Nat) (hc : 3 ≤ c)
    (hlen : w * h * c ≤ d.length) {i j : Nat} (hi : i < w * h) (hj : j < 3) :
    (Filtros.inverter d w h c)[i * c + j]? = some (inverter_byte (ler_byte d (i * c + j))) := by
  rw [inverter_eq_foldl]
  refine getElem?_foldl_modificar_of_mem (fun t : Nat × Nat => t.1 * c + t.2)
    (fun _ b => inverter_byte b) _ d
    (List.Nodup.product (List.nodup_range _) (List.nodup_range _)) ?_ (i, j) ?_ ?_
  · rintro ⟨i1, j1⟩ ha ⟨i2, j2⟩ hb hab
    simp only [List.mem_product, List.pair_mem_product, List.mem_range] at ha hb
    obtain ⟨e1, e2⟩ := mul_add_inj (c := c) (by omega) (by omega) hab
    subst e1 e2; rfl
  · simp only [List.mem_product, List.pair_mem_product, List.mem_range]; exact ⟨hi, hj⟩
  · exact lt_of_lt_of_le (mul_add_lt hi (by omega)) hlen

/-- The filter `inverter` leaves alone every channel past the third. -/
theorem inverter_getElem?_resto (d : List Byte) (w h c : Nat) {i j : Nat}
    (hj : 3 ≤ j) (hjc : j < c) :
    (Filtros.inverter d w h c)[i * c + j]? = d[i * c + j]? := by
  rw [inverter_eq_foldl]
  apply getElem?_foldl_modificar_of_ne (fun t : Nat × Nat => t.1 * c + t.2)
    (fun _ b => inverter_byte b)
  rintro ⟨i1, j1⟩ ha hab
  simp only [List.mem_product, List.pair_mem_product, List.mem_range] at ha
  have := (mul_add_inj (c := c) (by omega) hjc hab).2
  omega

/-- Claim C9. `inverter` is an involution on every block of `w * h * c` bytes with at least
three channels, whatever the byte values; one `inverter` sets each of R, G, B to
`255 - value` and leaves every further channel (alpha) unchanged. -/
theorem inverter_involucao (d : List Byte) (w h c : Nat) (hlen : d.length = w * h * c)
    (hc : 3 ≤ c) :
    Filtros.inverter (Filtros.inverter d w h c) w h c = d ∧
    (∀ i j, i < w * h → j < 3 →
      (ler_byte (Filtros.inverter d w h c) (i * c + j)).val
        = 255 - (ler_byte d (i * c + j)).val) ∧
    (∀ i j, i < w * h → 3 ≤ j → j < c →
      ler_byte (Filtros.inverter d w h c) (i * c + j) = ler_byte d (i * c + j)) := by
  refine ⟨?_, ?_, ?_⟩
  · apply List.ext_getElem?
    intro n
    by_cases hn : n < w * h * c
    · obtain ⟨i, j, hi, hj, rfl⟩ := exists_mul_add hn
      by_cases hj3 : j < 3
      · rw [inverter_getElem?_cor _ w h c hc (by rw [length_inverter, hlen]) hi hj3]
        have h1 := inverter_getElem?_cor d w h c hc (by rw [hlen]) hi hj3
        rw [ler_byte_eq, h1]
        simp only [Option.getD_some]
        rw [inverter_byte_inverter_byte]
        exact (getElem?_eq_ler_byte (by rw [hlen]; exact hn)).symm
      · rw [inverter_getElem?_resto _ w h c (by omega) hj,
          inverter_getElem?_resto d w h c (by omega) hj]
    · rw [List.getElem?_eq_none (by rw [length_inverter, length_inverter, hlen]; omega),
        List.getElem?_eq_none (by rw [hlen]; omega)]
  · intro i j hi hj
    have h1 := inverter_getElem?_cor d w h c hc (by rw [hlen]) hi hj
    rw [ler_byte_eq (Filtros.inverter d w h c), h1]
    simp only [Option.getD_some]
    exact val_inverter_byte _
  · intro i j _ hj hjc
    exact ler_byte_congr (inverter_getElem?_resto d w h c hj hjc)

/-- Witness of C9: a 2 x 1 RGBA block. -/
theorem inverter_involucao_witness :
    ([0, 10, 255, 7, 128, 1, 254, 9] : List Byte).length = 2 * 1 * 4 ∧ 3 ≤ 4 ∧
    (Filtros.inverter (Filtros.inverter [0, 10, 255, 7, 128, 1, 254, 9] 2 1 4) 2 1 4
        = [0, 10, 255, 7, 128, 1, 254, 9] ∧
    (∀ i j, i < 2 * 1 → j < 3 →
      (ler_byte (Filtros.inverter [0, 10, 255, 7, 128, 1, 254, 9] 2 1 4) (i * 4 + j)).val
        = 255 - (ler_byte [0, 10, 255, 7, 128, 1, 254, 9] (i * 4 + j)).val) ∧
    (∀ i j, i < 2 * 1 → 3 ≤ j → j < 4 →
      ler_byte (Filtros.inverter [0, 10, 255, 7, 128, 1, 254, 9] 2 1 4) (i * 4 + j)
        = ler_byte [0, 10, 255, 7, 128, 1, 254, 9] (i * 4 + j))) :=
  ⟨by decide, by decide,
    inverter_involucao [0, 10, 255, 7, 128, 1, 254, 9] 2 1 4 (by decide) (by decide)⟩

/-! ## rotacionar -/

/-- For 90 degrees the loop nest of `rotacionar` is one loop over the triples
(row, column, channel) that stores each source byte at its rotated position. -/
theorem rotacionar_90_eq (d : List Byte) (w h c : Nat) :
    Filtros.rotacionar d w h c 90
      = ((List.product (List.range h) (List.product (List.range w) (List.range c))).foldl
          (fun novo t => novo.set (idx_rot90 h c t) (ler_byte d (idx_px w c t)))
          (malloc (h * w * c)), h, w) := by
  simp only [foldl_product]
  rfl

/-- For 270 degrees the loop nest of `rotacionar` is one loop over the triples
(row, column, channel) that stores each source byte at its rotated position. -/
theorem rotacionar_270_eq (d : List Byte) (w h c : Nat) :
    Filtros.rotacionar d w h c 270
      = ((List.product (List.range h) (List.product (List.range w) (List.range c))).foldl
          (fun novo t => novo.set (idx_rot270 w h c t) (ler_byte d (idx_px w c t)))
          (malloc (h * w * c)), h, w) := by
  simp only [foldl_product]
  rfl

/-- The block returned for 90 degrees has `h * w * c` bytes. -/
theorem length_rotacionar_90 (d : List Byte) (w h c : Nat) :
    (Filtros.rotacionar d w h c 90).1.length = h * w * c := by
  rw [rotacionar_90_eq]
  simp only
  rw [length_foldl_modificar (idx_rot90 h c) (fun t _ => ler_byte d (idx_px w c t))]
  simp [malloc]

/-- The block returned for 270 degrees has `h * w * c` bytes. -/
theorem length_rotacionar_270 (d : List Byte) (w h c : Nat) :
    (Filtros.rotacionar d w h c 270).1.length = h * w * c := by
  rw [rotacionar_270_eq]
  simp only
  rw [length_foldl_modificar (idx_rot270 w h c) (fun t _ => ler_byte d (idx_px w c t))]
  simp [malloc]

/-- Closed form for 90 degrees: the source pixel `(x, y)` is found at column `h - 1 - y` of
row `x` of the result, whose rows have `h` pixels. -/
theorem rotacionar_90_getElem? (d : List Byte) (w h c : Nat) {y x k : Nat}
    (hy : y < h) (hx : x < w) (hk : k < c) :
    (Filtros.rotacionar d w h c 90).1[(x * h + (h - 1 - y)) * c + k]?
      = some (ler_byte d ((y * w + x) * c + k)) := by
  rw [rotacionar_90_eq]
  refine getElem?_foldl_modificar_of_mem (idx_rot90 h c) (fun t _ => ler_byte d (idx_px w c t))
    _ (malloc (h * w * c)) (nodup_triplos h w c) ?_ (y, x, k) (mem_triplos.2 ⟨hy, hx, hk⟩) ?_
  · rintro ⟨y1, x1, k1⟩ ha ⟨y2, x2, k2⟩ hb hab
    obtain ⟨ha1, -, ha3⟩ := mem_triplos.1 ha
    obtain ⟨hb1, -, hb3⟩ := mem_triplos.1 hb
    simp only [idx_rot90] at hab
    obtain ⟨e1, e2, e3⟩ := idx_inj (w := h) (by omega) (by omega) ha3 hb3 hab
    have e4 : y1 = y2 := by omega
    subst e1 e4 e3; rfl
  · have hl : (malloc (h * w * c)).length = h * w * c := by simp [malloc]
    rw [hl]
    exact idx_lt (w := h) (h := w) (x := h - 1 - y) hx (by omega) hk

/-- Closed form for 270 degrees: the source pixel `(x, y)` is found at column `y` of row
`w - 1 - x` of the result, whose rows have `h` pixels. -/
theorem rotacionar_270_getElem? (d : List Byte) (w h c : Nat) {y x k : Nat}
    (hy : y < h) (hx : x < w) (hk : k < c) :
    (Filtros.rotacionar d w h c 270).1[((w - 1 - x) * h + y) * c + k]?
      = some (ler_byte d ((y * w + x) * c + k)) := by
  rw [rotacionar_270_eq]
  refine getElem?_foldl_modificar_of_mem (idx_rot270 w h c)
    (fun t _ => ler_byte d (idx_px w c t))
    _ (malloc (h * w * c)) (nodup_triplos h w c) ?_ (y, x, k) (mem_triplos.2 ⟨hy, hx, hk⟩) ?_
  · rintro ⟨y1, x1, k1⟩ ha ⟨y2, x2, k2⟩ hb hab
    obtain ⟨ha1, ha2, ha3⟩ := mem_triplos.1 ha
    obtain ⟨hb1, hb2, hb3⟩ := mem_triplos.1 hb
    simp only [idx_rot270] at hab
    obtain ⟨e1, e2, e3⟩ := idx_inj (w := h) ha1 hb1 ha3 hb3 hab
    have e4 : x1 = x2 := by omega
    subst e2 e4 e3; rfl
  · have hl : (malloc (h * w * c)).length = h * w * c := by simp [malloc]
    rw [hl]
    exact idx_lt (w := h) (h := w) (y := w - 1 - x) (by omega) hy hk

/-- Claim C10. Rotating a `w x h` frame with `c` channels by 90 degrees and the result by
270 degrees returns a frame of width `w` and height `h` whose bytes are those of the
original, also when `w` and `h` differ. -/
theorem rotacionar_90_270 (d : List Byte) (w h c : Nat) (hlen : d.length = w * h * c) :
    Filtros.rotacionar (Filtros.rotacionar d w h c 90).1 (Filtros.rotacionar d w h c 90).2.1
        (Filtros.rotacionar d w h c 90).2.2 c 270 = (d, w, h) := by
  have hdims : (Filtros.rotacionar d w h c 90).2 = (h, w) := by rw [rotacionar_90_eq]
  have hdims2 : ∀ e : List Byte, (Filtros.rotacionar e h w c 270).2 = (w, h) := by
    intro e; rw [rotacionar_270_eq]
  rw [hdims]
  simp only
  refine Prod.ext ?_ (hdims2 _)
  simp only
  apply List.ext_getElem?
  intro n
  by_cases hn : n < w * h * c
  · obtain ⟨y, x, k, hy, hx, hk, rfl⟩ := exists_idx hn
    have h1 := rotacionar_270_getElem? (Filtros.rotacionar d w h c 90).1 h w c
      (y := x) (x := h - 1 - y) (k := k) hx (by omega) hk
    have e : h - 1 - (h - 1 - y) = y := by omega
    rw [e] at h1
    rw [h1]
    have h2 := rotacionar_90_getElem? d w h c hy hx hk
    rw [ler_byte_eq, h2]
    simp only [Option.getD_some]
    exact (getElem?_eq_ler_byte (by rw [hlen]; exact hn)).symm
  · rw [List.getElem?_eq_none (by rw [length_rotacionar_270]; omega),
      List.getElem?_eq_none (by rw [hlen]; omega)]

/-- Witness of C10: a 3 x 2 frame with one channel. -/
theorem rotacionar_90_270_witness :
    ([1, 2, 3, 4, 5, 6] : List Byte).length = 3 * 2 * 1 ∧
    Filtros.rotacionar (Filtros.rotacionar [1, 2, 3, 4, 5, 6] 3 2 1 90).1
        (Filtros.rotacionar [1, 2, 3, 4, 5, 6] 3 2 1 90).2.1
        (Filtros.rotacionar [1, 2, 3, 4, 5, 6] 3 2 1 90).2.2 1 270
      = ([1, 2, 3, 4, 5, 6], 3, 2) :=
  ⟨by decide, rotacionar_90_270 [1, 2, 3, 4, 5, 6] 3 2 1 (by decide)⟩

/-! ## The frame slot -/

/-- Copying a whole sample over a block of the same size yields the sample. -/
theorem memcpy_total (dst src : List Byte) (h : dst.length = src.length) :
    memcpy dst 0 src 0 src.length = src := by
  apply List.ext_getElem?
  intro k
  by_cases hk : k < src.length
  · have := getElem?_memcpy_of_lt dst 0 src 0 src.length k hk (by omega)
    simp only [Nat.zero_add] at this
    rw [this, getElem?_eq_ler_byte hk]
  · rw [List.getElem?_eq_none (by rw [length_memcpy, h]; omega),
      List.getElem?_eq_none (by omega)]

/-- A freshly constructed slot satisfies the representation invariant. -/
theorem coerente_inicial : SampleGrabberCallback.Coerente {} := by
  intro d hd
  cases hd

/-- On a slot that satisfies the representation invariant, `BufferCB` leaves exactly the
delivered sample in the slot, records its size and sets the fresh flag. -/
theorem BufferCB_eq (s : SampleGrabberCallback) (B : List Byte) (hs : s.Coerente) :
    s.BufferCB B = { s with dados := some B, tamanho := B.length, novo_frame := true } := by
  unfold SampleGrabberCallback.BufferCB
  cases hd : s.dados with
  | none =>
    simp only [Option.isNone_none, Bool.true_or, if_true]
    rw [memcpy_total _ _ (by simp [malloc])]
  | some d =>
    by_cases ht : s.tamanho = (B.length : Int)
    · have hlen : d.length = B.length := by
        have := hs d hd
        omega
      simp only [Option.isNone_some, Bool.false_or, ht, bne_self_eq_false, Bool.false_eq_true,
        if_false, hd]
      rw [memcpy_total _ _ hlen]
    · have hne : (s.tamanho != (B.length : Int)) = true := by
        simp only [bne_iff_ne, ne_eq]; exact ht
      simp only [Option.isNone_some, Bool.false_or, hne, if_true]
      rw [memcpy_total _ _ (by simp [malloc])]

/-- The method `BufferCB` preserves the representation invariant. -/
theorem coerente_BufferCB (s : SampleGrabberCallback) (B : List Byte) (hs : s.Coerente) :
    (s.BufferCB B).Coerente := by
  rw [BufferCB_eq s B hs]
  intro d hd
  simp only [Option.some.injEq] at hd
  subst hd
  rfl

/-- The method `obter_frame_rgba` preserves the representation invariant. -/
theorem coerente_obter_frame_rgba (s : SampleGrabberCallback) (hs : s.Coerente) :
    s.obter_frame_rgba.2.Coerente := by
  unfold SampleGrabberCallback.obter_frame_rgba
  cases hd : s.dados with
  | none => exact hs
  | some d =>
    simp only
    split
    · exact hs
    · intro e he
      exact hs e (hd.trans he)

/-- A take on a slot that holds a fresh sample and has positive session dimensions returns
the converted frame and clears the fresh flag. -/
theorem obter_frame_rgba_fresco (s : SampleGrabberCallback) (d : List Byte)
    (hd : s.dados = some d) (hn : s.novo_frame = true) (hw : 0 < s.largura)
    (hh : 0 < s.altura) :
    s.obter_frame_rgba
      = (some ⟨bgr_para_rgba d s.largura.toNat s.altura.toNat
            (malloc (s.largura.toNat * s.altura.toNat * 4)), s.largura, s.altura⟩,
         { s with novo_frame := false }) := by
  unfold SampleGrabberCallback.obter_frame_rgba
  have h1 : ¬ s.largura ≤ 0 := by omega
  have h2 : ¬ s.altura ≤ 0 := by omega
  simp [hd, hn, h1, h2]

/-- A take on a slot whose fresh flag is unset returns nothing and leaves the slot as it
was. -/
theorem obter_frame_rgba_sem_novo (s : SampleGrabberCallback) (hn : s.novo_frame = false) :
    s.obter_frame_rgba = (none, s) := by
  unfold SampleGrabberCallback.obter_frame_rgba
  cases hd : s.dados with
  | none => rfl
  | some d => simp [hn]

/-- Claim C1. Latest-wins handoff: on every slot (with the size field describing its block,
as in every state the code reaches) with positive session width and height, for every sample
`A` and every sample `B` of at least `3 * w * h` bytes, `BufferCB(A); BufferCB(B);
obter_frame_rgba()` returns the same populated frame as `BufferCB(B); obter_frame_rgba()`
on the slot that never received `A`: the conversion of `B` alone. -/
theorem BufferCB_ultimo_vence (s : SampleGrabberCallback) (A B : List Byte) (hs : s.Coerente)
    (hw : 0 < s.largura) (hh : 0 < s.altura)
    (_hB : 3 * s.largura * s.altura ≤ (B.length : Int)) :
    ((s.BufferCB A).BufferCB B).obter_frame_rgba.1 = (s.BufferCB B).obter_frame_rgba.1 ∧
    (s.BufferCB B).obter_frame_rgba.1
      = some ⟨bgr_para_rgba B s.largura.toNat s.altura.toNat
          (malloc (s.largura.toNat * s.altura.toNat * 4)), s.largura, s.altura⟩ := by
  have h1 := BufferCB_eq s B hs
  have h2 := BufferCB_eq (s.BufferCB A) B (coerente_BufferCB s A hs)
  have hA := BufferCB_eq s A hs
  have e1 := obter_frame_rgba_fresco (s.BufferCB B) B (by rw [h1]) (by rw [h1])
    (by rw [h1]; exact hw) (by rw [h1]; exact hh)
  have e2 := obter_frame_rgba_fresco ((s.BufferCB A).BufferCB B) B (by rw [h2]) (by rw [h2])
    (by rw [h2, hA]; exact hw) (by rw [h2, hA]; exact hh)
  have hl1 : (s.BufferCB B).largura = s.largura := by rw [h1]
  have ha1 : (s.BufferCB B).altura = s.altura := by rw [h1]
  have hl2 : ((s.BufferCB A).BufferCB B).largura = s.largura := by rw [h2, hA]
  have ha2 : ((s.BufferCB A).BufferCB B).altura = s.altura := by rw [h2, hA]
  rw [e1, e2]
  simp only [hl1, ha1, hl2, ha2, and_self]

/-- Witness of C1: a 1 x 1 session, a sample `A` of four bytes and a sample `B` of three. -/
theorem BufferCB_ultimo_vence_witness :
    (({ largura := 1, altura := 1 } : SampleGrabberCallback).BufferCB
        [9, 9, 9, 9]).BufferCB [1, 2, 3] |>.obter_frame_rgba.1
      = (({ largura := 1, altura := 1 } : SampleGrabberCallback).BufferCB
          [1, 2, 3]).obter_frame_rgba.1 ∧
    (({ largura := 1, altura := 1 } : SampleGrabberCallback).BufferCB
        [1, 2, 3]).obter_frame_rgba.1
      = some ⟨bgr_para_rgba [1, 2, 3] (1 : Int).toNat (1 : Int).toNat
          (malloc ((1 : Int).toNat * (1 : Int).toNat * 4)), 1, 1⟩ :=
  BufferCB_ultimo_vence { largura := 1, altura := 1 } [9, 9, 9, 9] [1, 2, 3]
    (by intro d hd; cases hd) (by decide) (by decide) (by decide)

/-- Claim C2. On every slot that holds a fresh sample (flag set, positive width and height,
sample of at least `3 * w * h` bytes), the first of two consecutive `obter_frame_rgba`
calls returns a populated frame and the second returns nothing; and a take on any slot
whose fresh flag is unset returns nothing and leaves the whole slot, stored sample and flag
included, unchanged. -/
theorem obter_frame_rgba_duas_vezes (s : SampleGrabberCallback) (d : List Byte)
    (hd : s.dados = some d) (hn : s.novo_frame = true) (hw : 0 < s.largura)
    (hh : 0 < s.altura) (_hlen : 3 * s.largura * s.altura ≤ (d.length : Int)) :
    s.obter_frame_rgba.1.isSome = true ∧
    s.obter_frame_rgba.2.obter_frame_rgba.1 = none ∧
    ∀ s2 : SampleGrabberCallback, s2.novo_frame = false →
      s2.obter_frame_rgba = (none, s2) := by
  have e := obter_frame_rgba_fresco s d hd hn hw hh
  refine ⟨by rw [e]; rfl, ?_, obter_frame_rgba_sem_novo⟩
  rw [e]
  rw [obter_frame_rgba_sem_novo _ rfl]

/-- Witness of C2: a 1 x 1 slot holding a fresh three-byte sample. -/
theorem obter_frame_rgba_duas_vezes_witness :
    ({ dados := some [1, 2, 3], largura := 1, altura := 1, tamanho := 3, novo_frame := true }
        : SampleGrabberCallback).obter_frame_rgba.1.isSome = true ∧
    ({ dados := some [1, 2, 3], largura := 1, altura := 1, tamanho := 3, novo_frame := true }
        : SampleGrabberCallback).obter_frame_rgba.2.obter_frame_rgba.1 = none ∧
    ∀ s2 : SampleGrabberCallback, s2.novo_frame = false →
      s2.obter_frame_rgba = (none, s2) :=
  obter_frame_rgba_duas_vezes
    { dados := some [1, 2, 3], largura := 1, altura := 1, tamanho := 3, novo_frame := true }
    [1, 2, 3] rfl rfl (by decide) (by decide) (by decide)

/-! ## The source registry -/

/-- An id resolves to a source only if it is a position of the registry vector. -/
theorem obter_some_lt {F : Type} (g : GerenciadorFontes F) (id : Int) (f : Fonte F)
    (h : g.obter id = some f) : 0 ≤ id ∧ id < (g.fontes.length : Int) := by
  unfold GerenciadorFontes.obter at h
  split at h
  · cases h
  · omega

/-- The id one past the last issued one resolves to nothing. -/
theorem obter_length {F : Type} (g : GerenciadorFontes F) :
    g.obter (g.fontes.length : Int) = none := by
  unfold GerenciadorFontes.obter
  simp

/-- Appending an entry to the registry vector does not change what a previously issued id
resolves to. -/
theorem obter_append {F : Type} (g : GerenciadorFontes F) (e : Option (Fonte F)) (j : Int)
    (hj : j < (g.fontes.length : Int)) :
    GerenciadorFontes.obter { g with fontes := g.fontes ++ [e] } j = g.obter j := by
  unfold GerenciadorFontes.obter
  by_cases h0 : j < 0
  · simp [h0]
  · have h1 : ¬ (j < 0 ∨ j ≥ (g.fontes.length : Int)) := by omega
    have h2 : ¬ (j < 0 ∨ j ≥ ((g.fontes ++ [e]).length : Int)) := by
      simp only [List.length_append, List.length_singleton]
      push_cast
      omega
    simp only [h1, h2, if_false]
    rw [List.getD_eq_getElem?_getD, List.getD_eq_getElem?_getD,
      List.getElem?_append_left (by omega)]

/-- The entry appended to the registry vector is what the new id resolves to. -/
theorem obter_append_length {F : Type} (g : GerenciadorFontes F) (f : Fonte F) :
    GerenciadorFontes.obter { g with fontes := g.fontes ++ [some f] } (g.fontes.length : Int)
      = some f := by
  unfold GerenciadorFontes.obter
  have h2 : ¬ ((g.fontes.length : Int) < 0
      ∨ (g.fontes.length : Int) ≥ ((g.fontes ++ [some f]).length : Int)) := by
    simp only [List.length_append, List.length_singleton]
    push_cast
    omega
  simp only [h2, if_false, Int.toNat_ofNat]
  rw [List.getD_eq_getElem?_getD]
  simp

/-- On a live id `clonar_com_filtro` appends the extended copy and returns its position. -/
theorem clonar_com_filtro_eq {F : Type} (g : GerenciadorFontes F) (id : Int) (f : Fonte F)
    (h : g.obter id = some f) (tipo : TipoFiltro) (v1 v2 : F) :
    g.clonar_com_filtro id tipo v1 v2
      = ((g.fontes.length : Int),
         { g with fontes := g.fontes ++
            [some { f with filtros := f.filtros ++ [⟨tipo, v1, v2⟩] }] }) := by
  unfold GerenciadorFontes.clonar_com_filtro
  rw [h]
  rfl

/-- Whatever the id, `clonar_com_filtro` does not change what a previously issued id
resolves to. -/
theorem obter_clonar_com_filtro {F : Type} (g : GerenciadorFontes F) (id : Int)
    (tipo : TipoFiltro) (v1 v2 : F) (j : Int) (hj : j < (g.fontes.length : Int)) :
    (g.clonar_com_filtro id tipo v1 v2).2.obter j = g.obter j := by
  unfold GerenciadorFontes.clonar_com_filtro
  cases h : g.obter id with
  | none => rfl
  | some f => exact obter_append g _ j hj

/-- Claim C3. `clonar_com_filtro` is non-mutating: for every registry, every live id `S`
and every filter spec, the source stored under `S` afterwards is the one stored before
(all fields, filter chain included), every previously issued id resolves as before, and
`capturar_frame` on `S` therefore yields the same result in the same environment. -/
theorem clonar_com_filtro_nao_muta {F : Type} (g : GerenciadorFontes F) (S : Int)
    (fonte : Fonte F) (hS : g.obter S = some fonte) (tipo : TipoFiltro) (v1 v2 : F) :
    (g.clonar_com_filtro S tipo v1 v2).2.obter S = some fonte ∧
    (∀ j : Int, j < (g.fontes.length : Int) →
      (g.clonar_com_filtro S tipo v1 v2).2.obter j = g.obter j) ∧
    (∀ (ops : FloatOps F) (amb : Ambiente) (cams : GerenciadorCameras) (largura altura : Int),
      capturar_frame ops amb cams ((g.clonar_com_filtro S tipo v1 v2).2.obter S) largura altura
        = capturar_frame ops amb cams (g.obter S) largura altura) := by
  have hlt := (obter_some_lt g S fonte hS).2
  have e := obter_clonar_com_filtro g S tipo v1 v2 S hlt
  refine ⟨by rw [e, hS], fun j hj => obter_clonar_com_filtro g S tipo v1 v2 j hj, ?_⟩
  intro ops amb cams largura altura
  rw [e]

/-- Witness of C3: a registry holding one screen source, cloned with a grayscale filter. -/
theorem clonar_com_filtro_nao_muta_witness :
    (GerenciadorFontes.clonar_com_filtro (F := Int) { fontes := [some (Fonte.criar_tela 0)] } 0
        TipoFiltro.CINZA 0 0).2.obter 0 = some (Fonte.criar_tela 0) ∧
    (∀ j : Int, j < (([some (Fonte.criar_tela 0)] : List (Option (Fonte Int))).length : Int) →
      (GerenciadorFontes.clonar_com_filtro (F := Int) { fontes := [some (Fonte.criar_tela 0)] } 0
        TipoFiltro.CINZA 0 0).2.obter j
        = GerenciadorFontes.obter { fontes := [some (Fonte.criar_tela 0)] } j) ∧
    (∀ (ops : FloatOps Int) (amb : Ambiente) (cams : GerenciadorCameras) (largura altura : Int),
      capturar_frame ops amb cams
          ((GerenciadorFontes.clonar_com_filtro (F := Int)
              { fontes := [some (Fonte.criar_tela 0)] } 0 TipoFiltro.CINZA 0 0).2.obter 0)
          largura altura
        = capturar_frame ops amb cams
            (GerenciadorFontes.obter { fontes := [some (Fonte.criar_tela 0)] } 0)
            largura altura) :=
  clonar_com_filtro_nao_muta { fontes := [some (Fonte.criar_tela 0)] } 0 (Fonte.criar_tela 0)
    rfl TipoFiltro.CINZA 0 0

/-- Successive `clonar_com_filtro` calls starting from a live id end at an id that resolves
to the original source with the specs appended in call order. -/
theorem obter_clonar_em_cadeia {F : Type} (specs : List (ConfigFiltro F)) :
    ∀ (g : GerenciadorFontes F) (S : Int) (fonte : Fonte F), g.obter S = some fonte →
      (g.clonar_em_cadeia S specs).2.obter (g.clonar_em_cadeia S specs).1
        = some { fonte with filtros := fonte.filtros ++ specs } := by
  induction specs with
  | nil =>
    intro g S fonte hS
    simp only [GerenciadorFontes.clonar_em_cadeia, List.append_nil]
    exact hS
  | cons cf resto ih =>
    intro g S fonte hS
    simp only [GerenciadorFontes.clonar_em_cadeia]
    rw [clonar_com_filtro_eq g S fonte hS]
    simp only
    rw [ih _ _ _ (obter_append_length g _)]
    simp only [List.append_assoc, List.singleton_append]

/-- Claim C4. `clonar_com_filtro` appends at the end of a copy: on a live id `S` whose
source has chain `c` it returns the fresh id equal to the number of entries of the registry
(an id that resolved to nothing before), and the new id resolves to a source with chain
`c ++ [(tipo, v1, v2)]` and all the other fields of `S`; `k` successive calls therefore
produce the chain `c` followed by the `k` specs in call order. -/
theorem clonar_com_filtro_acrescenta {F : Type} (g : GerenciadorFontes F) (S : Int)
    (fonte : Fonte F) (hS : g.obter S = some fonte) (tipo : TipoFiltro) (v1 v2 : F) :
    (g.clonar_com_filtro S tipo v1 v2).1 = (g.fontes.length : Int) ∧
    g.obter (g.fontes.length : Int) = none ∧
    (g.clonar_com_filtro S tipo v1 v2).2.obter (g.clonar_com_filtro S tipo v1 v2).1
      = some { tipo := fonte.tipo, indice := fonte.indice, x := fonte.x, y := fonte.y,
               largura := fonte.largura, altura := fonte.altura,
               filtros := fonte.filtros ++ [⟨tipo, v1, v2⟩], valida := fonte.valida } ∧
    ∀ specs : List (ConfigFiltro F),
      (g.clonar_em_cadeia S specs).2.obter (g.clonar_em_cadeia S specs).1
        = some { tipo := fonte.tipo, indice := fonte.indice, x := fonte.x, y := fonte.y,
                 largura := fonte.largura, altura := fonte.altura,
                 filtros := fonte.filtros ++ specs, valida := fonte.valida } := by
  refine ⟨?_, obter_length g, ?_, ?_⟩
  · rw [clonar_com_filtro_eq g S fonte hS]
  · rw [clonar_com_filtro_eq g S fonte hS]
    exact obter_append_length g _
  · intro specs
    exact obter_clonar_em_cadeia specs g S fonte hS

/-- Witness of C4: a registry holding one region source, cloned with a brightness filter. -/
theorem clonar_com_filtro_acrescenta_witness :
    (registo_exemplo.clonar_com_filtro 0 TipoFiltro.BRILHO 50 0).1
      = (registo_exemplo.fontes.length : Int) ∧
    registo_exemplo.obter (registo_exemplo.fontes.length : Int) = none ∧
    (registo_exemplo.clonar_com_filtro 0 TipoFiltro.BRILHO 50 0).2.obter
        (registo_exemplo.clonar_com_filtro 0 TipoFiltro.BRILHO 50 0).1
      = some { tipo := TipoFonte.REGIAO, indice := 0, x := 10, y := 20, largura := 30,
               altura := 40, filtros := [] ++ [⟨TipoFiltro.BRILHO, 50, 0⟩], valida := true } ∧
    ∀ specs : List (ConfigFiltro Int),
      (registo_exemplo.clonar_em_cadeia 0 specs).2.obter
          (registo_exemplo.clonar_em_cadeia 0 specs).1
        = some { tipo := TipoFonte.REGIAO, indice := 0, x := 10, y := 20, largura := 30,
                 altura := 40, filtros := [] ++ specs, valida := true } :=
  clonar_com_filtro_acrescenta registo_exemplo 0 (Fonte.criar_regiao 0 10 20 30 40) rfl
    TipoFiltro.BRILHO 50 0

/-! ## The filter chain -/

/-- An in-place stage of the chain stores the output of the corresponding `Filtros` function
and keeps the dimensions. -/
theorem aplicar_filtro_no_lugar {F : Type} (ops : FloatOps F) (canais : Nat) (st : Frame)
    (f : ConfigFiltro F) (hf : f.tipo.no_lugar = true) :
    aplicar_filtro ops canais st f
      = ⟨filtro_manual ops st.largura.toNat st.altura.toNat canais f st.dados,
         st.largura, st.altura⟩ := by
  unfold aplicar_filtro filtro_manual
  cases ht : f.tipo <;> simp_all [TipoFiltro.no_lugar]

/-- A chain of in-place stages run by the loop of `aplicar_filtros` from any intermediate
frame equals the stages invoked by hand one after another. -/
theorem foldl_aplicar_filtro_no_lugar {F : Type} (ops : FloatOps F) (canais : Nat)
    (filtros : List (ConfigFiltro F)) (hin : ∀ f ∈ filtros, f.tipo.no_lugar = true)
    (st : Frame) :
    filtros.foldl (aplicar_filtro ops canais) st
      = ⟨aplicacao_manual ops st.largura.toNat st.altura.toNat canais filtros st.dados,
         st.largura, st.altura⟩ := by
  induction filtros generalizing st with
  | nil => rfl
  | cons f resto ih =>
    rw [List.foldl_cons, aplicar_filtro_no_lugar ops canais st f (hin f (List.mem_cons_self _ _)),
      ih (fun g hg => hin g (List.mem_cons_of_mem _ hg))]
    rfl

/-- Claim C5. Chain application equals sequential manual application: for every frame and
every chain of in-place filter specs, `aplicar_filtros` returns the bytes obtained by
invoking the corresponding `Filtros` functions one after another in chain order, with the
dimensions unchanged; running a chain `fs ++ gs` is running `fs` and then `gs` on its
output; and the chain `[brightness(+50), grayscale]` is `brilho(50)` followed by `cinza`. -/
theorem aplicar_filtros_sequencial {F : Type} (ops : FloatOps F) (dados : List Byte)
    (largura altura : Int) (canais : Nat) (filtros : List (ConfigFiltro F))
    (hin : ∀ f ∈ filtros, f.tipo.no_lugar = true) :
    aplicar_filtros ops dados largura altura canais filtros
      = ⟨aplicacao_manual ops largura.toNat altura.toNat canais filtros dados,
         largura, altura⟩ ∧
    (∀ fs gs : List (ConfigFiltro F),
      aplicar_filtros ops dados largura altura canais (fs ++ gs)
        = aplicar_filtros ops (aplicar_filtros ops dados largura altura canais fs).dados
            (aplicar_filtros ops dados largura altura canais fs).largura
            (aplicar_filtros ops dados largura altura canais fs).altura canais gs) ∧
    (∀ v1 v2 v3 v4 : F, ops.para_int v1 = 50 →
      aplicar_filtros ops dados largura altura canais
          [⟨TipoFiltro.BRILHO, v1, v2⟩, ⟨TipoFiltro.CINZA, v3, v4⟩]
        = ⟨Filtros.cinza ops
            (Filtros.brilho dados largura.toNat altura.toNat canais 50)
            largura.toNat altura.toNat canais, largura, altura⟩) := by
  refine ⟨foldl_aplicar_filtro_no_lugar ops canais filtros hin _, ?_, ?_⟩
  · intro fs gs
    unfold aplicar_filtros
    rw [List.foldl_append]
  · intro v1 v2 v3 v4 hv
    unfold aplicar_filtros
    simp only [List.foldl_cons, List.foldl_nil, aplicar_filtro, hv]

/-- Witness of C5: the chain `[brightness(+50), grayscale]` on a 1 x 2 RGBA frame. -/
theorem aplicar_filtros_sequencial_witness :
    (∀ f ∈ ([⟨TipoFiltro.BRILHO, 50, 0⟩, ⟨TipoFiltro.CINZA, 0, 0⟩] : List (ConfigFiltro Int)),
      f.tipo.no_lugar = true) ∧
    (aplicar_filtros ops_exemplo frame_exemplo 1 2 4
        [⟨TipoFiltro.BRILHO, 50, 0⟩, ⟨TipoFiltro.CINZA, 0, 0⟩]
      = ⟨aplicacao_manual ops_exemplo (1 : Int).toNat (2 : Int).toNat 4
          [⟨TipoFiltro.BRILHO, 50, 0⟩, ⟨TipoFiltro.CINZA, 0, 0⟩] frame_exemplo, 1, 2⟩ ∧
    (∀ fs gs : List (ConfigFiltro Int),
      aplicar_filtros ops_exemplo frame_exemplo 1 2 4 (fs ++ gs)
        = aplicar_filtros ops_exemplo (aplicar_filtros ops_exemplo frame_exemplo 1 2 4 fs).dados
            (aplicar_filtros ops_exemplo frame_exemplo 1 2 4 fs).largura
            (aplicar_filtros ops_exemplo frame_exemplo 1 2 4 fs).altura 4 gs) ∧
    (∀ v1 v2 v3 v4 : Int, ops_exemplo.para_int v1 = 50 →
      aplicar_filtros ops_exemplo frame_exemplo 1 2 4
          [⟨TipoFiltro.BRILHO, v1, v2⟩, ⟨TipoFiltro.CINZA, v3, v4⟩]
        = ⟨Filtros.cinza ops_exemplo
            (Filtros.brilho frame_exemplo (1 : Int).toNat (2 : Int).toNat 4 50)
            (1 : Int).toNat (2 : Int).toNat 4, 1, 2⟩)) :=
  ⟨by decide, aplicar_filtros_sequencial ops_exemplo frame_exemplo 1 2 4
    [⟨TipoFiltro.BRILHO, 50, 0⟩, ⟨TipoFiltro.CINZA, 0, 0⟩] (by decide)⟩

/-- A stage of kind `ROTACIONAR` falls into the `default` branch of the `switch`: the frame
passes through `aplicar_filtros` unchanged. -/
theorem aplicar_filtros_rotacionar_sem_efeito {F : Type} (ops : FloatOps F) (dados : List Byte)
    (largura altura : Int) (canais : Nat) (v1 v2 : F) :
    aplicar_filtros ops dados largura altura canais [⟨TipoFiltro.ROTACIONAR, v1, v2⟩]
      = ⟨dados, largura, altura⟩ := rfl

/-- The normalisation `((graus % 360) + 360) % 360` with the truncating remainder of C is
the remainder of the Euclidean division by 360. -/
theorem normalizar_graus (g : Int) : Int.tmod (Int.tmod g 360 + 360) 360 = g % 360 := by
  have h1 := Int.tmod_def g 360
  rcases le_or_lt 0 g with h | h
  · have h2 : Int.tmod g 360 = g % 360 := Int.tmod_eq_emod h (by decide)
    rw [h2]
    have : 0 ≤ g % 360 + 360 := by omega
    rw [Int.tmod_eq_emod this (by decide)]
    omega
  · have h3 : Int.tmod (-g) 360 = (-g) % 360 := Int.tmod_eq_emod (by omega) (by decide)
    rw [Int.tmod_def, Int.neg_tdiv] at h3
    have : 0 ≤ Int.tmod g 360 + 360 := by omega
    rw [Int.tmod_eq_emod this (by decide)]
    omega

/-- The result of `rotacionar` depends on the angle only through its remainder modulo 360. -/
theorem rotacionar_congr (d : List Byte) (w h c : Nat) (g g2 : Int) (hg : g % 360 = g2 % 360) :
    Filtros.rotacionar d w h c g = Filtros.rotacionar d w h c g2 := by
  unfold Filtros.rotacionar
  simp only [normalizar_graus, hg]

/-- For an angle whose remainder modulo 360 is zero, `rotacionar` returns a copy of the
first `w * h * c` bytes and the dimensions as they were. -/
theorem rotacionar_zero (d : List Byte) (w h c : Nat) (g : Int) (hg : g % 360 = 0) :
    Filtros.rotacionar d w h c g
      = (memcpy (malloc (w * h * c)) 0 d 0 (w * h * c), w, h) := by
  unfold Filtros.rotacionar
  simp only [normalizar_graus, hg, if_true]

/-- Claim C11. After the normalisation modulo 360, `rotacionar` by any multiple of 360 (0,
360, -360, 720, ...) returns the bytes of the frame unchanged together with the same width
and height; angles that are congruent modulo 360 give the same result, negative angles
included, so that `rotacionar(x, -90) = rotacionar(x, 270)`. -/
theorem rotacionar_mod_360 (d : List Byte) (w h c : Nat) (hlen : d.length = w * h * c) :
    (∀ k : Int, Filtros.rotacionar d w h c (360 * k) = (d, w, h)) ∧
    (∀ g g2 : Int, g % 360 = g2 % 360 →
      Filtros.rotacionar d w h c g = Filtros.rotacionar d w h c g2) ∧
    Filtros.rotacionar d w h c (-90) = Filtros.rotacionar d w h c 270 := by
  refine ⟨?_, fun g g2 hg => rotacionar_congr d w h c g g2 hg,
    rotacionar_congr d w h c (-90) 270 (by decide)⟩
  intro k
  rw [rotacionar_zero d w h c (360 * k) (by omega), ← hlen, memcpy_total _ _ (by simp [malloc])]

/-- Witness of C11: a 3 x 2 frame with one channel. -/
theorem rotacionar_mod_360_witness :
    ([1, 2, 3, 4, 5, 6] : List Byte).length = 3 * 2 * 1 ∧
    ((∀ k : Int, Filtros.rotacionar [1, 2, 3, 4, 5, 6] 3 2 1 (360 * k)
        = ([1, 2, 3, 4, 5, 6], 3, 2)) ∧
    (∀ g g2 : Int, g % 360 = g2 % 360 →
      Filtros.rotacionar [1, 2, 3, 4, 5, 6] 3 2 1 g
        = Filtros.rotacionar [1, 2, 3, 4, 5, 6] 3 2 1 g2) ∧
    Filtros.rotacionar [1, 2, 3, 4, 5, 6] 3 2 1 (-90)
      = Filtros.rotacionar [1, 2, 3, 4, 5, 6] 3 2 1 270) :=
  ⟨by decide, rotacionar_mod_360 [1, 2, 3, 4, 5, 6] 3 2 1 (by decide)⟩

/-- For 180 degrees the loop nest of `rotacionar` is one loop over the triples
(row, column, channel) that stores each source byte at its rotated position. -/
theorem rotacionar_180_eq (d : List Byte) (w h c : Nat) :
    Filtros.rotacionar d w h c 180
      = ((List.product (List.range h) (List.product (List.range w) (List.range c))).foldl
          (fun novo t => novo.set (idx_rot180 w h c t) (ler_byte d (idx_px w c t)))
          (malloc (w * h * c)), w, h) := by
  simp only [foldl_product]
  rfl

/-- The block returned for 180 degrees has `w * h * c` bytes. -/
theorem length_rotacionar_180 (d : List Byte) (w h c : Nat) :
    (Filtros.rotacionar d w h c 180).1.length = w * h * c := by
  rw [rotacionar_180_eq]
  simp only
  rw [length_foldl_modificar (idx_rot180 w h c) (fun t _ => ler_byte d (idx_px w c t))]
  simp [malloc]

/-- Closed form for 180 degrees: the source pixel `(x, y)` is found at column `w - 1 - x` of
row `h - 1 - y` of the result. -/
theorem rotacionar_180_getElem? (d : List Byte) (w h c : Nat) {y x k : Nat}
    (hy : y < h) (hx : x < w) (hk : k < c) :
    (Filtros.rotacionar d w h c 180).1[((h - 1 - y) * w + (w - 1 - x)) * c + k]?
      = some (ler_byte d ((y * w + x) * c + k)) := by
  rw [rotacionar_180_eq]
  refine getElem?_foldl_modificar_of_mem (idx_rot180 w h c)
    (fun t _ => ler_byte d (idx_px w c t))
    _ (malloc (w * h * c)) (nodup_triplos h w c) ?_ (y, x, k) (mem_triplos.2 ⟨hy, hx, hk⟩) ?_
  · rintro ⟨y1, x1, k1⟩ ha ⟨y2, x2, k2⟩ hb hab
    obtain ⟨ha1, ha2, ha3⟩ := mem_triplos.1 ha
    obtain ⟨hb1, hb2, hb3⟩ := mem_triplos.1 hb
    simp only [idx_rot180] at hab
    obtain ⟨e1, e2, e3⟩ := idx_inj (w := w) (by omega) (by omega) ha3 hb3 hab
    have e4 : y1 = y2 := by omega
    have e5 : x1 = x2 := by omega
    subst e4 e5 e3; rfl
  · have hl : (malloc (w * h * c)).length = w * h * c := by simp [malloc]
    rw [hl]
    exact idx_lt (y := h - 1 - y) (x := w - 1 - x) (by omega) (by omega) hk

/-- The stores of the 90 degree loop hit every byte of the new block exactly once: each
position below `w * h * c` is the destination of exactly one iteration. -/
theorem idx_rot90_bijecao (w h c i : Nat) (hi : i < w * h * c) :
    ∃! t : Nat × Nat × Nat,
      t ∈ List.product (List.range h) (List.product (List.range w) (List.range c)) ∧
      idx_rot90 h c t = i := by
  have hi2 : i < h * w * c := by
    have : h * w * c = w * h * c := by ring
    omega
  obtain ⟨ny, nx, k, hny, hnx, hk, rfl⟩ := exists_idx hi2
  refine ⟨(h - 1 - nx, ny, k), ⟨mem_triplos.2 ⟨by omega, hny, hk⟩, ?_⟩, ?_⟩
  · have e : h - 1 - (h - 1 - nx) = nx := by omega
    simp only [idx_rot90, e]
  · rintro ⟨y2, x2, k2⟩ ⟨hmem, heq⟩
    obtain ⟨hb1, hb2, hb3⟩ := mem_triplos.1 hmem
    simp only [idx_rot90] at heq
    obtain ⟨e1, e2, e3⟩ := idx_inj (w := h) (by omega) hnx hb3 hk heq
    have e4 : y2 = h - 1 - nx := by omega
    subst e1 e4 e3; rfl

/-- Claim C12. For every `w x h` frame, `rotacionar` by 90 (and by 270) degrees returns
width `h` and height `w` (a 4 x 2 image becomes 2 x 4) and a block of `w * h * c` bytes;
for 90 degrees the source pixel `(x, y)` is found at `(h - 1 - y, x)`, the loop storing into
every byte of the new block exactly once; for 180 degrees the dimensions stay `w x h` and
the source pixel `(x, y)` is found at `(w - 1 - x, h - 1 - y)`. -/
theorem rotacionar_dimensoes_e_pixels (d : List Byte) (w h c : Nat) :
    (Filtros.rotacionar d w h c 90).2 = (h, w) ∧
    (Filtros.rotacionar d w h c 90).1.length = w * h * c ∧
    (Filtros.rotacionar d 4 2 c 90).2 = (2, 4) ∧
    (∀ y x k, y < h → x < w → k < c →
      (Filtros.rotacionar d w h c 90).1[(x * h + (h - 1 - y)) * c + k]?
        = some (ler_byte d ((y * w + x) * c + k))) ∧
    (Filtros.rotacionar d w h c 90
      = ((List.product (List.range h) (List.product (List.range w) (List.range c))).foldl
          (fun novo t => novo.set (idx_rot90 h c t) (ler_byte d (idx_px w c t)))
          (malloc (h * w * c)), h, w) ∧
     ∀ i, i < w * h * c → ∃! t : Nat × Nat × Nat,
      t ∈ List.product (List.range h) (List.product (List.range w) (List.range c)) ∧
      idx_rot90 h c t = i) ∧
    (Filtros.rotacionar d w h c 270).2 = (h, w) ∧
    (Filtros.rotacionar d w h c 270).1.length = w * h * c ∧
    (Filtros.rotacionar d w h c 180).2 = (w, h) ∧
    (Filtros.rotacionar d w h c 180).1.length = w * h * c ∧
    (∀ y x k, y < h → x < w → k < c →
      (Filtros.rotacionar d w h c 180).1[((h - 1 - y) * w + (w - 1 - x)) * c + k]?
        = some (ler_byte d ((y * w + x) * c + k))) := by
  have hc : h * w * c = w * h * c := by ring
  refine ⟨by rw [rotacionar_90_eq], by rw [length_rotacionar_90, hc], by rw [rotacionar_90_eq],
    fun y x k hy hx hk => rotacionar_90_getElem? d w h c hy hx hk,
    ⟨rotacionar_90_eq d w h c, fun i hi => idx_rot90_bijecao w h c i hi⟩,
    by rw [rotacionar_270_eq], by rw [length_rotacionar_270, hc], by rw [rotacionar_180_eq],
    length_rotacionar_180 d w h c,
    fun y x k hy hx hk => rotacionar_180_getElem? d w h c hy hx hk⟩

/-! ## Per-pixel colour loops -/

section pixel
variable (v : Byte → Byte → Byte → Byte × Byte × Byte) (c : Nat)

/-- One iteration of a colour loop keeps the size of the block. -/
theorem length_pixel_rgb (d : List Byte) (i : Nat) : (pixel_rgb v c d i).length = d.length := by
  simp [pixel_rgb]

/-- One iteration of a colour loop leaves alone every byte that is not one of the three
colour bytes of its pixel. -/
theorem getElem?_pixel_rgb_of_ne (d : List Byte) (i k : Nat)
    (h0 : i * c + 0 ≠ k) (h1 : i * c + 1 ≠ k) (h2 : i * c + 2 ≠ k) :
    (pixel_rgb v c d i)[k]? = d[k]? := by
  unfold pixel_rgb
  simp only
  rw [List.getElem?_set_ne h2, List.getElem?_set_ne h1, List.getElem?_set_ne h0]

/-- One iteration of a colour loop stores the three computed bytes. -/
theorem getElem?_pixel_rgb_self (d : List Byte) (i : Nat) (hlt : i * c + 2 < d.length) :
    (pixel_rgb v c d i)[i * c + 0]?
      = some (v (ler_byte d (i * c + 0)) (ler_byte d (i * c + 1)) (ler_byte d (i * c + 2))).1 ∧
    (pixel_rgb v c d i)[i * c + 1]?
      = some (v (ler_byte d (i * c + 0)) (ler_byte d (i * c + 1)) (ler_byte d (i * c + 2))).2.1 ∧
    (pixel_rgb v c d i)[i * c + 2]?
      = some (v (ler_byte d (i * c + 0)) (ler_byte d (i * c + 1))
          (ler_byte d (i * c + 2))).2.2 := by
  unfold pixel_rgb
  simp only
  refine ⟨?_, ?_, ?_⟩
  · rw [List.getElem?_set_ne (by omega), List.getElem?_set_ne (by omega),
      List.getElem?_set_self (by omega)]
  · rw [List.getElem?_set_ne (by omega),
      List.getElem?_set_self (by rw [List.length_set]; omega)]
  · rw [List.getElem?_set_self (by rw [List.length_set, List.length_set]; omega)]

/-- A colour loop keeps the size of the block. -/
theorem length_foldl_pixel_rgb (ts : List Nat) (d : List Byte) :
    (ts.foldl (pixel_rgb v c) d).length = d.length := by
  induction ts generalizing d with
  | nil => rfl
  | cons a ts ih => rw [List.foldl_cons, ih, length_pixel_rgb]

/-- A colour loop leaves alone every byte that is not a colour byte of one of its pixels. -/
theorem getElem?_foldl_pixel_rgb_of_ne (ts : List Nat) (d : List Byte) (k : Nat)
    (h : ∀ i ∈ ts, i * c + 0 ≠ k ∧ i * c + 1 ≠ k ∧ i * c + 2 ≠ k) :
    (ts.foldl (pixel_rgb v c) d)[k]? = d[k]? := by
  induction ts generalizing d with
  | nil => rfl
  | cons a ts ih =>
    rw [List.foldl_cons, ih _ (fun t ht => h t (List.mem_cons_of_mem _ ht))]
    obtain ⟨h0, h1, h2⟩ := h a (List.mem_cons_self _ _)
    exact getElem?_pixel_rgb_of_ne v c d a k h0 h1 h2

/-- With at least three channels, a colour loop over distinct pixels leaves in the three
colour bytes of each pixel the bytes computed from the original colour of that pixel. -/
theorem getElem?_foldl_pixel_rgb_of_mem (hc : 3 ≤ c) (ts : List Nat) (d : List Byte)
    (hnd : ts.Nodup) (i : Nat) (hi : i ∈ ts) (hlt : i * c + 2 < d.length) :
    (ts.foldl (pixel_rgb v c) d)[i * c + 0]?
      = some (v (ler_byte d (i * c + 0)) (ler_byte d (i * c + 1)) (ler_byte d (i * c + 2))).1 ∧
    (ts.foldl (pixel_rgb v c) d)[i * c + 1]?
      = some (v (ler_byte d (i * c + 0)) (ler_byte d (i * c + 1)) (ler_byte d (i * c + 2))).2.1 ∧
    (ts.foldl (pixel_rgb v c) d)[i * c + 2]?
      = some (v (ler_byte d (i * c + 0)) (ler_byte d (i * c + 1))
          (ler_byte d (i * c + 2))).2.2 := by
  have hdisj : ∀ a : Nat, a ≠ i → ∀ j j2 : Nat, j < 3 → j2 < 3 → a * c + j ≠ i * c + j2 := by
    intro a ha j j2 hj hj2 heq
    exact ha (mul_add_inj (c := c) (by omega) (by omega) heq).1
  induction ts generalizing d with
  | nil => cases hi
  | cons a ts ih =>
    rw [List.foldl_cons]
    obtain ⟨hnot, hnd2⟩ := List.nodup_cons.1 hnd
    rcases List.mem_cons.1 hi with hia | hits
    · subst hia
      have hun : ∀ j2, j2 < 3 → ∀ t ∈ ts,
          t * c + 0 ≠ i * c + j2 ∧ t * c + 1 ≠ i * c + j2 ∧ t * c + 2 ≠ i * c + j2 := by
        intro j2 hj2 t ht
        have hti : t ≠ i := fun e => hnot (e ▸ ht)
        exact ⟨hdisj t hti 0 j2 (by omega) hj2, hdisj t hti 1 j2 (by omega) hj2,
          hdisj t hti 2 j2 (by omega) hj2⟩
      rw [getElem?_foldl_pixel_rgb_of_ne v c ts _ _ (hun 0 (by omega)),
        getElem?_foldl_pixel_rgb_of_ne v c ts _ _ (hun 1 (by omega)),
        getElem?_foldl_pixel_rgb_of_ne v c ts _ _ (hun 2 (by omega))]
      exact getElem?_pixel_rgb_self v c d i hlt
    · have hai : a ≠ i := fun e => hnot (e ▸ hits)
      have key := ih (pixel_rgb v c d a) hnd2 hits (by rw [length_pixel_rgb]; exact hlt)
      have e : ∀ j2, j2 < 3 → ler_byte (pixel_rgb v c d a) (i * c + j2) = ler_byte d (i * c + j2) := by
        intro j2 hj2
        exact ler_byte_congr (getElem?_pixel_rgb_of_ne v c d a _
          (hdisj a hai 0 j2 (by omega) hj2) (hdisj a hai 1 j2 (by omega) hj2)
          (hdisj a hai 2 j2 (by omega) hj2))
      rw [e 0 (by omega), e 1 (by omega), e 2 (by omega)] at key
      exact key

end pixel

/-- With at least three channels, the loop of `limiar` is the colour loop that stores the
binary result three times. -/
theorem limiar_eq_foldl {F : Type} (ops : FloatOps F) (d : List Byte) (w h c : Nat) (valor : Int)
    (hc : 3 ≤ c) :
    Filtros.limiar ops d w h c valor
      = (List.range (w * h)).foldl (pixel_rgb (limiar_rgb ops valor) c) d := by
  unfold Filtros.limiar
  rw [if_neg (by omega)]
  rfl

/-- Claim C13. The output of `limiar` is binary: for every frame with at least three
channels, every byte content and every integer threshold (also non-positive ones and ones
above 255), the block keeps its size, every R, G and B byte is 0 or 255, the three colour
bytes of each pixel are equal, and every further channel (alpha) is unchanged. -/
theorem limiar_binario {F : Type} (ops : FloatOps F) (d : List Byte) (w h c : Nat) (t : Int)
    (hlen : d.length = w * h * c) (hc : 3 ≤ c) :
    (Filtros.limiar ops d w h c t).length = d.length ∧
    ∀ i, i < w * h →
      (ler_byte (Filtros.limiar ops d w h c t) (i * c + 0) = 0 ∨
        ler_byte (Filtros.limiar ops d w h c t) (i * c + 0) = 255) ∧
      ler_byte (Filtros.limiar ops d w h c t) (i * c + 1)
        = ler_byte (Filtros.limiar ops d w h c t) (i * c + 0) ∧
      ler_byte (Filtros.limiar ops d w h c t) (i * c + 2)
        = ler_byte (Filtros.limiar ops d w h c t) (i * c + 0) ∧
      ∀ j, 3 ≤ j → j < c →
        ler_byte (Filtros.limiar ops d w h c t) (i * c + j) = ler_byte d (i * c + j) := by
  rw [limiar_eq_foldl ops d w h c t hc]
  refine ⟨length_foldl_pixel_rgb _ c _ d, ?_⟩
  intro i hi
  have hlt : i * c + 2 < d.length := by
    rw [hlen]; exact mul_add_lt hi (by omega)
  obtain ⟨h0, h1, h2⟩ := getElem?_foldl_pixel_rgb_of_mem (limiar_rgb ops t) c hc
    (List.range (w * h)) d (List.nodup_range _) i (List.mem_range.2 hi) hlt
  have e0 := ler_byte_eq ((List.range (w * h)).foldl (pixel_rgb (limiar_rgb ops t) c) d) (i * c + 0)
  have e1 := ler_byte_eq ((List.range (w * h)).foldl (pixel_rgb (limiar_rgb ops t) c) d) (i * c + 1)
  have e2 := ler_byte_eq ((List.range (w * h)).foldl (pixel_rgb (limiar_rgb ops t) c) d) (i * c + 2)
  rw [h0] at e0
  rw [h1] at e1
  rw [h2] at e2
  simp only [Option.getD_some] at e0 e1 e2
  refine ⟨?_, by rw [e1, e0]; rfl, by rw [e2, e0]; rfl, ?_⟩
  · rw [e0]
    simp only [limiar_rgb]
    split
    · right; rfl
    · left; rfl
  · intro j hj hjc
    apply ler_byte_congr
    apply getElem?_foldl_pixel_rgb_of_ne
    intro a _
    refine ⟨?_, ?_, ?_⟩ <;>
    · intro heq
      have := (mul_add_inj (c := c) (by omega) hjc heq).2
      omega

/-- Witness of C13: a 2 x 1 RGBA frame and the threshold 100. -/
theorem limiar_binario_witness :
    ([10, 20, 30, 7, 200, 210, 220, 9] : List Byte).length = 2 * 1 * 4 ∧ 3 ≤ 4 ∧
    ((Filtros.limiar ops_exemplo [10, 20, 30, 7, 200, 210, 220, 9] 2 1 4 100).length
        = ([10, 20, 30, 7, 200, 210, 220, 9] : List Byte).length ∧
    ∀ i, i < 2 * 1 →
      (ler_byte (Filtros.limiar ops_exemplo [10, 20, 30, 7, 200, 210, 220, 9] 2 1 4 100)
          (i * 4 + 0) = 0 ∨
        ler_byte (Filtros.limiar ops_exemplo [10, 20, 30, 7, 200, 210, 220, 9] 2 1 4 100)
          (i * 4 + 0) = 255) ∧
      ler_byte (Filtros.limiar ops_exemplo [10, 20, 30, 7, 200, 210, 220, 9] 2 1 4 100) (i * 4 + 1)
        = ler_byte (Filtros.limiar ops_exemplo [10, 20, 30, 7, 200, 210, 220, 9] 2 1 4 100)
            (i * 4 + 0) ∧
      ler_byte (Filtros.limiar ops_exemplo [10, 20, 30, 7, 200, 210, 220, 9] 2 1 4 100) (i * 4 + 2)
        = ler_byte (Filtros.limiar ops_exemplo [10, 20, 30, 7, 200, 210, 220, 9] 2 1 4 100)
            (i * 4 + 0) ∧
      ∀ j, 3 ≤ j → j < 4 →
        ler_byte (Filtros.limiar ops_exemplo [10, 20, 30, 7, 200, 210, 220, 9] 2 1 4 100)
            (i * 4 + j)
          = ler_byte [10, 20, 30, 7, 200, 210, 220, 9] (i * 4 + j)) :=
  ⟨by decide, by decide,
    limiar_binario ops_exemplo [10, 20, 30, 7, 200, 210, 220, 9] 2 1 4 100 (by decide)
      (by decide)⟩

/-! ## blur -/

/-- Claim C14. A blur with a non-positive radius, `r = 0` in particular, is a no-op: the
block is returned with every byte unchanged. -/
theorem blur_raio_nao_positivo (d : List Byte) (w h c : Nat) (r : Int) (hr : r ≤ 0) :
    Filtros.blur d w h c r = d := by
  unfold Filtros.blur
  rw [if_pos hr]

/-- Witness of C14: radius 0 on a 2 x 1 RGBA frame. -/
theorem blur_raio_nao_positivo_witness :
    (0 : Int) ≤ 0 ∧ Filtros.blur [10, 20, 30, 7, 200, 210, 220, 9] 2 1 4 0
      = [10, 20, 30, 7, 200, 210, 220, 9] :=
  ⟨by decide, blur_raio_nao_positivo [10, 20, 30, 7, 200, 210, 220, 9] 2 1 4 0 (by decide)⟩

/-- A property kept by every iteration holds after the loop. -/
theorem foldl_inv {α β : Type} (f : α → β → α) (P : α → Prop) (hP : ∀ a b, P a → P (f a b))
    (l : List β) (init : α) (h0 : P init) : P (l.foldl f init) := by
  induction l generalizing init with
  | nil => exact h0
  | cons b l ih => exact ih _ (hP _ _ h0)

/-- A measure that no iteration decreases does not decrease over the loop. -/
theorem foldl_mono {α β : Type} (f : α → β → α) (m : α → Nat) (hm : ∀ a b, m a ≤ m (f a b))
    (l : List β) (init : α) : m init ≤ m (l.foldl f init) := by
  induction l generalizing init with
  | nil => exact Nat.le_refl _
  | cons b l ih => exact Nat.le_trans (hm init b) (ih _)

/-- A measure that no iteration decreases and that one iteration of the loop increases,
increases over the loop. -/
theorem foldl_cresce {α β : Type} (f : α → β → α) (m : α → Nat) (hm : ∀ a b, m a ≤ m (f a b))
    (l : List β) (b0 : β) (hb : b0 ∈ l) (hs : ∀ a, m a < m (f a b0)) (init : α) :
    m init < m (l.foldl f init) := by
  induction l generalizing init with
  | nil => cases hb
  | cons b l ih =>
    rw [List.foldl_cons]
    rcases List.mem_cons.1 hb with e | hl
    · subst e
      exact Nat.lt_of_lt_of_le (hs init) (foldl_mono f m hm l _)
    · exact Nat.lt_of_le_of_lt (hm init b) (ih hl _)

/-- A loop whose every iteration leaves the initial value alone returns it. -/
theorem foldl_fixo {α β : Type} (f : α → β → α) (l : List β) (init : α)
    (h : ∀ b ∈ l, f init b = init) : l.foldl f init = init := by
  induction l with
  | nil => rfl
  | cons b l ih =>
    rw [List.foldl_cons, h b (List.mem_cons_self _ _)]
    exact ih (fun x hx => h x (List.mem_cons_of_mem _ hx))

/-- Storing at a position the byte loaded from it leaves the block as it is. -/
theorem set_ler_byte (d : List Byte) (k : Nat) : d.set k (ler_byte d k) = d := by
  apply List.ext_getElem?
  intro n
  rw [List.getElem?_set]
  by_cases hkn : k = n
  · subst hkn
    by_cases hk : k < d.length
    · rw [if_pos rfl, if_pos hk, getElem?_eq_ler_byte hk]
    · rw [if_pos rfl, if_neg hk, List.getElem?_eq_none (by omega)]
  · rw [if_neg hkn]

/-- Converting the value of a byte back to a byte gives the byte. -/
theorem toByte_val (b : Byte) : toByte (b.val : Int) = b := by
  apply Fin.ext
  have hb := b.isLt
  simp only [toByte]
  omega

/-- On an image whose pixels all carry the colour `(vr, vg, vb)`, a window position inside
the image contributes exactly that colour. -/
theorem blur_acumular_uniforme (d : List Byte) (w h c : Nat) (r : Int) (x y i j : Nat)
    (vr vg vb : Byte)
    (hu : ∀ p, p < w * h → ler_byte d (p * c + 0) = vr ∧ ler_byte d (p * c + 1) = vg ∧
      ler_byte d (p * c + 2) = vb)
    (acc : Nat × Nat × Nat × Nat) :
    blur_acumular d w h c r x y i acc j = acc ∨
    blur_acumular d w h c r x y i acc j
      = (acc.1 + vr.val, acc.2.1 + vg.val, acc.2.2.1 + vb.val, acc.2.2.2 + 1) := by
  unfold blur_acumular
  simp only
  split
  · rename_i hin
    right
    obtain ⟨h1, h2, h3, h4⟩ := hin
    obtain ⟨nx, hnx⟩ := Int.eq_ofNat_of_zero_le h1
    obtain ⟨ny, hny⟩ := Int.eq_ofNat_of_zero_le h3
    rw [hnx, hny]
    have hxw : nx < w := by omega
    have hyh : ny < h := by omega
    have hp : ny * w + nx < w * h := by
      have := mul_add_lt hyh hxw
      rw [Nat.mul_comm w h]; exact this
    have hidx : (((ny : Int) * (w : Int) + (nx : Int)) * (c : Int)).toNat = (ny * w + nx) * c := by
      have : ((ny : Int) * (w : Int) + (nx : Int)) * (c : Int) = (((ny * w + nx) * c : Nat) : Int) := by
        push_cast; ring
      rw [this, Int.toNat_ofNat]
    rw [hidx]
    obtain ⟨e1, e2, e3⟩ := hu _ hp
    rw [e1, e2, e3]
  · left; rfl

/-- On an image whose pixels all carry the colour `(vr, vg, vb)`, the window sums at a pixel
inside the image are `count * vr`, `count * vg`, `count * vb` with `count` at least one,
whatever part of the window is clipped. -/
theorem blur_somas_uniforme (d : List Byte) (w h c : Nat) (r : Int) (hr : 0 ≤ r) (x y : Nat)
    (hx : x < w) (hy : y < h) (vr vg vb : Byte)
    (hu : ∀ p, p < w * h → ler_byte d (p * c + 0) = vr ∧ ler_byte d (p * c + 1) = vg ∧
      ler_byte d (p * c + 2) = vb) :
    ∃ n, 1 ≤ n ∧
      blur_somas_exatas d w h c r x y = (n * vr.val, n * vg.val, n * vb.val, n) := by
  unfold blur_somas_exatas
  have hpasso : ∀ (i : Nat) (acc : Nat × Nat × Nat × Nat) (j : Nat),
      (acc.1 = acc.2.2.2 * vr.val ∧ acc.2.1 = acc.2.2.2 * vg.val ∧
        acc.2.2.1 = acc.2.2.2 * vb.val) →
      ((blur_acumular d w h c r x y i acc j).1
          = (blur_acumular d w h c r x y i acc j).2.2.2 * vr.val ∧
        (blur_acumular d w h c r x y i acc j).2.1
          = (blur_acumular d w h c r x y i acc j).2.2.2 * vg.val ∧
        (blur_acumular d w h c r x y i acc j).2.2.1
          = (blur_acumular d w h c r x y i acc j).2.2.2 * vb.val) := by
    intro i acc j hacc
    rcases blur_acumular_uniforme d w h c r x y i j vr vg vb hu acc with e | e
    · rw [e]; exact hacc
    · rw [e]
      obtain ⟨a1, a2, a3⟩ := hacc
      simp only
      refine ⟨?_, ?_, ?_⟩
      · rw [a1, Nat.add_mul, Nat.one_mul]
      · rw [a2, Nat.add_mul, Nat.one_mul]
      · rw [a3, Nat.add_mul, Nat.one_mul]
  have hmono : ∀ (i : Nat) (acc : Nat × Nat × Nat × Nat) (j : Nat),
      acc.2.2.2 ≤ (blur_acumular d w h c r x y i acc j).2.2.2 := by
    intro i acc j
    rcases blur_acumular_uniforme d w h c r x y i j vr vg vb hu acc with e | e
    · rw [e]
    · rw [e]; exact Nat.le_succ _
  have hcentro : ∀ acc : Nat × Nat × Nat × Nat,
      acc.2.2.2 < (blur_acumular d w h c r x y r.toNat acc r.toNat).2.2.2 := by
    intro acc
    unfold blur_acumular
    have e : ((r.toNat : Nat) : Int) = r := Int.toNat_of_nonneg hr
    simp only [e]
    rw [if_pos (by omega)]
    exact Nat.lt_succ_self _
  have hmem : r.toNat ∈ List.range (2 * r + 1).toNat := by
    rw [List.mem_range]; omega
  refine ⟨((List.range (2 * r + 1).toNat).foldl (fun acc i =>
      (List.range (2 * r + 1).toNat).foldl (blur_acumular d w h c r x y i) acc)
      (0, 0, 0, 0)).2.2.2, ?_, ?_⟩
  · have := foldl_cresce
      (fun acc i => (List.range (2 * r + 1).toNat).foldl (blur_acumular d w h c r x y i) acc)
      (fun acc : Nat × Nat × Nat × Nat => acc.2.2.2)
      (fun a i => foldl_mono (blur_acumular d w h c r x y i) (fun acc => acc.2.2.2)
        (fun a j => hmono i a j) _ a)
      (List.range (2 * r + 1).toNat) r.toNat hmem
      (fun a => foldl_cresce (blur_acumular d w h c r x y r.toNat) (fun acc => acc.2.2.2)
        (fun a j => hmono r.toNat a j) _ r.toNat hmem hcentro a)
      (0, 0, 0, 0)
    exact this
  · have hinv := foldl_inv
      (fun acc i => (List.range (2 * r + 1).toNat).foldl (blur_acumular d w h c r x y i) acc)
      (fun acc : Nat × Nat × Nat × Nat => acc.1 = acc.2.2.2 * vr.val ∧
        acc.2.1 = acc.2.2.2 * vg.val ∧ acc.2.2.1 = acc.2.2.2 * vb.val)
      (fun a i ha => foldl_inv (blur_acumular d w h c r x y i) _
        (fun a j ha => hpasso i a j ha) _ a ha)
      (List.range (2 * r + 1).toNat) (0, 0, 0, 0) ⟨by simp, by simp, by simp⟩
    obtain ⟨a1, a2, a3⟩ := hinv
    exact Prod.ext a1 (Prod.ext a2 (Prod.ext a3 rfl))

/-! ## Invalid source handles -/

/-- The method `obter` returns null exactly for the ids that are negative, not below the
size of the registry vector, or whose entry was released. -/
theorem obter_eq_none_iff {F : Type} (g : GerenciadorFontes F) (id : Int) :
    g.obter id = none ↔
      (id < 0 ∨ id ≥ (g.fontes.length : Int) ∨ g.fontes.getD id.toNat none = none) := by
  unfold GerenciadorFontes.obter
  by_cases h : id < 0 ∨ id ≥ (g.fontes.length : Int)
  · rw [if_pos h]
    simp only [true_iff]
    rcases h with h | h
    · exact Or.inl h
    · exact Or.inr (Or.inl h)
  · rw [if_neg h]
    constructor
    · intro hn; exact Or.inr (Or.inr hn)
    · rintro (h1 | h1 | h1)
      · exact absurd (Or.inl h1) h
      · exact absurd (Or.inr h1) h
      · exact h1

/-- After `liberar` the released id resolves to nothing. -/
theorem obter_liberar {F : Type} (g : GerenciadorFontes F) (id : Int) :
    (g.liberar id).obter id = none := by
  rw [obter_eq_none_iff]
  unfold GerenciadorFontes.liberar
  by_cases h : id < 0 ∨ id ≥ (g.fontes.length : Int)
  · rw [if_pos h]
    rcases h with h | h
    · exact Or.inl h
    · exact Or.inr (Or.inl h)
  · rw [if_neg h]
    right; right
    simp only
    rw [List.getD_eq_getElem?_getD, List.getElem?_set_self (by omega)]
    rfl

/-- On an id that resolves to nothing `clonar_com_filtro` returns `-1` and the registry as
it was. -/
theorem clonar_com_filtro_invalido {F : Type} (g : GerenciadorFontes F) (id : Int)
    (h : g.obter id = none) (tipo : TipoFiltro) (v1 v2 : F) :
    g.clonar_com_filtro id tipo v1 v2 = (-1, g) := by
  unfold GerenciadorFontes.clonar_com_filtro
  rw [h]

/-- Claim C18. Invalid source handle: for every id that is negative, not smaller than the
number of sources created, or already released, `obter` returns null, `clonar_com_filtro`
returns the failure sentinel `-1` and leaves the registry unchanged, and so does every
`cvn_fonte_*` export whose first argument decodes to that id; `obter` returns null for
exactly those ids, and a released id is one of them. -/
theorem identificador_invalido {D F : Type} (cv : Conversoes D F) (g : GerenciadorFontes F)
    (id : Int)
    (hinv : id < 0 ∨ id ≥ (g.fontes.length : Int) ∨ g.fontes.getD id.toNat none = none) :
    g.obter id = none ∧
    (∀ (tipo : TipoFiltro) (v1 v2 : F), g.clonar_com_filtro id tipo v1 v2 = (-1, g)) ∧
    (∀ (a0 : Var D) (resto : List (Var D)), get_int cv a0 = id →
      cvn_fonte_cinza cv g (a0 :: resto) = (-1, g) ∧
      cvn_fonte_inverter cv g (a0 :: resto) = (-1, g) ∧
      cvn_fonte_brilho cv g (a0 :: resto) = (-1, g) ∧
      cvn_fonte_contraste cv g (a0 :: resto) = (-1, g) ∧
      cvn_fonte_blur cv g (a0 :: resto) = (-1, g) ∧
      cvn_fonte_bordas cv g (a0 :: resto) = (-1, g) ∧
      cvn_fonte_sepia cv g (a0 :: resto) = (-1, g) ∧
      cvn_fonte_saturacao cv g (a0 :: resto) = (-1, g) ∧
      cvn_fonte_flip_h cv g (a0 :: resto) = (-1, g) ∧
      cvn_fonte_flip_v cv g (a0 :: resto) = (-1, g) ∧
      cvn_fonte_redimensionar cv g (a0 :: resto) = (-1, g)) ∧
    (∀ j : Int, g.obter j = none ↔
      (j < 0 ∨ j ≥ (g.fontes.length : Int) ∨ g.fontes.getD j.toNat none = none)) ∧
    (∀ j : Int, (g.liberar j).obter j = none) := by
  have hn : g.obter id = none := (obter_eq_none_iff g id).2 hinv
  refine ⟨hn, fun tipo v1 v2 => clonar_com_filtro_invalido g id hn tipo v1 v2, ?_,
    obter_eq_none_iff g, obter_liberar g⟩
  intro a0 resto ha
  have hc : ∀ (tipo : TipoFiltro) (v1 v2 : F),
      g.clonar_com_filtro (get_int cv a0) tipo v1 v2 = (-1, g) := by
    intro tipo v1 v2
    rw [ha]
    exact clonar_com_filtro_invalido g id hn tipo v1 v2
  refine ⟨hc _ _ _, hc _ _ _, ?_, ?_, ?_, hc _ _ _, hc _ _ _, ?_, hc _ _ _, hc _ _ _, ?_⟩
  · cases resto with
    | nil => rfl
    | cons a1 r => exact hc _ _ _
  · cases resto with
    | nil => rfl
    | cons a1 r => exact hc _ _ _
  · cases resto with
    | nil => rfl
    | cons a1 r => exact hc _ _ _
  · cases resto with
    | nil => rfl
    | cons a1 r => exact hc _ _ _
  · cases resto with
    | nil => rfl
    | cons a1 r =>
      cases r with
      | nil => rfl
      | cons a2 r2 => exact hc _ _ _

/-- Witness of C18: the released id 1 of a registry with two entries. -/
theorem identificador_invalido_witness :
    ((1 : Int) < 0 ∨ (1 : Int) ≥ (registo_com_liberada.fontes.length : Int) ∨
      registo_com_liberada.fontes.getD (1 : Int).toNat none = none) ∧
    (registo_com_liberada.obter 1 = none ∧
    (∀ (tipo : TipoFiltro) (v1 v2 : Int),
      registo_com_liberada.clonar_com_filtro 1 tipo v1 v2 = (-1, registo_com_liberada)) ∧
    (∀ (a0 : Var Int) (resto : List (Var Int)), get_int conversoes_exemplo a0 = 1 →
      cvn_fonte_cinza conversoes_exemplo registo_com_liberada (a0 :: resto)
        = (-1, registo_com_liberada) ∧
      cvn_fonte_inverter conversoes_exemplo registo_com_liberada (a0 :: resto)
        = (-1, registo_com_liberada) ∧
      cvn_fonte_brilho conversoes_exemplo registo_com_liberada (a0 :: resto)
        = (-1, registo_com_liberada) ∧
      cvn_fonte_contraste conversoes_exemplo registo_com_liberada (a0 :: resto)
        = (-1, registo_com_liberada) ∧
      cvn_fonte_blur conversoes_exemplo registo_com_liberada (a0 :: resto)
        = (-1, registo_com_liberada) ∧
      cvn_fonte_bordas conversoes_exemplo registo_com_liberada (a0 :: resto)
        = (-1, registo_com_liberada) ∧
      cvn_fonte_sepia conversoes_exemplo registo_com_liberada (a0 :: resto)
        = (-1, registo_com_liberada) ∧
      cvn_fonte_saturacao conversoes_exemplo registo_com_liberada (a0 :: resto)
        = (-1, registo_com_liberada) ∧
      cvn_fonte_flip_h conversoes_exemplo registo_com_liberada (a0 :: resto)
        = (-1, registo_com_liberada) ∧
      cvn_fonte_flip_v conversoes_exemplo registo_com_liberada (a0 :: resto)
        = (-1, registo_com_liberada) ∧
      cvn_fonte_redimensionar conversoes_exemplo registo_com_liberada (a0 :: resto)
        = (-1, registo_com_liberada)) ∧
    (∀ j : Int, registo_com_liberada.obter j = none ↔
      (j < 0 ∨ j ≥ (registo_com_liberada.fontes.length : Int) ∨
        registo_com_liberada.fontes.getD j.toNat none = none)) ∧
    (∀ j : Int, (registo_com_liberada.liberar j).obter j = none)) :=
  ⟨by decide, identificador_invalido conversoes_exemplo registo_com_liberada 1 (by decide)⟩

/-! ## The rectangle capturar_frame grabs -/

/-- Enumerating monitors appends one entry per monitor, numbered from the current size of
`g_monitores`. -/
theorem foldl_MonitorEnumProc (l : List MonitorSO) (acc : List MonitorInfo) :
    l.foldl MonitorEnumProc acc = acc ++ enumerar_desde acc.length l := by
  induction l generalizing acc with
  | nil => simp [enumerar_desde]
  | cons mi l ih =>
    rw [List.foldl_cons, ih]
    simp [MonitorEnumProc, enumerar_desde, monitor_info]

/-- The enumeration has one entry per monitor. -/
theorem length_enumerar_desde (l : List MonitorSO) (n : Nat) :
    (enumerar_desde n l).length = l.length := by
  induction l generalizing n with
  | nil => rfl
  | cons mi l ih => simp [enumerar_desde, ih]

/-- The entry of the enumeration at position `i` describes the monitor at position `i`. -/
theorem get?_enumerar_desde (l : List MonitorSO) (n i : Nat) (mi : MonitorSO)
    (h : l.get? i = some mi) : (enumerar_desde n l).get? i = some (monitor_info (n + i) mi) := by
  induction l generalizing n i with
  | nil => cases h
  | cons m l ih =>
    cases i with
    | zero =>
      simp only [List.get?_cons_zero, Option.some.injEq] at h
      subst h
      rfl
    | succ i =>
      simp only [List.get?_cons_succ] at h
      simp only [enumerar_desde, List.get?_cons_succ]
      rw [ih (n + 1) i h]
      congr 2
      omega

/-- For an index outside the enumeration `obter_monitor` hands out the rectangle of the
virtual desktop. -/
theorem obter_monitor_fora (amb : Ambiente) (m : Int)
    (h : m < 0 ∨ m ≥ (amb.monitores.length : Int)) :
    obter_monitor amb m = (false, amb.xvirtualscreen, amb.yvirtualscreen, amb.cxvirtualscreen,
      amb.cyvirtualscreen) := by
  unfold obter_monitor
  simp only [foldl_MonitorEnumProc, List.nil_append, List.length_nil, length_enumerar_desde]
  rw [if_pos h]

/-- For an index inside the enumeration `obter_monitor` hands out the rectangle of that
monitor. -/
theorem obter_monitor_dentro (amb : Ambiente) (m : Int) (mi : MonitorSO) (h0 : 0 ≤ m)
    (h : amb.monitores.get? m.toNat = some mi) :
    obter_monitor amb m
      = (true, mi.left, mi.top, mi.right - mi.left, mi.bottom - mi.top) := by
  have hlt : m.toNat < amb.monitores.length := by
    rcases Nat.lt_or_ge m.toNat amb.monitores.length with h1 | h1
    · exact h1
    · rw [List.get?_eq_none.2 h1] at h; cases h
  unfold obter_monitor
  simp only [foldl_MonitorEnumProc, List.nil_append, List.length_nil, length_enumerar_desde]
  rw [if_neg (by omega), get?_enumerar_desde _ _ _ _ h]
  rfl

/-- For a valid screen source `capturar_frame` grabs the rectangle `obter_monitor` hands
out for the stored index, reports its size and runs the filter chain. -/
theorem capturar_frame_tela {F : Type} (ops : FloatOps F) (amb : Ambiente)
    (cams : GerenciadorCameras) (fonte : Fonte F) (l0 a0 : Int)
    (ht : fonte.tipo = TipoFonte.TELA) (hv : fonte.valida = true) :
    capturar_frame ops amb cams (some fonte) l0 a0
      = filtrar_captura ops fonte
          ⟨Captura.regiao amb (obter_monitor amb fonte.indice).2.1
            (obter_monitor amb fonte.indice).2.2.1 (obter_monitor amb fonte.indice).2.2.2.1
            (obter_monitor amb fonte.indice).2.2.2.2,
           (obter_monitor amb fonte.indice).2.2.2.1,
           (obter_monitor amb fonte.indice).2.2.2.2, cams⟩ := by
  unfold capturar_frame filtrar_captura
  simp only [hv, ht, Bool.not_true, Bool.false_eq_true, if_false]

/-- For a valid region source `capturar_frame` grabs the stored rectangle shifted by the
origin `obter_monitor` hands out, reports the stored size and runs the filter chain. -/
theorem capturar_frame_regiao {F : Type} (ops : FloatOps F) (amb : Ambiente)
    (cams : GerenciadorCameras) (fonte : Fonte F) (l0 a0 : Int)
    (ht : fonte.tipo = TipoFonte.REGIAO) (hv : fonte.valida = true) :
    capturar_frame ops amb cams (some fonte) l0 a0
      = filtrar_captura ops fonte
          ⟨Captura.regiao amb ((obter_monitor amb fonte.indice).2.1 + fonte.x)
            ((obter_monitor amb fonte.indice).2.2.1 + fonte.y) fonte.largura fonte.altura,
           fonte.largura, fonte.altura, cams⟩ := by
  unfold capturar_frame filtrar_captura
  simp only [hv, ht, Bool.not_true, Bool.false_eq_true, if_false]

/-- A source without filters returns the captured block as it is. -/
theorem filtrar_captura_sem_filtros {F : Type} (ops : FloatOps F) (fonte : Fonte F)
    (hf : fonte.filtros = []) (c : ResultadoCaptura) : filtrar_captura ops fonte c = c := by
  unfold filtrar_captura
  cases c.dados with
  | none => rfl
  | some d => simp [hf]

/-- Claim C19, evaluated on the code: on a desktop whose second monitor is 1 x 2 at
`(2, 0)` while the primary output is 2 x 1 at `(0, 0)`, a screen source with monitor index 1
yields the pixels of the second monitor and reports 1 x 2, not the rectangle
`(0, 0, screenWidth, screenHeight)` of the primary output. -/
theorem capturar_frame_tela_nao_primaria :
    capturar_frame ops_exemplo amb_dois {} (some (Fonte.criar_tela 1)) 0 0
      = ⟨some [2, 2, 2, 255, 2, 2, 2, 255], 1, 2, {}⟩ ∧
    Captura.regiao amb_dois 0 0 amb_dois.cxscreen amb_dois.cyscreen
      = some [0, 0, 0, 255, 0, 0, 0, 255] ∧
    capturar_frame ops_exemplo amb_dois {} (some (Fonte.criar_tela 1)) 0 0
      ≠ ⟨Captura.regiao amb_dois 0 0 amb_dois.cxscreen amb_dois.cyscreen,
          amb_dois.cxscreen, amb_dois.cyscreen, {}⟩ := by
  refine ⟨by decide, by decide, by decide⟩

/-- Claim C19, amended. For every valid screen source, `capturar_frame` grabs the rectangle
of the monitor whose index the source stores, as enumerated (origin `(left, top)`, size
`(right - left, bottom - top)`), when that index is inside the enumeration, and the
rectangle of the virtual desktop otherwise; it reports the width and height of that
rectangle, and the block then goes through the filter chain of the source (unchanged when
the chain is empty). -/
theorem capturar_frame_tela_monitor {F : Type} (ops : FloatOps F) (amb : Ambiente)
    (cams : GerenciadorCameras) (fonte : Fonte F) (l0 a0 : Int)
    (ht : fonte.tipo = TipoFonte.TELA) (hv : fonte.valida = true) :
    (∀ mi : MonitorSO, 0 ≤ fonte.indice → amb.monitores.get? fonte.indice.toNat = some mi →
      capturar_frame ops amb cams (some fonte) l0 a0
        = filtrar_captura ops fonte
            ⟨Captura.regiao amb mi.left mi.top (mi.right - mi.left) (mi.bottom - mi.top),
             mi.right - mi.left, mi.bottom - mi.top, cams⟩) ∧
    ((fonte.indice < 0 ∨ fonte.indice ≥ (amb.monitores.length : Int)) →
      capturar_frame ops amb cams (some fonte) l0 a0
        = filtrar_captura ops fonte
            ⟨Captura.regiao amb amb.xvirtualscreen amb.yvirtualscreen amb.cxvirtualscreen
              amb.cyvirtualscreen, amb.cxvirtualscreen, amb.cyvirtualscreen, cams⟩) ∧
    (fonte.filtros = [] → ∀ c : ResultadoCaptura, filtrar_captura ops fonte c = c) := by
  refine ⟨?_, ?_, fun hf c => filtrar_captura_sem_filtros ops fonte hf c⟩
  · intro mi h0 hmi
    rw [capturar_frame_tela ops amb cams fonte l0 a0 ht hv,
      obter_monitor_dentro amb fonte.indice mi h0 hmi]
  · intro hfora
    rw [capturar_frame_tela ops amb cams fonte l0 a0 ht hv,
      obter_monitor_fora amb fonte.indice hfora]

/-- Witness of the amended C19: the screen source with index 1 on the two-monitor desktop. -/
theorem capturar_frame_tela_monitor_witness :
    (∀ mi : MonitorSO, (0 : Int) ≤ (Fonte.criar_tela (F := Int) 1).indice →
      amb_dois.monitores.get? (Fonte.criar_tela (F := Int) 1).indice.toNat = some mi →
      capturar_frame ops_exemplo amb_dois {} (some (Fonte.criar_tela 1)) 0 0
        = filtrar_captura ops_exemplo (Fonte.criar_tela 1)
            ⟨Captura.regiao amb_dois mi.left mi.top (mi.right - mi.left) (mi.bottom - mi.top),
             mi.right - mi.left, mi.bottom - mi.top, {}⟩) ∧
    (((Fonte.criar_tela (F := Int) 1).indice < 0 ∨
        (Fonte.criar_tela (F := Int) 1).indice ≥ (amb_dois.monitores.length : Int)) →
      capturar_frame ops_exemplo amb_dois {} (some (Fonte.criar_tela 1)) 0 0
        = filtrar_captura ops_exemplo (Fonte.criar_tela 1)
            ⟨Captura.regiao amb_dois amb_dois.xvirtualscreen amb_dois.yvirtualscreen
              amb_dois.cxvirtualscreen amb_dois.cyvirtualscreen, amb_dois.cxvirtualscreen,
              amb_dois.cyvirtualscreen, {}⟩) ∧
    ((Fonte.criar_tela (F := Int) 1).filtros = [] →
      ∀ c : ResultadoCaptura, filtrar_captura ops_exemplo (Fonte.criar_tela 1) c = c) :=
  capturar_frame_tela_monitor ops_exemplo amb_dois {} (Fonte.criar_tela 1) 0 0 rfl rfl

/-- The counters, registries and `Sleep` log after `k` failed attempts: `k` more captures,
`k` more `Sleep(50)`, nothing else touched besides the camera registry. -/
theorem falhas_efeito {F : Type} (ops : FloatOps F) (ext : Exterior) (fonte : Fonte F) (k : Nat) :
    ∀ s : Processo F × Int × Int,
      (falhas ops ext fonte k s).1.capturas = s.1.capturas + k ∧
      (falhas ops ext fonte k s).1.atualizacoes = s.1.atualizacoes ∧
      (falhas ops ext fonte k s).1.processamentos = s.1.processamentos ∧
      (falhas ops ext fonte k s).1.janelas = s.1.janelas ∧
      (falhas ops ext fonte k s).1.fontes = s.1.fontes ∧
      (falhas ops ext fonte k s).1.sleeps = s.1.sleeps ++ List.replicate k 50 := by
  induction k with
  | zero => intro s; simp [falhas]
  | succ k ih =>
    intro s
    obtain ⟨h1, h2, h3, h4, h5, h6⟩ :=
      ih (((s.1.capturar ops ext (some fonte) s.2.1 s.2.2).2.dormir 50),
        (s.1.capturar ops ext (some fonte) s.2.1 s.2.2).1.largura,
        (s.1.capturar ops ext (some fonte) s.2.1 s.2.2).1.altura)
    simp only [falhas]
    refine ⟨?_, ?_, ?_, ?_, ?_, ?_⟩
    · rw [h1]; simp only [Processo.dormir, Processo.capturar]; omega
    · rw [h2]; rfl
    · rw [h3]; rfl
    · rw [h4]; rfl
    · rw [h5]; rfl
    · rw [h6]
      simp only [Processo.dormir, Processo.capturar, List.append_assoc, List.singleton_append,
        List.replicate_succ]

/-- When each of the first `n` attempts returns no frame, the first loop ends without a
frame in the state reached after `n` failed attempts. -/
theorem esperar_primeiro_frame_falhas {F : Type} (ops : FloatOps F) (ext : Exterior)
    (fonte : Fonte F) (n : Nat) :
    ∀ s : Processo F × Int × Int,
      (∀ k, k < n →
        ((falhas ops ext fonte k s).1.capturar ops ext (some fonte)
          (falhas ops ext fonte k s).2.1 (falhas ops ext fonte k s).2.2).1.dados = none) →
      esperar_primeiro_frame ops ext fonte n s.1 s.2.1 s.2.2
        = ⟨none, (falhas ops ext fonte n s).2.1, (falhas ops ext fonte n s).2.2,
            (falhas ops ext fonte n s).1⟩ := by
  induction n with
  | zero => intro s _; rfl
  | succ n ih =>
    intro s h
    have h0 := h 0 (Nat.succ_pos n)
    simp only [falhas] at h0
    simp only [esperar_primeiro_frame, h0, falhas]
    exact ih _ (fun k hk => h (k + 1) (Nat.succ_lt_succ hk))

/-- On a source id that resolves to nothing `cvn_reproduzir` returns `false` at once. -/
theorem cvn_reproduzir_desconhecida {F : Type} (ops : FloatOps F) (ext : Exterior) (fuel : Nat)
    (p : Processo F) (titulo : String) (fonte_id ms : Int) (h : p.fontes.obter fonte_id = none) :
    cvn_reproduzir ops ext fuel p titulo fonte_id ms = some (false, p) := by
  unfold cvn_reproduzir
  rw [h]

/-- A region source whose width is not positive yields no frame, whatever the state of the
process. -/
theorem capturar_regiao_vazia {F : Type} (ops : FloatOps F) (ext : Exterior) (fonte : Fonte F)
    (ht : fonte.tipo = TipoFonte.REGIAO) (hv : fonte.valida = true) (hl : fonte.largura ≤ 0)
    (p : Processo F) (l a : Int) :
    (p.capturar ops ext (some fonte) l a).1.dados = none := by
  simp only [Processo.capturar]
  rw [capturar_frame_regiao ops _ _ fonte l a ht hv]
  unfold filtrar_captura Captura.regiao
  simp [hl]

/-- Claim C16. Starting-state exhaustion: for every valid source whose capture returns no
frame at each of the calls of the starting loop, `cvn_reproduzir` returns `false` (whatever
the bound on the playback loop, which is never entered) after exactly 100 calls of
`capturar_frame`, each followed by `Sleep(50)`, without any call of `atualizar` or
`processar_mensagens` and with the window registry exactly as it was; and on a source id
that resolves to nothing it returns `false` with the whole process unchanged. -/
theorem cvn_reproduzir_esgota {F : Type} (ops : FloatOps F) (ext : Exterior) (fuel : Nat)
    (p : Processo F) (titulo : String) (fonte_id ms : Int) (fonte : Fonte F)
    (hf : p.fontes.obter fonte_id = some fonte) (hv : fonte.valida = true)
    (hvazio : ∀ k, k < 100 →
      ((falhas ops ext fonte k (p, 0, 0)).1.capturar ops ext (some fonte)
        (falhas ops ext fonte k (p, 0, 0)).2.1 (falhas ops ext fonte k (p, 0, 0)).2.2).1.dados
        = none) :
    (∃ pf : Processo F,
      cvn_reproduzir ops ext fuel p titulo fonte_id ms = some (false, pf) ∧
      pf.capturas = p.capturas + 100 ∧
      pf.sleeps = p.sleeps ++ List.replicate 100 50 ∧
      pf.atualizacoes = p.atualizacoes ∧
      pf.processamentos = p.processamentos ∧
      pf.janelas = p.janelas ∧
      pf.fontes = p.fontes) ∧
    (∀ (q : Processo F) (id : Int), q.fontes.obter id = none →
      cvn_reproduzir ops ext fuel q titulo id ms = some (false, q)) := by
  refine ⟨⟨(falhas ops ext fonte 100 (p, 0, 0)).1, ?_, ?_⟩,
    fun q id h => cvn_reproduzir_desconhecida ops ext fuel q titulo id ms h⟩
  · have e := esperar_primeiro_frame_falhas ops ext fonte 100 (p, 0, 0) hvazio
    simp only at e
    unfold cvn_reproduzir
    simp only [hf, hv, Bool.not_true, Bool.false_eq_true, if_false, e]
  · obtain ⟨h1, h2, h3, h4, h5, h6⟩ := falhas_efeito ops ext fonte 100 (p, 0, 0)
    exact ⟨h1, h6, h2, h3, h4, h5⟩

/-- Witness of C16: the region source of width 0 under id 0 of `processo_exemplo`. -/
theorem cvn_reproduzir_esgota_witness :
    (∃ pf : Processo Int,
      cvn_reproduzir ops_exemplo ext_exemplo 0 processo_exemplo "video" 0 30 = some (false, pf) ∧
      pf.capturas = processo_exemplo.capturas + 100 ∧
      pf.sleeps = processo_exemplo.sleeps ++ List.replicate 100 50 ∧
      pf.atualizacoes = processo_exemplo.atualizacoes ∧
      pf.processamentos = processo_exemplo.processamentos ∧
      pf.janelas = processo_exemplo.janelas ∧
      pf.fontes = processo_exemplo.fontes) ∧
    (∀ (q : Processo Int) (id : Int), q.fontes.obter id = none →
      cvn_reproduzir ops_exemplo ext_exemplo 0 q "video" id 30 = some (false, q)) :=
  cvn_reproduzir_esgota ops_exemplo ext_exemplo 0 processo_exemplo "video" 0 30
    (Fonte.criar_regiao 0 0 0 0 1) rfl rfl
    (fun k _ => capturar_regiao_vazia ops_exemplo ext_exemplo (Fonte.criar_regiao 0 0 0 0 1)
      rfl rfl (by decide) _ _ _)

/-! ## The playback loop of cvn_reproduzir -/

/-- For a source that is not a camera `capturar_frame` hands the camera registry back as it
received it. -/
theorem capturar_frame_cameras {F : Type} (ops : FloatOps F) (amb : Ambiente)
    (cams : GerenciadorCameras) (fonte : Fonte F) (l a : Int)
    (ht : fonte.tipo ≠ TipoFonte.CAMERA) :
    (capturar_frame ops amb cams (some fonte) l a).cameras = cams := by
  have hfc : ∀ c : ResultadoCaptura, (filtrar_captura ops fonte c).cameras = c.cameras := by
    intro c
    unfold filtrar_captura
    split
    · split <;> rfl
    · rfl
  by_cases hv : fonte.valida = true
  · cases htipo : fonte.tipo with
    | CAMERA => exact absurd htipo ht
    | TELA => rw [capturar_frame_tela ops amb cams fonte l a htipo hv, hfc]
    | REGIAO => rw [capturar_frame_regiao ops amb cams fonte l a htipo hv, hfc]
    | NENHUM =>
      unfold capturar_frame
      simp [hv, htipo]
  · unfold capturar_frame
    simp [hv]

/-- The run of the witness of C17, evaluated: with one iteration allowed, the call returns
`true`, the window "video" exists and the camera vector holds a null pointer. -/
theorem cvn_reproduzir_camera_exemplo :
    (cvn_reproduzir ops_exemplo ext_exemplo 1 processo_camera "video" 0 30).map
        (fun r => (r.1, r.2.cameras, r.2.janelas.janelas.lookup "video"))
      = some (true, { cameras := [none] }, some ⟨1, 1, false⟩) := by
  decide

/-! ## brilho -/

section canal
variable (c : Nat) (v : Byte → Byte)

/-- A loop over the pairs (pixel, colour channel) that rewrites each addressed byte from its
current value keeps the size of the block. -/
theorem length_foldl_canal (n : Nat) (d : List Byte) :
    ((List.product (List.range n) (List.range 3)).foldl
      (fun d t => d.set (t.1 * c + t.2) (v (ler_byte d (t.1 * c + t.2)))) d).length
      = d.length :=
  length_foldl_modificar (fun t : Nat × Nat => t.1 * c + t.2) (fun _ b => v b) _ d

/-- With at least three channels such a loop replaces each colour byte of each of the first
`n` pixels by the value computed from the original byte. -/
theorem getElem?_foldl_canal_cor (hc : 3 ≤ c) (n : Nat) (d : List Byte)
    (hlen : n * c ≤ d.length) {i j : Nat} (hi : i < n) (hj : j < 3) :
    ((List.product (List.range n) (List.range 3)).foldl
      (fun d t => d.set (t.1 * c + t.2) (v (ler_byte d (t.1 * c + t.2)))) d)[i * c + j]?
      = some (v (ler_byte d (i * c + j))) := by
  refine getElem?_foldl_modificar_of_mem (fun t : Nat × Nat => t.1 * c + t.2)
    (fun _ b => v b) _ d
    (List.Nodup.product (List.nodup_range _) (List.nodup_range _)) ?_ (i, j) ?_ ?_
  · rintro ⟨i1, j1⟩ ha ⟨i2, j2⟩ hb hab
    simp only [List.mem_product, List.pair_mem_product, List.mem_range] at ha hb
    obtain ⟨e1, e2⟩ := mul_add_inj (c := c) (by omega) (by omega) hab
    subst e1 e2; rfl
  · simp only [List.mem_product, List.pair_mem_product, List.mem_range]; exact ⟨hi, hj⟩
  · exact lt_of_lt_of_le (mul_add_lt hi (by omega)) hlen

/-- Such a loop leaves alone every channel past the third. -/
theorem getElem?_foldl_canal_resto (n : Nat) (d : List Byte) {i j : Nat}
    (hj : 3 ≤ j) (hjc : j < c) :
    ((List.product (List.range n) (List.range 3)).foldl
      (fun d t => d.set (t.1 * c + t.2) (v (ler_byte d (t.1 * c + t.2)))) d)[i * c + j]?
      = d[i * c + j]? := by
  apply getElem?_foldl_modificar_of_ne (fun t : Nat × Nat => t.1 * c + t.2) (fun _ b => v b)
  rintro ⟨i1, j1⟩ ha hab
  simp only [List.mem_product, List.pair_mem_product, List.mem_range] at ha
  have := (mul_add_inj (c := c) (by omega) hjc hab).2
  omega

end canal

/-- The loop nest of `brilho` is one loop over the pairs (pixel, colour channel). -/
theorem brilho_eq_foldl (d : List Byte) (w h c : Nat) (valor : Int) :
    Filtros.brilho d w h c valor
      = (List.product (List.range (w * h)) (List.range 3)).foldl
          (fun d t => d.set (t.1 * c + t.2)
            (clamp_byte (int32 (((ler_byte d (t.1 * c + t.2)).val : Int) + valor)))) d := by
  rw [foldl_product]
  rfl

/-- The byte stored by `std::clamp(v, 0, 255)` has the value of `v` clamped to the range
from 0 to 255 in integer arithmetic. -/
theorem val_clamp_byte (v : Int) : ((clamp_byte v).val : Int) = max 0 (min 255 v) := by
  unfold clamp_byte toByte
  simp only
  split_ifs with h1 h2
  · simp; omega
  · simp; omega
  · have e : v % 256 = v := Int.emod_eq_of_lt (by omega) (by omega)
    rw [e, Int.toNat_of_nonneg (by omega)]
    omega

/-- The filter `brilho` keeps the size of the block. -/
theorem length_brilho (d : List Byte) (w h c : Nat) (valor : Int) :
    (Filtros.brilho d w h c valor).length = d.length := by
  rw [brilho_eq_foldl]
  exact length_foldl_canal c (fun b => clamp_byte (int32 ((b.val : Int) + valor))) _ d

/-- The filter `brilho` leaves alone every channel past the third. -/
theorem brilho_getElem?_resto (d : List Byte) (w h c : Nat) (valor : Int) {i j : Nat}
    (hj : 3 ≤ j) (hjc : j < c) :
    (Filtros.brilho d w h c valor)[i * c + j]? = d[i * c + j]? := by
  rw [brilho_eq_foldl]
  exact getElem?_foldl_canal_resto c (fun b => clamp_byte (int32 ((b.val : Int) + valor))) _ d
    hj hjc

/-- The filter `brilho` stores in each colour byte the clamped `int` sum of the original
byte and `valor`. -/
theorem brilho_getElem?_cor (d : List Byte) (w h c : Nat) (valor : Int) (hc : 3 ≤ c)
    (hlen : w * h * c ≤ d.length) {i j : Nat} (hi : i < w * h) (hj : j < 3) :
    (Filtros.brilho d w h c valor)[i * c + j]?
      = some (clamp_byte (int32 (((ler_byte d (i * c + j)).val : Int) + valor))) := by
  rw [brilho_eq_foldl]
  exact getElem?_foldl_canal_cor c (fun b => clamp_byte (int32 ((b.val : Int) + valor))) hc _ d
    hlen hi hj

/-- Claim C21, counterexample. With the shift `2147483647`, the largest `int`, on the 1 x 2
RGBA frame `frame_exemplo`, the sum `10 + 2147483647` of the first red byte does not fit an
`int`: the stored byte is 0, where the clamped integer shift
`max 0 (min 255 (10 + 2147483647))` is 255; the same happens to the other five colour
bytes, although the shift is at least 255. -/
theorem brilho_deslocamento_estoura :
    ((ler_byte frame_exemplo (0 * 4 + 0)).val : Int) = 10 ∧
    max (0 : Int) (min 255 (10 + 2147483647)) = 255 ∧
    ler_byte (Filtros.brilho frame_exemplo 1 2 4 2147483647) (0 * 4 + 0) = 0 ∧
    Filtros.brilho frame_exemplo 1 2 4 2147483647 = [0, 0, 0, 255, 0, 0, 0, 255] := by
  decide

/-- Claim C21, amended. Brightness is a clamped integer shift as long as the sums fit an
`int`: on every `w x h` frame with `c >= 3` channels and for every `int` `delta` that is at
most `2147483392 = 2^31 - 1 - 255`, after `brilho` each of the R, G, B bytes has the value
`max 0 (min 255 (old + delta))` computed over the integers (no wrap-around modulo 256) and
every further channel (alpha) is unchanged; `brilho` with 0 returns the frame as it is,
with `255 <= delta <= 2147483392` every colour byte becomes 255 and with `delta <= -255`
every colour byte becomes 0. -/
theorem brilho_deslocamento (d : List Byte) (w h c : Nat) (delta : Int)
    (hlen : d.length = w * h * c) (hc : 3 ≤ c) (hmin : -2147483648 ≤ delta)
    (hmax : delta ≤ 2147483392) :
    (∀ i j, i < w * h → j < 3 →
      ((ler_byte (Filtros.brilho d w h c delta) (i * c + j)).val : Int)
        = max 0 (min 255 (((ler_byte d (i * c + j)).val : Int) + delta))) ∧
    (∀ i j, i < w * h → 3 ≤ j → j < c →
      ler_byte (Filtros.brilho d w h c delta) (i * c + j) = ler_byte d (i * c + j)) ∧
    Filtros.brilho d w h c 0 = d ∧
    (255 ≤ delta → ∀ i j, i < w * h → j < 3 →
      ler_byte (Filtros.brilho d w h c delta) (i * c + j) = 255) ∧
    (delta ≤ -255 → ∀ i j, i < w * h → j < 3 →
      ler_byte (Filtros.brilho d w h c delta) (i * c + j) = 0) := by
  have hsoma : ∀ b : Byte, int32 ((b.val : Int) + delta) = (b.val : Int) + delta := by
    intro b
    have hb := b.isLt
    exact int32_of_range _ (by omega) (by omega)
  have hcor : ∀ i j, i < w * h → j < 3 →
      ler_byte (Filtros.brilho d w h c delta) (i * c + j)
        = clamp_byte (((ler_byte d (i * c + j)).val : Int) + delta) := by
    intro i j hi hj
    rw [ler_byte_eq, brilho_getElem?_cor d w h c delta hc (by rw [hlen]) hi hj, hsoma]
    rfl
  refine ⟨?_, ?_, ?_, ?_, ?_⟩
  · intro i j hi hj
    rw [hcor i j hi hj]
    exact val_clamp_byte _
  · intro i j _ hj hjc
    exact ler_byte_congr (brilho_getElem?_resto d w h c delta hj hjc)
  · rw [brilho_eq_foldl]
    apply foldl_fixo
    intro t _
    have e : clamp_byte (int32 (((ler_byte d (t.1 * c + t.2)).val : Int) + 0))
        = ler_byte d (t.1 * c + t.2) := by
      apply Fin.ext
      have h2 := (ler_byte d (t.1 * c + t.2)).isLt
      rw [int32_of_range _ (by omega) (by omega)]
      have h1 := val_clamp_byte (((ler_byte d (t.1 * c + t.2)).val : Int) + 0)
      omega
    simp only [e]
    exact set_ler_byte d _
  · intro hd i j hi hj
    rw [hcor i j hi hj]
    apply Fin.ext
    have h1 := val_clamp_byte (((ler_byte d (i * c + j)).val : Int) + delta)
    have h2 := (ler_byte d (i * c + j)).isLt
    have h3 : ((255 : Byte).val : Int) = 255 := rfl
    omega
  · intro hd i j hi hj
    rw [hcor i j hi hj]
    apply Fin.ext
    have h1 := val_clamp_byte (((ler_byte d (i * c + j)).val : Int) + delta)
    have h2 := (ler_byte d (i * c + j)).isLt
    have h3 : ((0 : Byte).val : Int) = 0 := rfl
    omega

/-- Witness of the amended C21: a shift by 50 on a 1 x 2 RGBA frame, which saturates two
bytes of the second pixel. -/
theorem brilho_deslocamento_witness :
    frame_exemplo.length = 1 * 2 * 4 ∧ 3 ≤ 4 ∧ (-2147483648 : Int) ≤ 50 ∧
    (50 : Int) ≤ 2147483392 ∧
    Filtros.brilho frame_exemplo 1 2 4 50 = [60, 70, 80, 255, 250, 255, 255, 255] ∧
    ((∀ i j, i < 1 * 2 → j < 3 →
      ((ler_byte (Filtros.brilho frame_exemplo 1 2 4 50) (i * 4 + j)).val : Int)
        = max 0 (min 255 (((ler_byte frame_exemplo (i * 4 + j)).val : Int) + 50))) ∧
    (∀ i j, i < 1 * 2 → 3 ≤ j → j < 4 →
      ler_byte (Filtros.brilho frame_exemplo 1 2 4 50) (i * 4 + j)
        = ler_byte frame_exemplo (i * 4 + j)) ∧
    Filtros.brilho frame_exemplo 1 2 4 0 = frame_exemplo ∧
    ((255 : Int) ≤ 50 → ∀ i j, i < 1 * 2 → j < 3 →
      ler_byte (Filtros.brilho frame_exemplo 1 2 4 50) (i * 4 + j) = 255) ∧
    ((50 : Int) ≤ -255 → ∀ i j, i < 1 * 2 → j < 3 →
      ler_byte (Filtros.brilho frame_exemplo 1 2 4 50) (i * 4 + j) = 0)) :=
  ⟨by decide, by decide, by decide, by decide, by decide,
    brilho_deslocamento frame_exemplo 1 2 4 50 (by decide) (by decide) (by decide)
      (by decide)⟩

/-! ## blur as the mean of the clipped window -/

/-- A component of the state of a counting loop that every iteration increases by `t b`
ends up increased by the sum of the `t b`. -/
theorem foldl_range_soma {α : Type} (π : α → Nat) (f : α → Nat → α) (t : Nat → Nat)
    (h : ∀ a b, π (f a b) = π a + t b) (n : Nat) (a : α) :
    π ((List.range n).foldl f a) = π a + ∑ i in Finset.range n, t i := by
  induction n with
  | zero => simp
  | succ n ih =>
    rw [List.range_succ, List.foldl_append, List.foldl_cons, List.foldl_nil, h, ih,
      Finset.sum_range_succ, Nat.add_assoc]

/-- The innermost loop body of `blur` adds to each of the three sums the byte of its
channel at the window position, and one to the count, when the position lies inside the
image. -/
theorem blur_acumular_termo (temp : List Byte) (w h c : Nat) (r : Int) (x y i j : Nat)
    (acc : Nat × Nat × Nat × Nat) :
    (blur_acumular temp w h c r x y i acc j).1
      = acc.1 + blur_termo (fun nx ny => (ler_byte temp ((ny * w + nx) * c + 0)).val)
          w h r x y i j ∧
    (blur_acumular temp w h c r x y i acc j).2.1
      = acc.2.1 + blur_termo (fun nx ny => (ler_byte temp ((ny * w + nx) * c + 1)).val)
          w h r x y i j ∧
    (blur_acumular temp w h c r x y i acc j).2.2.1
      = acc.2.2.1 + blur_termo (fun nx ny => (ler_byte temp ((ny * w + nx) * c + 2)).val)
          w h r x y i j ∧
    (blur_acumular temp w h c r x y i acc j).2.2.2
      = acc.2.2.2 + blur_termo (fun _ _ => 1) w h r x y i j := by
  unfold blur_acumular blur_termo
  simp only
  split
  · rename_i hin
    obtain ⟨h1, h2, h3, h4⟩ := hin
    obtain ⟨nx, hnx⟩ := Int.eq_ofNat_of_zero_le h1
    obtain ⟨ny, hny⟩ := Int.eq_ofNat_of_zero_le h3
    rw [hnx, hny]
    have hidx : (((ny : Int) * (w : Int) + (nx : Int)) * (c : Int)).toNat = (ny * w + nx) * c := by
      have : ((ny : Int) * (w : Int) + (nx : Int)) * (c : Int) = (((ny * w + nx) * c : Nat) : Int) := by
        push_cast; ring
      rw [this, Int.toNat_ofNat]
    rw [hidx]
    simp only [Int.toNat_ofNat, and_self]
  · simp only [Nat.add_zero, and_self]

/-- The four exact window sums, each as a double sum over the offsets of the
window. -/
theorem blur_somas_soma (temp : List Byte) (w h c : Nat) (r : Int) (x y : Nat) :
    (blur_somas_exatas temp w h c r x y).1
      = ∑ i in Finset.range (2 * r + 1).toNat, ∑ j in Finset.range (2 * r + 1).toNat,
          blur_termo (fun nx ny => (ler_byte temp ((ny * w + nx) * c + 0)).val) w h r x y i j ∧
    (blur_somas_exatas temp w h c r x y).2.1
      = ∑ i in Finset.range (2 * r + 1).toNat, ∑ j in Finset.range (2 * r + 1).toNat,
          blur_termo (fun nx ny => (ler_byte temp ((ny * w + nx) * c + 1)).val) w h r x y i j ∧
    (blur_somas_exatas temp w h c r x y).2.2.1
      = ∑ i in Finset.range (2 * r + 1).toNat, ∑ j in Finset.range (2 * r + 1).toNat,
          blur_termo (fun nx ny => (ler_byte temp ((ny * w + nx) * c + 2)).val) w h r x y i j ∧
    (blur_somas_exatas temp w h c r x y).2.2.2
      = ∑ i in Finset.range (2 * r + 1).toNat, ∑ j in Finset.range (2 * r + 1).toNat,
          blur_termo (fun _ _ => 1) w h r x y i j := by
  unfold blur_somas_exatas
  have key : ∀ (π : Nat × Nat × Nat × Nat → Nat) (g : Nat → Nat → Nat),
      (∀ i j acc, π (blur_acumular temp w h c r x y i acc j)
        = π acc + blur_termo g w h r x y i j) →
      π ((List.range (2 * r + 1).toNat).foldl (fun acc i =>
          (List.range (2 * r + 1).toNat).foldl (blur_acumular temp w h c r x y i) acc)
          (0, 0, 0, 0))
        = π (0, 0, 0, 0) + ∑ i in Finset.range (2 * r + 1).toNat,
            ∑ j in Finset.range (2 * r + 1).toNat, blur_termo g w h r x y i j := by
    intro π g hπ
    exact foldl_range_soma π _ _
      (fun a i => foldl_range_soma π (blur_acumular temp w h c r x y i)
        (fun j => blur_termo g w h r x y i j) (fun acc j => hπ i j acc) _ a) _ _
  refine ⟨?_, ?_, ?_, ?_⟩
  · rw [key (fun a => a.1) _ (fun i j acc => (blur_acumular_termo temp w h c r x y i j acc).1)]
    exact Nat.zero_add _
  · rw [key (fun a => a.2.1) _
      (fun i j acc => (blur_acumular_termo temp w h c r x y i j acc).2.1)]
    exact Nat.zero_add _
  · rw [key (fun a => a.2.2.1) _
      (fun i j acc => (blur_acumular_termo temp w h c r x y i j acc).2.2.1)]
    exact Nat.zero_add _
  · rw [key (fun a => a.2.2.2) _
      (fun i j acc => (blur_acumular_termo temp w h c r x y i j acc).2.2.2)]
    exact Nat.zero_add _

/-- Membership in the clipped window. -/
theorem mem_janela_blur {w h : Nat} {r : Int} {x y nx ny : Nat} :
    (nx, ny) ∈ janela_blur w h r x y
      ↔ nx < w ∧ ny < h ∧ -r ≤ (nx : Int) - (x : Int) ∧ (nx : Int) - (x : Int) ≤ r ∧
        -r ≤ (ny : Int) - (y : Int) ∧ (ny : Int) - (y : Int) ≤ r := by
  unfold janela_blur
  simp only [List.mem_filter, List.mem_product, List.pair_mem_product, List.mem_range,
    decide_eq_true_eq, abs_le]
  tauto

/-- The clipped window lists no position twice. -/
theorem nodup_janela_blur (w h : Nat) (r : Int) (x y : Nat) : (janela_blur w h r x y).Nodup :=
  List.Nodup.filter _ (List.Nodup.product (List.nodup_range w) (List.nodup_range h))

/-- Summing over the offsets `dy, dx` of the window that fall inside the image is summing
over the positions of the clipped window. -/
theorem soma_blur_termo (g : Nat → Nat → Nat) (w h : Nat) (r : Int) (x y : Nat) :
    ∑ i in Finset.range (2 * r + 1).toNat, ∑ j in Finset.range (2 * r + 1).toNat,
        blur_termo g w h r x y i j
      = ((janela_blur w h r x y).map (fun p => g p.1 p.2)).sum := by
  rw [← List.sum_toFinset _ (nodup_janela_blur w h r x y), ← Finset.sum_product']
  unfold blur_termo
  simp only
  rw [← Finset.sum_filter]
  refine Finset.sum_nbij'
    (fun q => (((x : Int) + ((q.2 : Int) - r)).toNat, ((y : Int) + ((q.1 : Int) - r)).toNat))
    (fun p => (((p.2 : Int) - (y : Int) + r).toNat, ((p.1 : Int) - (x : Int) + r).toNat))
    ?_ ?_ ?_ ?_ ?_
  · rintro ⟨i, j⟩ hq
    simp only [Finset.mem_filter, Finset.mem_product, Finset.mem_range] at hq
    simp only [Finset.mem_coe, List.mem_toFinset]
    rw [mem_janela_blur]
    omega
  · rintro ⟨nx, ny⟩ hp
    simp only [Finset.mem_coe, List.mem_toFinset] at hp
    rw [mem_janela_blur] at hp
    simp only [Finset.mem_filter, Finset.mem_product, Finset.mem_range]
    omega
  · rintro ⟨i, j⟩ hq
    simp only [Finset.mem_filter, Finset.mem_product, Finset.mem_range] at hq
    refine Prod.ext ?_ ?_ <;> simp only <;> omega
  · rintro ⟨nx, ny⟩ hp
    simp only [Finset.mem_coe, List.mem_toFinset] at hp
    rw [mem_janela_blur] at hp
    refine Prod.ext ?_ ?_ <;> simp only <;> omega
  · rintro ⟨i, j⟩ _
    rfl

/-- For a positive radius the loop nest of `blur` is one loop over the triples
(row, column, colour channel) that stores the bytes computed from the snapshot. -/
theorem blur_eq_foldl (d : List Byte) (w h c : Nat) (r : Int) (hr : 0 < r) :
    Filtros.blur d w h c r
      = (List.product (List.range h) (List.product (List.range w) (List.range 3))).foldl
          (fun dados t => dados.set (idx_px w c t)
            (blur_valor (memcpy (malloc (w * h * c)) 0 d 0 (w * h * c)) w h c r t)) d := by
  unfold Filtros.blur
  rw [if_neg (by omega)]
  simp only [foldl_product]
  rfl

/-- The filter `blur` keeps the size of the block. -/
theorem length_blur (d : List Byte) (w h c : Nat) (r : Int) :
    (Filtros.blur d w h c r).length = d.length := by
  by_cases hr : 0 < r
  · rw [blur_eq_foldl d w h c r hr]
    exact length_foldl_modificar (idx_px w c) (fun t _ => blur_valor _ w h c r t) _ d
  · unfold Filtros.blur
    rw [if_pos (by omega)]

/-- The filter `blur` leaves alone every channel past the third. -/
theorem blur_getElem?_resto (d : List Byte) (w h c : Nat) (r : Int) {i j : Nat}
    (hj : 3 ≤ j) (hjc : j < c) :
    (Filtros.blur d w h c r)[i * c + j]? = d[i * c + j]? := by
  by_cases hr : 0 < r
  · rw [blur_eq_foldl d w h c r hr]
    apply getElem?_foldl_modificar_of_ne (idx_px w c) (fun t _ => blur_valor _ w h c r t)
    rintro ⟨y1, x1, k1⟩ ha hab
    obtain ⟨-, -, ha3⟩ := mem_triplos.1 ha
    simp only [idx_px] at hab
    have := (mul_add_inj (c := c) (by omega) hjc hab).2
    omega
  · unfold Filtros.blur
    rw [if_pos (by omega)]

/-- For a positive radius `blur` stores in each colour byte of each pixel the byte computed
from the snapshot taken before the first store. -/
theorem blur_getElem?_cor (d : List Byte) (w h c : Nat) (r : Int) (hr : 0 < r) (hc : 3 ≤ c)
    (hlen : w * h * c ≤ d.length) {y x k : Nat} (hy : y < h) (hx : x < w) (hk : k < 3) :
    (Filtros.blur d w h c r)[(y * w + x) * c + k]?
      = some (blur_valor (memcpy (malloc (w * h * c)) 0 d 0 (w * h * c)) w h c r (y, x, k)) := by
  rw [blur_eq_foldl d w h c r hr]
  refine getElem?_foldl_modificar_of_mem (idx_px w c) (fun t _ => blur_valor _ w h c r t)
    _ d (nodup_triplos h w 3) ?_ (y, x, k) (mem_triplos.2 ⟨hy, hx, hk⟩) ?_
  · rintro ⟨y1, x1, k1⟩ ha ⟨y2, x2, k2⟩ hb hab
    obtain ⟨-, ha2, ha3⟩ := mem_triplos.1 ha
    obtain ⟨-, hb2, hb3⟩ := mem_triplos.1 hb
    simp only [idx_px] at hab
    obtain ⟨e1, e2, e3⟩ := idx_inj (w := w) ha2 hb2 (by omega) (by omega) hab
    subst e1 e2 e3; rfl
  · have hkc : k < c := by omega
    exact lt_of_lt_of_le (idx_lt hy hx hkc) hlen

/-- The truncated mean of values that lie between `lo` and `hi` lies between `lo` and
`hi`. -/
theorem media_entre {α : Type} (l : List α) (f : α → Nat) (lo hi : Nat) (hl : 1 ≤ l.length)
    (hb : ∀ p ∈ l, lo ≤ f p ∧ f p ≤ hi) :
    lo ≤ (l.map f).sum / l.length ∧ (l.map f).sum / l.length ≤ hi := by
  have h1 : (l.map f).sum ≤ l.length * hi := by
    have := List.sum_le_card_nsmul (l.map f) hi (by
      intro v hv
      obtain ⟨p, hp, rfl⟩ := List.mem_map.1 hv
      exact (hb p hp).2)
    simpa using this
  have h2 : l.length * lo ≤ (l.map f).sum := by
    have := List.card_nsmul_le_sum (l.map f) lo (by
      intro v hv
      obtain ⟨p, hp, rfl⟩ := List.mem_map.1 hv
      exact (hb p hp).1)
    simpa using this
  constructor
  · exact (Nat.le_div_iff_mul_le hl).2 (by rw [Nat.mul_comm]; exact h2)
  · exact Nat.div_le_of_le_mul h1

/-- The exact window sums are the channel sums over the clipped window and
the number of its positions. -/
theorem blur_somas_janela (temp : List Byte) (w h c : Nat) (r : Int) (x y : Nat) :
    blur_somas_exatas temp w h c r x y
      = (((janela_blur w h r x y).map
            (fun p => (ler_byte temp ((p.2 * w + p.1) * c + 0)).val)).sum,
         ((janela_blur w h r x y).map
            (fun p => (ler_byte temp ((p.2 * w + p.1) * c + 1)).val)).sum,
         ((janela_blur w h r x y).map
            (fun p => (ler_byte temp ((p.2 * w + p.1) * c + 2)).val)).sum,
         (janela_blur w h r x y).length) := by
  obtain ⟨h1, h2, h3, h4⟩ := blur_somas_soma temp w h c r x y
  rw [soma_blur_termo] at h1 h2 h3 h4
  have h5 : ((janela_blur w h r x y).map (fun _ => 1)).sum = (janela_blur w h r x y).length := by
    simp
  rw [h5] at h4
  exact Prod.ext h1 (Prod.ext h2 (Prod.ext h3 h4))

/-- The clipped window around a pixel of the image contains that pixel. -/
theorem length_janela_blur_pos (w h : Nat) (r : Int) (hr : 0 ≤ r) (x y : Nat) (hx : x < w)
    (hy : y < h) : 1 ≤ (janela_blur w h r x y).length := by
  have hm : (x, y) ∈ janela_blur w h r x y := mem_janela_blur.2 (by omega)
  exact List.length_pos_of_mem hm

/-- Converting a number below 256 to a byte keeps its value. -/
theorem val_toByte_nat (n : Nat) (hn : n < 256) : (toByte (n : Int)).val = n := by
  simp only [toByte]
  omega

/-! ## blur: the `int` sums and the exact sums -/

/-- Two loops over the same list whose states are related at the start and whose iterations
keep them related end in related states. -/
theorem foldl_rel {α β γ : Type} (R : α → β → Prop) (f : α → γ → α) (g : β → γ → β)
    (l : List γ) (h : ∀ a b c, c ∈ l → R a b → R (f a c) (g b c)) (a : α) (b : β)
    (hab : R a b) : R (l.foldl f a) (l.foldl g b) := by
  induction l generalizing a b with
  | nil => exact hab
  | cons c l ih =>
    rw [List.foldl_cons, List.foldl_cons]
    exact ih (fun a b c2 hc => h a b c2 (List.mem_cons_of_mem _ hc)) _ _
      (h a b c (List.mem_cons_self _ _) hab)

/-- The four `int` variables that hold the reductions of four exact sums. -/
theorem blur_passo_exato (temp : List Byte) (w h c : Nat) (r : Int) (x y i j : Nat)
    (hr0 : 0 ≤ r) (hr : r ≤ 2147483646) (hw : w ≤ 2147483647) (hh : h ≤ 2147483647)
    (hx : x < w) (hy : y < h) (hi : i < (2 * r + 1).toNat) (hj : j < (2 * r + 1).toNat)
    (a : Nat × Nat × Nat × Nat) :
    Filtros.blur_passo temp w h c x y
        (int32 (a.1 : Int), int32 (a.2.1 : Int), int32 (a.2.2.1 : Int), int32 (a.2.2.2 : Int))
        ((i : Int) - r) ((j : Int) - r)
      = (int32 ((blur_acumular temp w h c r x y i a j).1 : Int),
         int32 ((blur_acumular temp w h c r x y i a j).2.1 : Int),
         int32 ((blur_acumular temp w h c r x y i a j).2.2.1 : Int),
         int32 ((blur_acumular temp w h c r x y i a j).2.2.2 : Int)) := by
  have enx : (int32 ((x : Int) + ((j : Int) - r)) ≥ 0 ∧
      int32 ((x : Int) + ((j : Int) - r)) < (w : Int))
      ↔ ((x : Int) + ((j : Int) - r) ≥ 0 ∧ (x : Int) + ((j : Int) - r) < (w : Int)) := by
    unfold int32
    omega
  have eny : (int32 ((y : Int) + ((i : Int) - r)) ≥ 0 ∧
      int32 ((y : Int) + ((i : Int) - r)) < (h : Int))
      ↔ ((y : Int) + ((i : Int) - r) ≥ 0 ∧ (y : Int) + ((i : Int) - r) < (h : Int)) := by
    unfold int32
    omega
  unfold Filtros.blur_passo blur_acumular
  simp only
  by_cases hin : (x : Int) + ((j : Int) - r) ≥ 0 ∧ (x : Int) + ((j : Int) - r) < (w : Int) ∧
      (y : Int) + ((i : Int) - r) ≥ 0 ∧ (y : Int) + ((i : Int) - r) < (h : Int)
  · have e1 : int32 ((x : Int) + ((j : Int) - r)) = (x : Int) + ((j : Int) - r) :=
      int32_of_range _ (by omega) (by omega)
    have e2 : int32 ((y : Int) + ((i : Int) - r)) = (y : Int) + ((i : Int) - r) :=
      int32_of_range _ (by omega) (by omega)
    rw [e1, e2, if_pos hin, if_pos hin]
    simp only [Nat.cast_add, Nat.cast_one, int32_int32_add]
  · have hin2 : ¬ (int32 ((x : Int) + ((j : Int) - r)) ≥ 0 ∧
        int32 ((x : Int) + ((j : Int) - r)) < (w : Int) ∧
        int32 ((y : Int) + ((i : Int) - r)) ≥ 0 ∧
        int32 ((y : Int) + ((i : Int) - r)) < (h : Int)) := by
      intro hc
      exact hin ⟨(enx.1 ⟨hc.1, hc.2.1⟩).1, (enx.1 ⟨hc.1, hc.2.1⟩).2,
        (eny.1 ⟨hc.2.2.1, hc.2.2.2⟩).1, (eny.1 ⟨hc.2.2.1, hc.2.2.2⟩).2⟩
    rw [if_neg hin, if_neg hin2]

/-- The window sums `blur_somas` computes in `int` variables are the reductions of the exact
window sums. -/
theorem blur_somas_int32 (temp : List Byte) (w h c : Nat) (r : Int) (x y : Nat)
    (hr0 : 0 ≤ r) (hr : r ≤ 2147483646) (hw : w ≤ 2147483647) (hh : h ≤ 2147483647)
    (hx : x < w) (hy : y < h) :
    Filtros.blur_somas temp w h c r x y
      = (int32 ((blur_somas_exatas temp w h c r x y).1 : Int),
         int32 ((blur_somas_exatas temp w h c r x y).2.1 : Int),
         int32 ((blur_somas_exatas temp w h c r x y).2.2.1 : Int),
         int32 ((blur_somas_exatas temp w h c r x y).2.2.2 : Int)) := by
  unfold Filtros.blur_somas blur_somas_exatas
  simp only
  refine foldl_rel
    (fun (A : Int × Int × Int × Int) (a : Nat × Nat × Nat × Nat) =>
      A = (int32 (a.1 : Int), int32 (a.2.1 : Int), int32 (a.2.2.1 : Int),
        int32 (a.2.2.2 : Int))) _ _ _ ?_ _ _ (by decide)
  intro A a i hi hA
  refine foldl_rel
    (fun (A : Int × Int × Int × Int) (a : Nat × Nat × Nat × Nat) =>
      A = (int32 (a.1 : Int), int32 (a.2.1 : Int), int32 (a.2.2.1 : Int),
        int32 (a.2.2.2 : Int))) _ _ _ ?_ _ _ hA
  intro B b j hj hB
  rw [hB]
  exact blur_passo_exato temp w h c r x y i j hr0 hr hw hh hx hy (List.mem_range.1 hi)
    (List.mem_range.1 hj) b

/-! ## blur: the window loops as `for` loops -/

/-- For `0 <= fim < 2147483647`, the loop `for (int v = ...; v <= fim; v++)` entered at
`v = k - fim` with `n` values left up to `fim` and more than `n` iterations allowed exits
after running its body on those `n` values in order. -/
theorem laco_ate_range {α : Type} (fim : Int) (hf0 : 0 ≤ fim) (hf : fim ≤ 2147483646)
    (corpo : α → Int → Option α) (g : α → Int → α) (hg : ∀ a v, corpo a v = some (g a v))
    (n : Nat) :
    ∀ (fuel k : Nat) (acc : α), k + n = (2 * fim + 1).toNat → n < fuel →
      Filtros.laco_ate fim corpo fuel ((k : Int) - fim) acc
        = some ((List.range' k n).foldl (fun a (i : Nat) => g a (((i : Nat) : Int) - fim))
            acc) := by
  induction n with
  | zero =>
    intro fuel k acc hk hfuel
    obtain ⟨f, rfl⟩ : ∃ f, fuel = f + 1 := ⟨fuel - 1, by omega⟩
    unfold Filtros.laco_ate
    rw [if_neg (by omega)]
    rfl
  | succ n ih =>
    intro fuel k acc hk hfuel
    obtain ⟨f, rfl⟩ : ∃ f, fuel = f + 1 := ⟨fuel - 1, by omega⟩
    unfold Filtros.laco_ate
    rw [if_pos (by omega), hg]
    simp only
    have e : int32 ((k : Int) - fim + 1) = ((k + 1 : Nat) : Int) - fim := by
      rw [int32_of_range _ (by omega) (by omega)]
      push_cast
      ring
    rw [e, ih f (k + 1) _ (by omega) (by omega)]
    rfl

/-- For `fim = 2147483647` the test `v <= fim` holds for every `int`: the loop is still
running after any number of iterations. -/
theorem laco_ate_int_max {α : Type} (corpo : α → Int → Option α) (fuel : Nat) :
    ∀ (v : Int) (acc : α), v ≤ 2147483647 →
      Filtros.laco_ate 2147483647 corpo fuel v acc = none := by
  induction fuel with
  | zero => intro v acc _; rfl
  | succ fuel ih =>
    intro v acc hv
    unfold Filtros.laco_ate
    rw [if_pos hv]
    cases corpo acc v with
    | none => rfl
    | some acc2 => exact ih _ _ (int32_range _).2

/-- For `0 <= raio < 2147483647` the two window loops of `blur` return, within
`2 * raio + 2` iterations each, the sums `blur_somas`. -/
theorem blur_somas_laco_termina (temp : List Byte) (w h c : Nat) (r : Int) (x y : Nat)
    (hr0 : 0 ≤ r) (hr : r ≤ 2147483646) (fuel : Nat) (hfuel : (2 * r + 1).toNat < fuel) :
    Filtros.blur_somas_laco temp w h c r x y fuel
      = some (Filtros.blur_somas temp w h c r x y) := by
  have e0 : int32 (-r) = ((0 : Nat) : Int) - r := by
    rw [int32_of_range _ (by omega) (by omega)]
    simp
  have hinner : ∀ (acc : Int × Int × Int × Int) (dy : Int),
      Filtros.laco_ate r
          (fun acc dx => some (Filtros.blur_passo temp w h c x y acc dy dx))
          fuel (int32 (-r)) acc
        = some ((List.range (2 * r + 1).toNat).foldl
            (fun a (j : Nat) => Filtros.blur_passo temp w h c x y a dy ((j : Int) - r)) acc) := by
    intro acc dy
    rw [e0, laco_ate_range r hr0 hr _ (fun a dx => Filtros.blur_passo temp w h c x y a dy dx)
      (fun _ _ => rfl) (2 * r + 1).toNat fuel 0 acc (by omega) hfuel, List.range_eq_range']
  unfold Filtros.blur_somas_laco Filtros.blur_somas
  rw [e0, laco_ate_range r hr0 hr _
    (fun acc dy => (List.range (2 * r + 1).toNat).foldl
      (fun a (j : Nat) => Filtros.blur_passo temp w h c x y a dy ((j : Int) - r)) acc)
    (fun acc dy => by rw [← e0]; exact hinner acc dy)
    (2 * r + 1).toNat fuel 0 (0, 0, 0, 0) (by omega) hfuel]
  simp only [List.range_eq_range']

/-- For `raio = 2147483647` the window loops of `blur` never return, whatever the frame and
the pixel. -/
theorem blur_somas_laco_nao_termina (temp : List Byte) (w h c : Nat) (x y : Nat) (fuel : Nat) :
    Filtros.blur_somas_laco temp w h c 2147483647 x y fuel = none := by
  unfold Filtros.blur_somas_laco
  exact laco_ate_int_max _ fuel _ _ (int32_range _).2

/-! ## blur: frames whose window sums stay in the range of an `int` -/

/-- A sum of values that are at most `hi` is at most the number of values times `hi`. -/
theorem soma_le {α : Type} (l : List α) (f : α → Nat) (hi : Nat) (hb : ∀ p ∈ l, f p ≤ hi) :
    (l.map f).sum ≤ l.length * hi := by
  have := List.sum_le_card_nsmul (l.map f) hi (by
    intro v hv
    obtain ⟨p, hp, rfl⟩ := List.mem_map.1 hv
    exact hb p hp)
  simpa using this

/-- Where the clipped window holds at most `2147483647 / 255 = 8421504` positions, the four
`int` variables of `blur` hold the exact channel sums over the clipped window and the number
of its positions. -/
theorem blur_somas_sem_estouro (temp : List Byte) (w h c : Nat) (r : Int) (x y : Nat)
    (hr0 : 0 ≤ r) (hr : r ≤ 2147483646) (hw : w ≤ 2147483647) (hh : h ≤ 2147483647)
    (hx : x < w) (hy : y < h)
    (hjan : (janela_blur w h r x y).length * 255 ≤ 2147483647) :
    Filtros.blur_somas temp w h c r x y
      = (((((janela_blur w h r x y).map
            (fun p => (ler_byte temp ((p.2 * w + p.1) * c + 0)).val)).sum : Nat) : Int),
         ((((janela_blur w h r x y).map
            (fun p => (ler_byte temp ((p.2 * w + p.1) * c + 1)).val)).sum : Nat) : Int),
         ((((janela_blur w h r x y).map
            (fun p => (ler_byte temp ((p.2 * w + p.1) * c + 2)).val)).sum : Nat) : Int),
         (((janela_blur w h r x y).length : Nat) : Int)) := by
  rw [blur_somas_int32 temp w h c r x y hr0 hr hw hh hx hy, blur_somas_janela]
  simp only
  have hs : ∀ k, ((janela_blur w h r x y).map
      (fun p => (ler_byte temp ((p.2 * w + p.1) * c + k)).val)).sum
      ≤ (janela_blur w h r x y).length * 255 := fun k =>
    soma_le _ _ 255 (fun p _ => Nat.le_of_lt_succ (ler_byte temp _).isLt)
  have h0 := hs 0
  have h1 := hs 1
  have h2 := hs 2
  rw [int32_of_range _ (by omega) (by omega), int32_of_range _ (by omega) (by omega),
    int32_of_range _ (by omega) (by omega), int32_of_range _ (by omega) (by omega)]

/-- On an image whose pixels all carry the colour `(vr, vg, vb)`, the exact window sums at a
pixel inside the image are the number of positions of the clipped window times `vr`, `vg`
and `vb`. -/
theorem blur_somas_exatas_uniforme (d : List Byte) (w h c : Nat) (r : Int) (hr : 0 ≤ r)
    (x y : Nat) (hx : x < w) (hy : y < h) (vr vg vb : Byte)
    (hu : ∀ p, p < w * h → ler_byte d (p * c + 0) = vr ∧ ler_byte d (p * c + 1) = vg ∧
      ler_byte d (p * c + 2) = vb) :
    blur_somas_exatas d w h c r x y
      = ((janela_blur w h r x y).length * vr.val, (janela_blur w h r x y).length * vg.val,
         (janela_blur w h r x y).length * vb.val, (janela_blur w h r x y).length) := by
  obtain ⟨n, _, hs⟩ := blur_somas_uniforme d w h c r hr x y hx hy vr vg vb hu
  have hj := blur_somas_janela d w h c r x y
  have hn : n = (janela_blur w h r x y).length :=
    congrArg (fun s : Nat × Nat × Nat × Nat => s.2.2.2) (hs.symm.trans hj)
  rw [hs, hn]

/-- The truncating `int` quotient of `n * v` by `n >= 1` is `v`. -/
theorem tdiv_mul_cancel (n v : Nat) (hn : 1 ≤ n) :
    Int.tdiv ((n * v : Nat) : Int) ((n : Nat) : Int) = ((v : Nat) : Int) := by
  rw [← Int.ofNat_tdiv, Nat.mul_div_cancel_left _ hn]

/-! ## blur as the mean of the clipped window, within the range of `int` -/

/-- Claim C22, amended. Blur is the clipped box mean of a snapshot wherever the window sums
fit an `int`: on every `w x h` frame with at least three channels (`w` and `h` being `int`
values), for every radius `1 <= r <= 2147483646`, every pixel `(x, y)` whose clipped window
holds at most `8421504` positions (`count * 255 <= 2147483647`) and every colour channel
`k`, the byte `blur` leaves there is the truncated quotient of the sum of channel `k` of the
original input over the positions `(nx, ny)` of the image with `|nx - x| <= r` and
`|ny - y| <= r`, by the number of those positions; that number is at least one; the two
window loops return, within `2 * r + 2` iterations each, the sums the quotient is taken
from; the count the code divides by is that number; and the result lies between any lower
and upper bound of the window values, so between their minimum and maximum. -/
theorem blur_media_janela (d : List Byte) (w h c : Nat) (r : Int)
    (hlen : d.length = w * h * c) (hc : 3 ≤ c) (hr : 1 ≤ r) (hr2 : r ≤ 2147483646)
    (hw : w ≤ 2147483647) (hh : h ≤ 2147483647) (x y k : Nat) (hx : x < w)
    (hy : y < h) (hk : k < 3)
    (hjan : (janela_blur w h r x y).length * 255 ≤ 2147483647) :
    (ler_byte (Filtros.blur d w h c r) ((y * w + x) * c + k)).val
      = media_janela d w h c r x y k ∧
    1 ≤ (janela_blur w h r x y).length ∧
    (∀ fuel : Nat, (2 * r + 1).toNat < fuel →
      Filtros.blur_somas_laco (memcpy (malloc (w * h * c)) 0 d 0 (w * h * c)) w h c r x y fuel
        = some
          (Filtros.blur_somas (memcpy (malloc (w * h * c)) 0 d 0 (w * h * c)) w h c r x y)) ∧
    (Filtros.blur_somas (memcpy (malloc (w * h * c)) 0 d 0 (w * h * c)) w h c r x y).2.2.2
      = (((janela_blur w h r x y).length : Nat) : Int) ∧
    (∀ lo hi : Nat,
      (∀ p ∈ janela_blur w h r x y, lo ≤ (ler_byte d ((p.2 * w + p.1) * c + k)).val ∧
        (ler_byte d ((p.2 * w + p.1) * c + k)).val ≤ hi) →
      lo ≤ (ler_byte (Filtros.blur d w h c r) ((y * w + x) * c + k)).val ∧
      (ler_byte (Filtros.blur d w h c r) ((y * w + x) * c + k)).val ≤ hi) := by
  have htemp : memcpy (malloc (w * h * c)) 0 d 0 (w * h * c) = d := by
    rw [← hlen]
    exact memcpy_total _ _ (by simp [malloc])
  have hN := length_janela_blur_pos w h r (by omega) x y hx hy
  have hs := blur_somas_sem_estouro d w h c r x y (by omega) hr2 hw hh hx hy hjan
  have hsel : (([(Filtros.blur_somas d w h c r x y).1, (Filtros.blur_somas d w h c r x y).2.1,
      (Filtros.blur_somas d w h c r x y).2.2.1] : List Int).getD k 0)
      = ((((janela_blur w h r x y).map
          (fun p => (ler_byte d ((p.2 * w + p.1) * c + k)).val)).sum : Nat) : Int) := by
    rw [hs]
    have hk3 : k = 0 ∨ k = 1 ∨ k = 2 := by omega
    rcases hk3 with e | e | e <;> subst e <;> rfl
  have h255 := (media_entre (janela_blur w h r x y)
    (fun p => (ler_byte d ((p.2 * w + p.1) * c + k)).val) 0 255 hN
    (fun p _ => ⟨Nat.zero_le _, Nat.le_of_lt_succ (ler_byte d ((p.2 * w + p.1) * c + k)).isLt⟩)).2
  have hout : (ler_byte (Filtros.blur d w h c r) ((y * w + x) * c + k)).val
      = media_janela d w h c r x y k := by
    rw [ler_byte_eq, blur_getElem?_cor d w h c r (by omega) hc (by rw [hlen]) hy hx hk, htemp]
    simp only [Option.getD_some]
    unfold blur_valor media_janela
    simp only
    rw [hsel, hs]
    simp only
    rw [← Int.ofNat_tdiv]
    exact val_toByte_nat _ (by omega)
  refine ⟨hout, hN, ?_, ?_, ?_⟩
  · intro fuel hfuel
    exact blur_somas_laco_termina _ w h c r x y (by omega) hr2 fuel hfuel
  · rw [htemp, hs]
  · intro lo hi hb
    rw [hout]
    exact media_entre (janela_blur w h r x y) _ lo hi hN hb

/-- Witness of C22: radius 1 at the corner pixel `(0, 0)` of a 2 x 2 RGBA frame; the window
is the whole image and the red mean `(10 + 20 + 30 + 41) / 4` is truncated to 25. -/
theorem blur_media_janela_witness :
    frame_quatro.length = 2 * 2 * 4 ∧ 3 ≤ 4 ∧ (1 : Int) ≤ 1 ∧ (1 : Int) ≤ 2147483646 ∧
    2 ≤ 2147483647 ∧ 0 < 2 ∧ 0 < 3 ∧ (janela_blur 2 2 1 0 0).length * 255 ≤ 2147483647 ∧
    media_janela frame_quatro 2 2 4 1 0 0 0 = 25 ∧
    ((ler_byte (Filtros.blur frame_quatro 2 2 4 1) ((0 * 2 + 0) * 4 + 0)).val
      = media_janela frame_quatro 2 2 4 1 0 0 0 ∧
    1 ≤ (janela_blur 2 2 1 0 0).length ∧
    (∀ fuel : Nat, (2 * (1 : Int) + 1).toNat < fuel →
      Filtros.blur_somas_laco (memcpy (malloc (2 * 2 * 4)) 0 frame_quatro 0 (2 * 2 * 4))
          2 2 4 1 0 0 fuel
        = some (Filtros.blur_somas (memcpy (malloc (2 * 2 * 4)) 0 frame_quatro 0 (2 * 2 * 4))
          2 2 4 1 0 0)) ∧
    (Filtros.blur_somas (memcpy (malloc (2 * 2 * 4)) 0 frame_quatro 0 (2 * 2 * 4))
        2 2 4 1 0 0).2.2.2
      = (((janela_blur 2 2 1 0 0).length : Nat) : Int) ∧
    (∀ lo hi : Nat,
      (∀ p ∈ janela_blur 2 2 1 0 0, lo ≤ (ler_byte frame_quatro ((p.2 * 2 + p.1) * 4 + 0)).val ∧
        (ler_byte frame_quatro ((p.2 * 2 + p.1) * 4 + 0)).val ≤ hi) →
      lo ≤ (ler_byte (Filtros.blur frame_quatro 2 2 4 1) ((0 * 2 + 0) * 4 + 0)).val ∧
      (ler_byte (Filtros.blur frame_quatro 2 2 4 1) ((0 * 2 + 0) * 4 + 0)).val ≤ hi)) :=
  ⟨by decide, by decide, by decide, by decide, by decide, by decide, by decide, by decide,
    by decide,
    blur_media_janela frame_quatro 2 2 4 1 (by decide) (by decide) (by decide) (by decide)
      (by decide) (by decide) 0 0 0 (by decide) (by decide) (by decide) (by decide)⟩

/-! ## blur on uniform images, within the range of `int` -/

/-- Claim C15, amended. Blur fixes uniform images wherever the window sums fit an `int`:
for every radius `1 <= r <= 2147483646` and every `w x h` frame (`w, h >= 1` being `int`
values, at least three channels) whose pixels all carry the same R, G and B values and in
which the clipped window of every pixel holds at most `8421504` positions
(`count * 255 <= 2147483647`), `blur` returns the block with every byte unchanged: each
window sum is `count * v` with `count >= 1`, and the integer division by `count` gives `v`
back, also where the window is clipped by the border; and at every pixel the two window
loops return, within `2 * r + 2` iterations each, the sums the quotient is taken from. -/
theorem blur_uniforme (d : List Byte) (w h c : Nat) (r : Int) (vr vg vb : Byte)
    (hlen : d.length = w * h * c) (_hw : 1 ≤ w) (_hh : 1 ≤ h) (_hc : 3 ≤ c) (hr : 1 ≤ r)
    (hr2 : r ≤ 2147483646) (hw2 : w ≤ 2147483647) (hh2 : h ≤ 2147483647)
    (hjan : ∀ x, x < w → ∀ y, y < h → (janela_blur w h r x y).length * 255 ≤ 2147483647)
    (hu : ∀ p, p < w * h → ler_byte d (p * c + 0) = vr ∧ ler_byte d (p * c + 1) = vg ∧
      ler_byte d (p * c + 2) = vb) :
    Filtros.blur d w h c r = d ∧
    (∀ (x y fuel : Nat), x < w → y < h → (2 * r + 1).toNat < fuel →
      Filtros.blur_somas_laco (memcpy (malloc (w * h * c)) 0 d 0 (w * h * c)) w h c r x y fuel
        = some
          (Filtros.blur_somas (memcpy (malloc (w * h * c)) 0 d 0 (w * h * c)) w h c r x y)) := by
  refine ⟨?_, fun x y fuel _ _ hfuel =>
    blur_somas_laco_termina _ w h c r x y (by omega) hr2 fuel hfuel⟩
  unfold Filtros.blur
  rw [if_neg (by omega)]
  simp only
  rw [← hlen, memcpy_total _ _ (by simp [malloc])]
  apply foldl_fixo
  intro y hy
  apply foldl_fixo
  intro x hx
  have hy2 := List.mem_range.1 hy
  have hx2 := List.mem_range.1 hx
  have hN := length_janela_blur_pos w h r (by omega) x y hx2 hy2
  have hj := hjan x hx2 y hy2
  have hs := blur_somas_int32 d w h c r x y (by omega) hr2 hw2 hh2 hx2 hy2
  rw [blur_somas_exatas_uniforme d w h c r (by omega) x y hx2 hy2 vr vg vb hu] at hs
  simp only at hs
  have b1 : (janela_blur w h r x y).length * vr.val ≤ (janela_blur w h r x y).length * 255 :=
    Nat.mul_le_mul_left _ (Nat.le_of_lt_succ vr.isLt)
  have b2 : (janela_blur w h r x y).length * vg.val ≤ (janela_blur w h r x y).length * 255 :=
    Nat.mul_le_mul_left _ (Nat.le_of_lt_succ vg.isLt)
  have b3 : (janela_blur w h r x y).length * vb.val ≤ (janela_blur w h r x y).length * 255 :=
    Nat.mul_le_mul_left _ (Nat.le_of_lt_succ vb.isLt)
  rw [int32_of_range _ (Int.le_trans (by decide) (Int.ofNat_nonneg _))
      (Int.ofNat_le.2 (Nat.le_trans b1 hj)),
    int32_of_range _ (Int.le_trans (by decide) (Int.ofNat_nonneg _))
      (Int.ofNat_le.2 (Nat.le_trans b2 hj)),
    int32_of_range _ (Int.le_trans (by decide) (Int.ofNat_nonneg _))
      (Int.ofNat_le.2 (Nat.le_trans b3 hj)),
    int32_of_range _ (Int.le_trans (by decide) (Int.ofNat_nonneg _))
      (Int.ofNat_le.2 (Nat.le_trans (by omega) hj))] at hs
  have hp : y * w + x < w * h := by
    have := mul_add_lt hy2 hx2
    rw [Nat.mul_comm w h]; exact this
  obtain ⟨e1, e2, e3⟩ := hu _ hp
  rw [hs]
  simp only
  rw [tdiv_mul_cancel _ _ hN, tdiv_mul_cancel _ _ hN, tdiv_mul_cancel _ _ hN,
    toByte_val, toByte_val, toByte_val]
  rw [← e1, set_ler_byte]
  rw [← e2, set_ler_byte]
  rw [← e3, set_ler_byte]

/-- Witness of C15: radius 1 on a uniform 2 x 2 RGBA frame, every window clipped. -/
theorem blur_uniforme_witness :
    frame_uniforme.length = 2 * 2 * 4 ∧ (1 : Int) ≤ 1 ∧ (1 : Int) ≤ 2147483646 ∧
    2 ≤ 2147483647 ∧
    (∀ x, x < 2 → ∀ y, y < 2 → (janela_blur 2 2 1 x y).length * 255 ≤ 2147483647) ∧
    (∀ p, p < 2 * 2 → ler_byte frame_uniforme (p * 4 + 0) = 5 ∧
      ler_byte frame_uniforme (p * 4 + 1) = 6 ∧ ler_byte frame_uniforme (p * 4 + 2) = 7) ∧
    Filtros.blur frame_uniforme 2 2 4 1 = frame_uniforme :=
  ⟨by decide, by decide, by decide, by decide, by decide, by decide,
    (blur_uniforme frame_uniforme 2 2 4 1 5 6 7 (by decide) (by decide) (by decide) (by decide)
      (by decide) (by decide) (by decide) (by decide) (by decide) (by decide)).1⟩

/-! ## blur where the window sums leave the range of `int` -/

/-- The size of the all-white frame. -/
theorem length_frame_branco : frame_branco.length = 2904 * 2904 * 4 := by
  unfold frame_branco
  exact List.length_replicate _ _

/-- Every byte of the all-white frame is 255. -/
theorem ler_byte_frame_branco (i : Nat) (hi : i < 2904 * 2904 * 4) :
    ler_byte frame_branco i = 255 := by
  rw [ler_byte_eq]
  unfold frame_branco
  rw [List.getElem?_replicate, if_pos hi]
  rfl

/-- The all-white frame is uniform. -/
theorem frame_branco_uniforme (p : Nat) (hp : p < 2904 * 2904) :
    ler_byte frame_branco (p * 4 + 0) = 255 ∧ ler_byte frame_branco (p * 4 + 1) = 255 ∧
      ler_byte frame_branco (p * 4 + 2) = 255 :=
  ⟨ler_byte_frame_branco _ (by omega), ler_byte_frame_branco _ (by omega),
    ler_byte_frame_branco _ (by omega)⟩

/-- A window whose radius is at least the width and the height of the image is clipped to
the whole image. -/
theorem janela_blur_inteira (w h : Nat) (r : Int) (x y : Nat) (hw : (w : Int) ≤ r)
    (hh : (h : Int) ≤ r) (hx : x < w) (hy : y < h) :
    janela_blur w h r x y = List.product (List.range w) (List.range h) := by
  unfold janela_blur
  apply List.filter_eq_self.2
  rintro ⟨nx, ny⟩ hp
  simp only [List.mem_product, List.pair_mem_product, List.mem_range] at hp
  simp only [decide_eq_true_eq, abs_le]
  omega

/-- The number of positions of a window clipped to the whole image. -/
theorem length_janela_blur_inteira (w h : Nat) (r : Int) (x y : Nat) (hw : (w : Int) ≤ r)
    (hh : (h : Int) ≤ r) (hx : x < w) (hy : y < h) :
    (janela_blur w h r x y).length = w * h := by
  rw [janela_blur_inteira w h r x y hw hh hx hy]
  exact (List.length_product _ _).trans (by rw [List.length_range, List.length_range])

/-- The first of three values in a row. -/
theorem getD_tres_zero (a b c : Int) : ([a, b, c] : List Int).getD 0 0 = a := rfl

/-- On an image whose pixels all carry the colour `(vr, vg, vb)`, the byte `blur` stores in
the red channel of a pixel is the `int` quotient of the reductions of `count * vr` and
`count`, converted to `unsigned char`. -/
theorem blur_byte_uniforme (d : List Byte) (w h c : Nat) (r : Int) (vr vg vb : Byte)
    (hlen : d.length = w * h * c) (hc : 3 ≤ c) (hr : 1 ≤ r) (hr2 : r ≤ 2147483646)
    (hw2 : w ≤ 2147483647) (hh2 : h ≤ 2147483647)
    (hu : ∀ p, p < w * h → ler_byte d (p * c + 0) = vr ∧ ler_byte d (p * c + 1) = vg ∧
      ler_byte d (p * c + 2) = vb) (x y : Nat) (hx : x < w) (hy : y < h) :
    ler_byte (Filtros.blur d w h c r) ((y * w + x) * c + 0)
      = toByte (Int.tdiv (int32 (((janela_blur w h r x y).length * vr.val : Nat) : Int))
          (int32 (((janela_blur w h r x y).length : Nat) : Int))) := by
  have htemp : memcpy (malloc (w * h * c)) 0 d 0 (w * h * c) = d := by
    rw [← hlen]
    exact memcpy_total _ _ (by simp [malloc])
  rw [ler_byte_eq, blur_getElem?_cor d w h c r (by omega) hc (by rw [hlen]) hy hx
    (by decide : 0 < 3), htemp]
  simp only [Option.getD_some]
  unfold blur_valor
  simp only
  rw [blur_somas_int32 d w h c r x y (by omega) hr2 hw2 hh2 hx hy,
    blur_somas_exatas_uniforme d w h c r (by omega) x y hx hy vr vg vb hu]
  simp only
  rw [getD_tres_zero]
/-- On an image whose pixels all carry the colour `(vr, vg, vb)`, the box mean of the red
channel around a pixel of the image is `vr`. -/
theorem media_janela_uniforme (d : List Byte) (w h c : Nat) (r : Int) (hr : 0 ≤ r)
    (vr vg vb : Byte)
    (hu : ∀ p, p < w * h → ler_byte d (p * c + 0) = vr ∧ ler_byte d (p * c + 1) = vg ∧
      ler_byte d (p * c + 2) = vb) (x y : Nat) (hx : x < w) (hy : y < h) :
    media_janela d w h c r x y 0 = vr.val := by
  have h1 := blur_somas_exatas_uniforme d w h c r hr x y hx hy vr vg vb hu
  rw [blur_somas_janela] at h1
  have h2 := congrArg (fun s : Nat × Nat × Nat × Nat => s.1) h1
  simp only at h2
  unfold media_janela
  rw [h2]
  exact Nat.mul_div_cancel_left _ (length_janela_blur_pos w h r hr x y hx hy)

/-- With radius 2904 on the all-white `2904 x 2904` frame the red sum at pixel `(0, 0)` is
`8433216 * 255 = 2150470080`, which an `int` holds as `-2144497216`; the quotient by
`8433216` is `-254` and the byte stored is 2. -/
theorem blur_frame_branco :
    ler_byte (Filtros.blur frame_branco 2904 2904 4 2904) ((0 * 2904 + 0) * 4 + 0) = 2 := by
  rw [blur_byte_uniforme frame_branco 2904 2904 4 2904 255 255 255 length_frame_branco
    (by decide) (by decide) (by decide) (by decide) (by decide) frame_branco_uniforme 0 0
    (by decide) (by decide),
    length_janela_blur_inteira 2904 2904 2904 0 0 (by decide) (by decide) (by decide)
      (by decide)]
  decide

/-- Claim C15, counterexample. The all-white `2904 x 2904` RGBA frame is uniform, every
pixel carrying `(255, 255, 255)`, and the radius 2904 is at least 1, yet `blur` does not
leave it unchanged: the red byte of pixel `(0, 0)`, 255 before, is 2 after, because the red
sum `8433216 * 255 = 2150470080` of the window does not fit an `int`. And with the radius
`2147483647` on the uniform 2 x 2 frame the window loops of the first pixel are still
running after any number of iterations, so `blur` never returns. -/
theorem blur_uniforme_estoura :
    frame_branco.length = 2904 * 2904 * 4 ∧ 1 ≤ 2904 ∧ 3 ≤ 4 ∧ (1 : Int) ≤ 2904 ∧
    (∀ p, p < 2904 * 2904 → ler_byte frame_branco (p * 4 + 0) = 255 ∧
      ler_byte frame_branco (p * 4 + 1) = 255 ∧ ler_byte frame_branco (p * 4 + 2) = 255) ∧
    ler_byte frame_branco ((0 * 2904 + 0) * 4 + 0) = 255 ∧
    ler_byte (Filtros.blur frame_branco 2904 2904 4 2904) ((0 * 2904 + 0) * 4 + 0) = 2 ∧
    Filtros.blur frame_branco 2904 2904 4 2904 ≠ frame_branco ∧
    (∀ fuel : Nat, Filtros.blur_somas_laco frame_uniforme 2 2 4 2147483647 0 0 fuel = none) := by
  refine ⟨length_frame_branco, by decide, by decide, by decide, frame_branco_uniforme,
    ler_byte_frame_branco _ (by decide), blur_frame_branco, ?_,
    fun fuel => blur_somas_laco_nao_termina frame_uniforme 2 2 4 0 0 fuel⟩
  intro he
  have h1 := blur_frame_branco
  rw [he, ler_byte_frame_branco _ (by decide)] at h1
  exact absurd h1 (by decide)

/-- Claim C22, counterexample. With radius 2904 at pixel `(0, 0)` of the all-white
`2904 x 2904` RGBA frame the clipped window is the whole image, `8433216` positions that all
hold 255 in the red channel, and the clipped box mean is 255; the byte `blur` leaves there
is 2, which is not the mean and does not lie between the minimum and the maximum of the
window, because the sum `2150470080` does not fit an `int`. And with the radius `2147483647`
on a 2 x 2 frame the window loops of the first pixel are still running after any number of
iterations, so no byte is produced. -/
theorem blur_media_janela_estoura :
    frame_branco.length = 2904 * 2904 * 4 ∧ 3 ≤ 4 ∧ (1 : Int) ≤ 2904 ∧ 0 < 2904 ∧ 0 < 3 ∧
    (janela_blur 2904 2904 2904 0 0).length = 2904 * 2904 ∧
    media_janela frame_branco 2904 2904 4 2904 0 0 0 = 255 ∧
    (ler_byte (Filtros.blur frame_branco 2904 2904 4 2904) ((0 * 2904 + 0) * 4 + 0)).val = 2 ∧
    (ler_byte (Filtros.blur frame_branco 2904 2904 4 2904) ((0 * 2904 + 0) * 4 + 0)).val
      ≠ media_janela frame_branco 2904 2904 4 2904 0 0 0 ∧
    ¬ (∀ lo hi : Nat,
      (∀ p ∈ janela_blur 2904 2904 2904 0 0,
        lo ≤ (ler_byte frame_branco ((p.2 * 2904 + p.1) * 4 + 0)).val ∧
        (ler_byte frame_branco ((p.2 * 2904 + p.1) * 4 + 0)).val ≤ hi) →
      lo ≤ (ler_byte (Filtros.blur frame_branco 2904 2904 4 2904)
          ((0 * 2904 + 0) * 4 + 0)).val ∧
      (ler_byte (Filtros.blur frame_branco 2904 2904 4 2904) ((0 * 2904 + 0) * 4 + 0)).val
        ≤ hi) ∧
    (∀ fuel : Nat, Filtros.blur_somas_laco frame_quatro 2 2 4 2147483647 0 0 fuel = none) := by
  have hm : media_janela frame_branco 2904 2904 4 2904 0 0 0 = 255 :=
    (media_janela_uniforme frame_branco 2904 2904 4 2904 (by decide) 255 255 255
      frame_branco_uniforme 0 0 (by decide) (by decide)).trans rfl
  have hv : (ler_byte (Filtros.blur frame_branco 2904 2904 4 2904)
      ((0 * 2904 + 0) * 4 + 0)).val = 2 :=
    (congrArg Fin.val blur_frame_branco).trans rfl
  refine ⟨length_frame_branco, by decide, by decide, by decide, by decide,
    length_janela_blur_inteira 2904 2904 2904 0 0 (by decide) (by decide) (by decide)
      (by decide), hm, hv, ?_, ?_,
    fun fuel => blur_somas_laco_nao_termina frame_quatro 2 2 4 0 0 fuel⟩
  · rw [hv, hm]
    decide
  · intro hall
    have hjan : ∀ p ∈ janela_blur 2904 2904 2904 0 0,
        255 ≤ (ler_byte frame_branco ((p.2 * 2904 + p.1) * 4 + 0)).val ∧
        (ler_byte frame_branco ((p.2 * 2904 + p.1) * 4 + 0)).val ≤ 255 := by
      rintro ⟨nx, ny⟩ hp
      obtain ⟨h1, h2, -⟩ := mem_janela_blur.1 hp
      simp only
      have hi : (ny * 2904 + nx) * 4 + 0 < 2904 * 2904 * 4 := by omega
      rw [ler_byte_frame_branco _ hi]
      decide
    have h2 := (hall 255 255 hjan).1
    rw [hv] at h2
    exact absurd h2 (by decide)

/-! ## bordas: the pixels it rewrites -/

/-- With at least three channels the loop nest of `bordas` is one loop over the triples
(interior row, interior column, colour channel) that stores the magnitude computed from
the grayscale copy. -/
theorem bordas_eq_foldl {F : Type} (ops : FloatOps F) (d : List Byte) (w h c : Nat)
    (hc : 3 ≤ c) :
    Filtros.bordas ops d w h c
      = (List.product (List.range' 1 (h - 2))
          (List.product (List.range' 1 (w - 2)) (List.range 3))).foldl
          (fun dados t => dados.set (idx_px w c t)
            (bordas_valor
              (Filtros.cinza ops (memcpy (malloc (w * h * c)) 0 d 0 (w * h * c)) w h c)
              w c t)) d := by
  unfold Filtros.bordas
  rw [if_neg (by omega)]
  simp only [foldl_product]
  rfl

/-- Membership in the list of triples the loop nest of `bordas` runs through. -/
theorem mem_triplos_interior {h w y x k : Nat} :
    (y, x, k) ∈ List.product (List.range' 1 (h - 2))
        (List.product (List.range' 1 (w - 2)) (List.range 3))
      ↔ (1 ≤ y ∧ y + 1 < h) ∧ (1 ≤ x ∧ x + 1 < w) ∧ k < 3 := by
  simp only [List.pair_mem_product, List.mem_range'_1, List.mem_range]
  omega

/-- The loop nest of `bordas` visits every triple once. -/
theorem nodup_triplos_interior (h w : Nat) :
    (List.product (List.range' 1 (h - 2))
      (List.product (List.range' 1 (w - 2)) (List.range 3))).Nodup :=
  List.Nodup.product (List.nodup_range' _ _)
    (List.Nodup.product (List.nodup_range' _ _) (List.nodup_range 3))

/-- The filter `bordas` keeps the size of the block. -/
theorem length_bordas {F : Type} (ops : FloatOps F) (d : List Byte) (w h c : Nat) :
    (Filtros.bordas ops d w h c).length = d.length := by
  by_cases hc : 3 ≤ c
  · rw [bordas_eq_foldl ops d w h c hc]
    exact length_foldl_modificar (idx_px w c) (fun t _ => bordas_valor _ w c t) _ d
  · unfold Filtros.bordas
    rw [if_pos (by omega)]

/-- The filter `bordas` leaves alone every channel past the third. -/
theorem bordas_getElem?_resto {F : Type} (ops : FloatOps F) (d : List Byte) (w h c : Nat)
    {i j : Nat} (hj : 3 ≤ j) (hjc : j < c) :
    (Filtros.bordas ops d w h c)[i * c + j]? = d[i * c + j]? := by
  rw [bordas_eq_foldl ops d w h c (by omega)]
  apply getElem?_foldl_modificar_of_ne (idx_px w c) (fun t _ => bordas_valor _ w c t)
  rintro ⟨y1, x1, k1⟩ ha hab
  obtain ⟨-, -, ha3⟩ := mem_triplos_interior.1 ha
  simp only [idx_px] at hab
  have := (mul_add_inj (c := c) (by omega) hjc hab).2
  omega

/-- The filter `bordas` leaves alone every byte of a pixel on the outermost border. -/
theorem bordas_getElem?_moldura {F : Type} (ops : FloatOps F) (d : List Byte) (w h c : Nat)
    (hc : 3 ≤ c) {y x k : Nat} (hx : x < w) (hk : k < c)
    (hb : x = 0 ∨ x = w - 1 ∨ y = 0 ∨ y = h - 1) :
    (Filtros.bordas ops d w h c)[(y * w + x) * c + k]? = d[(y * w + x) * c + k]? := by
  rw [bordas_eq_foldl ops d w h c hc]
  apply getElem?_foldl_modificar_of_ne (idx_px w c) (fun t _ => bordas_valor _ w c t)
  rintro ⟨y1, x1, k1⟩ ha hab
  obtain ⟨ha1, ha2, ha3⟩ := mem_triplos_interior.1 ha
  simp only [idx_px] at hab
  obtain ⟨e1, e2, -⟩ := idx_inj (w := w) (by omega) hx (by omega) hk hab
  omega

/-- On a frame with fewer than three columns or fewer than three rows `bordas` stores
nothing. -/
theorem bordas_pequeno {F : Type} (ops : FloatOps F) (d : List Byte) (w h c : Nat)
    (hwh : w ≤ 2 ∨ h ≤ 2) : Filtros.bordas ops d w h c = d := by
  by_cases hc : 3 ≤ c
  · rw [bordas_eq_foldl ops d w h c hc]
    apply List.ext_getElem?
    intro n
    apply getElem?_foldl_modificar_of_ne (idx_px w c) (fun t _ => bordas_valor _ w c t)
    rintro ⟨y1, x1, k1⟩ ha
    obtain ⟨ha1, ha2, -⟩ := mem_triplos_interior.1 ha
    omega
  · unfold Filtros.bordas
    rw [if_pos (by omega)]

/-- The filter `bordas` stores in each colour byte of each interior pixel the magnitude
computed from the grayscale copy of the input. -/
theorem bordas_getElem?_cor {F : Type} (ops : FloatOps F) (d : List Byte) (w h c : Nat)
    (hc : 3 ≤ c) (hlen : w * h * c ≤ d.length) {y x k : Nat} (hy1 : 1 ≤ y) (hy : y + 1 < h)
    (hx1 : 1 ≤ x) (hx : x + 1 < w) (hk : k < 3) :
    (Filtros.bordas ops d w h c)[(y * w + x) * c + k]?
      = some (bordas_valor
          (Filtros.cinza ops (memcpy (malloc (w * h * c)) 0 d 0 (w * h * c)) w h c)
          w c (y, x, k)) := by
  rw [bordas_eq_foldl ops d w h c hc]
  refine getElem?_foldl_modificar_of_mem (idx_px w c) (fun t _ => bordas_valor _ w c t)
    _ d (nodup_triplos_interior h w) ?_ (y, x, k)
    (mem_triplos_interior.2 ⟨⟨hy1, hy⟩, ⟨hx1, hx⟩, hk⟩) ?_
  · rintro ⟨y1, x1, k1⟩ ha ⟨y2, x2, k2⟩ hb hab
    obtain ⟨-, ha2, ha3⟩ := mem_triplos_interior.1 ha
    obtain ⟨-, hb2, hb3⟩ := mem_triplos_interior.1 hb
    simp only [idx_px] at hab
    obtain ⟨e1, e2, e3⟩ := idx_inj (w := w) (by omega) (by omega) (by omega) (by omega) hab
    subst e1 e2 e3; rfl
  · have hkc : k < c := by omega
    have hyh : y < h := by omega
    have hxw : x < w := by omega
    exact lt_of_lt_of_le (idx_lt hyh hxw hkc) hlen

/-- Claim C23. Edges leaves the outermost one-pixel border unmodified: on every `w x h` frame
with `c >= 3` channels, after `bordas` every byte of every pixel with `x = 0`, `x = w - 1`,
`y = 0` or `y = h - 1` equals its input value; on a frame with `w <= 2` or `h <= 2` the
filter returns the block as it is; and every interior pixel ends with equal R, G and B
bytes and keeps its further channels (alpha). -/
theorem bordas_moldura {F : Type} (ops : FloatOps F) (d : List Byte) (w h c : Nat)
    (hlen : d.length = w * h * c) (hc : 3 ≤ c) :
    (∀ x y k, x < w → y < h → k < c → (x = 0 ∨ x = w - 1 ∨ y = 0 ∨ y = h - 1) →
      ler_byte (Filtros.bordas ops d w h c) ((y * w + x) * c + k)
        = ler_byte d ((y * w + x) * c + k)) ∧
    ((w ≤ 2 ∨ h ≤ 2) → Filtros.bordas ops d w h c = d) ∧
    (∀ x y, 1 ≤ x → x + 1 < w → 1 ≤ y → y + 1 < h →
      ler_byte (Filtros.bordas ops d w h c) ((y * w + x) * c + 0)
        = ler_byte (Filtros.bordas ops d w h c) ((y * w + x) * c + 1) ∧
      ler_byte (Filtros.bordas ops d w h c) ((y * w + x) * c + 1)
        = ler_byte (Filtros.bordas ops d w h c) ((y * w + x) * c + 2) ∧
      ∀ k, 3 ≤ k → k < c →
        ler_byte (Filtros.bordas ops d w h c) ((y * w + x) * c + k)
          = ler_byte d ((y * w + x) * c + k)) := by
  refine ⟨?_, bordas_pequeno ops d w h c, ?_⟩
  · intro x y k hx _ hk hb
    exact ler_byte_congr (bordas_getElem?_moldura ops d w h c hc hx hk hb)
  · intro x y hx1 hx hy1 hy
    have h0 := bordas_getElem?_cor ops d w h c hc (by rw [hlen]) hy1 hy hx1 hx
      (show 0 < 3 by omega)
    have h1 := bordas_getElem?_cor ops d w h c hc (by rw [hlen]) hy1 hy hx1 hx
      (show 1 < 3 by omega)
    have h2 := bordas_getElem?_cor ops d w h c hc (by rw [hlen]) hy1 hy hx1 hx
      (show 2 < 3 by omega)
    refine ⟨?_, ?_, ?_⟩
    · rw [ler_byte_eq, ler_byte_eq, h0, h1]; rfl
    · rw [ler_byte_eq, ler_byte_eq, h1, h2]; rfl
    · intro k hk hkc
      exact ler_byte_congr (bordas_getElem?_resto ops d w h c hk hkc)

/-- Witness of C23: a 3 x 3 block with three channels, whose only interior pixel is the
centre. -/
theorem bordas_moldura_witness :
    frame_sobel.length = 3 * 3 * 3 ∧ 3 ≤ 3 ∧
    ((∀ x y k, x < 3 → y < 3 → k < 3 → (x = 0 ∨ x = 3 - 1 ∨ y = 0 ∨ y = 3 - 1) →
      ler_byte (Filtros.bordas ops_exemplo frame_sobel 3 3 3) ((y * 3 + x) * 3 + k)
        = ler_byte frame_sobel ((y * 3 + x) * 3 + k)) ∧
    (((3 : Nat) ≤ 2 ∨ (3 : Nat) ≤ 2) → Filtros.bordas ops_exemplo frame_sobel 3 3 3 = frame_sobel) ∧
    (∀ x y, 1 ≤ x → x + 1 < 3 → 1 ≤ y → y + 1 < 3 →
      ler_byte (Filtros.bordas ops_exemplo frame_sobel 3 3 3) ((y * 3 + x) * 3 + 0)
        = ler_byte (Filtros.bordas ops_exemplo frame_sobel 3 3 3) ((y * 3 + x) * 3 + 1) ∧
      ler_byte (Filtros.bordas ops_exemplo frame_sobel 3 3 3) ((y * 3 + x) * 3 + 1)
        = ler_byte (Filtros.bordas ops_exemplo frame_sobel 3 3 3) ((y * 3 + x) * 3 + 2) ∧
      ∀ k, 3 ≤ k → k < 3 →
        ler_byte (Filtros.bordas ops_exemplo frame_sobel 3 3 3) ((y * 3 + x) * 3 + k)
          = ler_byte frame_sobel ((y * 3 + x) * 3 + k))) :=
  ⟨by decide, by decide, bordas_moldura ops_exemplo frame_sobel 3 3 3 (by decide) (by decide)⟩

/-! ## bordas: the magnitude it stores -/

/-- With at least three channels, the loop of `cinza` is the colour loop that stores the
luminance three times. -/
theorem cinza_eq_foldl {F : Type} (ops : FloatOps F) (d : List Byte) (w h c : Nat)
    (hc : 3 ≤ c) :
    Filtros.cinza ops d w h c = (List.range (w * h)).foldl (pixel_rgb (cinza_rgb ops) c) d := by
  unfold Filtros.cinza
  rw [if_neg (by omega)]
  rfl

/-- The first channel of a pixel of the grayscale copy holds the luminance of the pixel of
the input. -/
theorem cinza_getElem?_zero {F : Type} (ops : FloatOps F) (d : List Byte) (w h c : Nat)
    (hc : 3 ≤ c) (hlen : w * h * c ≤ d.length) {x y : Nat} (hx : x < w) (hy : y < h) :
    ((ler_byte (Filtros.cinza ops d w h c) ((y * w + x) * c)).val : Int)
      = cinza_de ops d w c x y := by
  have hp : y * w + x < w * h := by
    have := mul_add_lt hy hx
    rw [Nat.mul_comm w h]; exact this
  have hlt : (y * w + x) * c + 2 < d.length :=
    lt_of_lt_of_le (mul_add_lt hp (by omega)) hlen
  have key := (getElem?_foldl_pixel_rgb_of_mem (cinza_rgb ops) c hc (List.range (w * h)) d
    (List.nodup_range _) (y * w + x) (List.mem_range.2 hp) hlt).1
  rw [← cinza_eq_foldl ops d w h c hc] at key
  rw [ler_byte_eq, ← Nat.add_zero ((y * w + x) * c), key]
  rfl

/-- The two sums of `bordas_somas` are the responses of the two Sobel kernels to the first
channel of the grayscale copy. -/
theorem bordas_somas_resposta (temp : List Byte) (w c x y : Nat) :
    Filtros.bordas_somas temp w c x y
      = (resposta nucleo_gx (fun nx ny => ((ler_byte temp ((ny * w + nx) * c)).val : Int)) x y,
         resposta nucleo_gy (fun nx ny => ((ler_byte temp ((ny * w + nx) * c)).val : Int)) x y) := by
  unfold Filtros.bordas_somas resposta
  simp only [List.range_succ, List.range_zero, List.nil_append, List.cons_append,
    List.foldl_cons, List.foldl_nil, List.map_cons, List.map_nil, List.sum_cons, List.sum_nil,
    Filtros.sobel_gx, Filtros.sobel_gy, nucleo_gx, nucleo_gy]
  refine Prod.ext ?_ ?_
  · simp
    ring
  · simp
    ring

/-- The response of a kernel depends only on the gray values of the nine neighbours. -/
theorem resposta_congr (nucleo : List (List Int)) (g g2 : Nat → Nat → Int) (x y : Nat)
    (hg : ∀ i j, i < 3 → j < 3 → g (x + j - 1) (y + i - 1) = g2 (x + j - 1) (y + i - 1)) :
    resposta nucleo g x y = resposta nucleo g2 x y := by
  unfold resposta
  congr 1
  apply List.map_congr_left
  intro i hi
  congr 1
  apply List.map_congr_left
  intro j hj
  rw [hg i j (List.mem_range.1 hi) (List.mem_range.1 hj)]

/-- The byte `bordas` stores at an interior pixel, from the Sobel responses to the gray
values of the input. -/
theorem bordas_valor_interior {F : Type} (ops : FloatOps F) (d : List Byte) (w h c : Nat)
    (hc : 3 ≤ c) (hlen : w * h * c ≤ d.length) {y x : Nat} (hy1 : 1 ≤ y) (hy : y + 1 < h)
    (hx1 : 1 ≤ x) (hx : x + 1 < w) (k : Nat) :
    bordas_valor (Filtros.cinza ops d w h c) w c (y, x, k)
      = clamp_byte (Nat.sqrt
          (resposta nucleo_gx (cinza_de ops d w c) x y
              * resposta nucleo_gx (cinza_de ops d w c) x y
            + resposta nucleo_gy (cinza_de ops d w c) x y
              * resposta nucleo_gy (cinza_de ops d w c) x y).toNat : Int) := by
  have hg : ∀ i j, i < 3 → j < 3 →
      ((ler_byte (Filtros.cinza ops d w h c) (((y + i - 1) * w + (x + j - 1)) * c)).val : Int)
        = cinza_de ops d w c (x + j - 1) (y + i - 1) := by
    intro i j hi hj
    exact cinza_getElem?_zero ops d w h c hc hlen (by omega) (by omega)
  unfold bordas_valor
  simp only
  rw [bordas_somas_resposta]
  simp only
  rw [resposta_congr nucleo_gx _ (cinza_de ops d w c) x y hg,
    resposta_congr nucleo_gy _ (cinza_de ops d w c) x y hg]

/-- The byte stored by `std::clamp` of a non-negative number has the value of that number
capped at 255. -/
theorem val_clamp_byte_nat (m : Nat) : (clamp_byte (m : Int)).val = min 255 m := by
  have h := val_clamp_byte (m : Int)
  omega

/-- The value `raiz_arredondada n` is the integer nearest to the square root of `n`: it is
the least `m` with `sqrt n < m + 1/2`, stated on the squares of the doubled numbers. -/
theorem raiz_arredondada_proxima (n : Nat) :
    4 * n < (2 * raiz_arredondada n + 1) * (2 * raiz_arredondada n + 1) ∧
    ∀ k, k < raiz_arredondada n → (2 * k + 1) * (2 * k + 1) ≤ 4 * n := by
  unfold raiz_arredondada
  cases hfind : (List.range (n + 1)).find?
      (fun m => decide (4 * n < (2 * m + 1) * (2 * m + 1))) with
  | none =>
    have h1 := List.find?_range_eq_none.1 hfind n (Nat.lt_succ_self n)
    simp only [Bool.not_eq_true', decide_eq_false_iff_not, Nat.not_lt] at h1
    have h2 : 4 * n < (2 * n + 1) * (2 * n + 1) := by nlinarith
    omega
  | some m =>
    obtain ⟨h1, -, h3⟩ := List.find?_range_eq_some.1 hfind
    simp only [Option.getD_some]
    refine ⟨of_decide_eq_true h1, ?_⟩
    intro k hk
    have := h3 k hk
    simp only [Bool.not_eq_true', decide_eq_false_iff_not, Nat.not_lt] at this
    exact this

/-- Claim C24, counterexample. On the 3 x 3 block `frame_sobel` the two Sobel responses at
the centre pixel are `Gx = Gy = 2`, so that `sqrt (Gx^2 + Gy^2) = sqrt 8 = 2.83` is 3 when
rounded to the nearest integer; `bordas` stores 2 there, the square root with its fraction
cut off by the conversion `(int)sqrt(...)`. -/
theorem bordas_magnitude_nao_arredonda :
    resposta nucleo_gx (cinza_de ops_exemplo frame_sobel 3 3) 1 1 = 2 ∧
    resposta nucleo_gy (cinza_de ops_exemplo frame_sobel 3 3) 1 1 = 2 ∧
    clamp_byte (raiz_arredondada (2 * 2 + 2 * 2) : Int) = 3 ∧
    ler_byte (Filtros.bordas ops_exemplo frame_sobel 3 3 3) ((1 * 3 + 1) * 3 + 0) = 2 := by
  refine ⟨by decide, by decide, by decide, ?_⟩
  have hcopia : memcpy (malloc (3 * 3 * 3)) 0 frame_sobel 0 (3 * 3 * 3) = frame_sobel := by
    decide
  have h1 := bordas_getElem?_cor ops_exemplo frame_sobel 3 3 3 (by decide) (by decide)
    (y := 1) (x := 1) (k := 0) (by decide) (by decide) (by decide) (by decide) (by decide)
  rw [hcopia, bordas_valor_interior ops_exemplo frame_sobel 3 3 3 (by decide) (by decide)
    (by decide) (by decide) (by decide) (by decide)] at h1
  have hx : resposta nucleo_gx (cinza_de ops_exemplo frame_sobel 3 3) 1 1 = 2 := by decide
  have hy : resposta nucleo_gy (cinza_de ops_exemplo frame_sobel 3 3) 1 1 = 2 := by decide
  have hn : ((2 : Int) * 2 + 2 * 2).toNat = 8 := by decide
  have hs : Nat.sqrt 8 = 2 := (Nat.eq_sqrt.2 ⟨by decide, by decide⟩).symm
  rw [hx, hy, hn, hs] at h1
  rw [ler_byte_eq, h1]
  decide

/-- Claim C24, amended. For every interior pixel of a `w x h` frame with at least three
channels, with `Gx` and `Gy` the responses of the Sobel kernels
`[[-1,0,1],[-2,0,2],[-1,0,1]]` and `[[-1,-2,-1],[0,0,0],[1,2,1]]` to the gray values of the
input, the byte `bordas` stores in R, G and B is `min 255 m` where `m` is the integer part
of the square root of `Gx^2 + Gy^2` (the `m` with `m^2 <= Gx^2 + Gy^2 < (m + 1)^2`): the
square root is truncated, not rounded to the nearest integer. -/
theorem bordas_magnitude_truncada {F : Type} (ops : FloatOps F) (d : List Byte) (w h c : Nat)
    (hlen : d.length = w * h * c) (hc : 3 ≤ c) (x y k : Nat) (hx1 : 1 ≤ x) (hx : x + 1 < w)
    (hy1 : 1 ≤ y) (hy : y + 1 < h) (hk : k < 3) :
    ∃ m : Nat,
      (m : Int) * (m : Int)
        ≤ resposta nucleo_gx (cinza_de ops d w c) x y * resposta nucleo_gx (cinza_de ops d w c) x y
          + resposta nucleo_gy (cinza_de ops d w c) x y
            * resposta nucleo_gy (cinza_de ops d w c) x y ∧
      resposta nucleo_gx (cinza_de ops d w c) x y * resposta nucleo_gx (cinza_de ops d w c) x y
          + resposta nucleo_gy (cinza_de ops d w c) x y
            * resposta nucleo_gy (cinza_de ops d w c) x y
        < ((m : Int) + 1) * ((m : Int) + 1) ∧
      (ler_byte (Filtros.bordas ops d w h c) ((y * w + x) * c + k)).val = min 255 m := by
  have htemp : memcpy (malloc (w * h * c)) 0 d 0 (w * h * c) = d := by
    rw [← hlen]
    exact memcpy_total _ _ (by simp [malloc])
  have h1 := bordas_getElem?_cor ops d w h c hc (by rw [hlen]) hy1 hy hx1 hx hk
  rw [htemp, bordas_valor_interior ops d w h c hc (by rw [hlen]) hy1 hy hx1 hx] at h1
  generalize resposta nucleo_gx (cinza_de ops d w c) x y = gx at h1 ⊢
  generalize resposta nucleo_gy (cinza_de ops d w c) x y = gy at h1 ⊢
  have hn : (((gx * gx + gy * gy).toNat : Nat) : Int) = gx * gx + gy * gy :=
    Int.toNat_of_nonneg (add_nonneg (mul_self_nonneg gx) (mul_self_nonneg gy))
  refine ⟨Nat.sqrt (gx * gx + gy * gy).toNat, ?_, ?_, ?_⟩
  · rw [← hn]
    exact_mod_cast Nat.sqrt_le (gx * gx + gy * gy).toNat
  · rw [← hn]
    exact_mod_cast Nat.lt_succ_sqrt (gx * gx + gy * gy).toNat
  · rw [ler_byte_eq, h1]
    exact val_clamp_byte_nat _

/-- Witness of the amended C24: the centre pixel of the 3 x 3 block `frame_sobel`. -/
theorem bordas_magnitude_truncada_witness :
    frame_sobel.length = 3 * 3 * 3 ∧ 3 ≤ 3 ∧ 1 ≤ 1 ∧ 1 + 1 < 3 ∧ 0 < 3 ∧
    ∃ m : Nat,
      (m : Int) * (m : Int)
        ≤ resposta nucleo_gx (cinza_de ops_exemplo frame_sobel 3 3) 1 1
            * resposta nucleo_gx (cinza_de ops_exemplo frame_sobel 3 3) 1 1
          + resposta nucleo_gy (cinza_de ops_exemplo frame_sobel 3 3) 1 1
            * resposta nucleo_gy (cinza_de ops_exemplo frame_sobel 3 3) 1 1 ∧
      resposta nucleo_gx (cinza_de ops_exemplo frame_sobel 3 3) 1 1
            * resposta nucleo_gx (cinza_de ops_exemplo frame_sobel 3 3) 1 1
          + resposta nucleo_gy (cinza_de ops_exemplo frame_sobel 3 3) 1 1
            * resposta nucleo_gy (cinza_de ops_exemplo frame_sobel 3 3) 1 1
        < ((m : Int) + 1) * ((m : Int) + 1) ∧
      (ler_byte (Filtros.bordas ops_exemplo frame_sobel 3 3 3) ((1 * 3 + 1) * 3 + 0)).val
        = min 255 m :=
  ⟨by decide, by decide, by decide, by decide, by decide,
    bordas_magnitude_truncada ops_exemplo frame_sobel 3 3 3 (by decide) (by decide) 1 1 0
      (by decide) (by decide) (by decide) (by decide) (by decide)⟩

/-! ## obter_frame_rgba: row flip and channel reorder -/

/-- The pixel loop of `obter_frame_rgba` is one loop over the triples
(row, column, output channel). -/
theorem bgr_para_rgba_eq_foldl (d : List Byte) (w h : Nat) (rgba : List Byte) :
    bgr_para_rgba d w h rgba
      = (List.product (List.range h) (List.product (List.range w) (List.range 4))).foldl
          (fun rgba t => rgba.set (idx_px w 4 t) (bgr_valor d w h t)) rgba := by
  simp only [foldl_product]
  rfl

/-- The pixel loop of `obter_frame_rgba` keeps the size of the output block. -/
theorem length_bgr_para_rgba (d : List Byte) (w h : Nat) (rgba : List Byte) :
    (bgr_para_rgba d w h rgba).length = rgba.length := by
  rw [bgr_para_rgba_eq_foldl]
  exact length_foldl_modificar (idx_px w 4) (fun t _ => bgr_valor d w h t) _ rgba

/-- Closed form of the pixel loop of `obter_frame_rgba`. -/
theorem bgr_para_rgba_getElem? (d : List Byte) (w h : Nat) (rgba : List Byte)
    (hlen : w * h * 4 ≤ rgba.length) {y x k : Nat} (hy : y < h) (hx : x < w) (hk : k < 4) :
    (bgr_para_rgba d w h rgba)[(y * w + x) * 4 + k]? = some (bgr_valor d w h (y, x, k)) := by
  rw [bgr_para_rgba_eq_foldl]
  refine getElem?_foldl_modificar_of_mem (idx_px w 4) (fun t _ => bgr_valor d w h t)
    _ rgba (nodup_triplos h w 4) ?_ (y, x, k) (mem_triplos.2 ⟨hy, hx, hk⟩) ?_
  · rintro ⟨y1, x1, k1⟩ ha ⟨y2, x2, k2⟩ hb hab
    obtain ⟨-, ha2, ha3⟩ := mem_triplos.1 ha
    obtain ⟨-, hb2, hb3⟩ := mem_triplos.1 hb
    simp only [idx_px] at hab
    obtain ⟨e1, e2, e3⟩ := idx_inj (w := w) ha2 hb2 ha3 hb3 hab
    subst e1 e2 e3; rfl
  · exact lt_of_lt_of_le (idx_lt hy hx hk) hlen

/-- Claim C25. The take performs the row flip and the channel reorder: on every slot with
session size `w x h` (`w, h > 0`) that holds a fresh sample `d` of at least `3 * w * h`
bytes, `obter_frame_rgba` returns a frame of reported size `w x h` with exactly `w * h * 4`
bytes in which the pixel at `(x, y)` is `(d[s + 2], d[s + 1], d[s + 0], 255)` with
`s = ((h - 1 - y) * w + x) * 3`, all three positions lying inside the sample; the sample
stored in the slot is the same afterwards, and `BufferCB` on a slot whose size field
describes its block stores the delivered bytes as they are. -/
theorem obter_frame_rgba_conversao (s : SampleGrabberCallback) (d : List Byte) (w h : Nat)
    (hd : s.dados = some d) (hn : s.novo_frame = true) (hsw : s.largura = (w : Int))
    (hsh : s.altura = (h : Int)) (hw : 0 < w) (hh : 0 < h) (hlen : 3 * w * h ≤ d.length) :
    ∃ f : Frame, s.obter_frame_rgba.1 = some f ∧ f.largura = (w : Int) ∧
      f.altura = (h : Int) ∧ f.dados.length = w * h * 4 ∧
      (∀ x y, x < w → y < h →
        ((h - 1 - y) * w + x) * 3 + 2 < d.length ∧
        f.dados[(y * w + x) * 4 + 0]? = d[((h - 1 - y) * w + x) * 3 + 2]? ∧
        f.dados[(y * w + x) * 4 + 1]? = d[((h - 1 - y) * w + x) * 3 + 1]? ∧
        f.dados[(y * w + x) * 4 + 2]? = d[((h - 1 - y) * w + x) * 3 + 0]? ∧
        f.dados[(y * w + x) * 4 + 3]? = some 255) ∧
      s.obter_frame_rgba.2.dados = some d ∧
      ∀ (s0 : SampleGrabberCallback) (B : List Byte), s0.Coerente →
        (s0.BufferCB B).dados = some B := by
  have e := obter_frame_rgba_fresco s d hd hn (by omega) (by omega)
  rw [hsw, hsh] at e
  simp only [Int.toNat_ofNat] at e
  refine ⟨_, by rw [e], rfl, rfl, ?_, ?_, ?_, ?_⟩
  · simp only
    rw [length_bgr_para_rgba]
    simp [malloc]
  · intro x y hx hy
    have hm : w * h * 4 ≤ (malloc (w * h * 4)).length := by simp [malloc]
    have hsrc : ((h - 1 - y) * w + x) * 3 + 2 < d.length := by
      have h1 : h - 1 - y < h := by omega
      have h2 := idx_lt (c := 3) (k := 2) h1 hx (by omega)
      have h3 : w * h * 3 = 3 * w * h := by ring
      omega
    refine ⟨hsrc, ?_, ?_, ?_, ?_⟩
    · rw [bgr_para_rgba_getElem? d w h _ hm hy hx (by omega), getElem?_eq_ler_byte (by omega)]
      rfl
    · rw [bgr_para_rgba_getElem? d w h _ hm hy hx (by omega), getElem?_eq_ler_byte (by omega)]
      rfl
    · rw [bgr_para_rgba_getElem? d w h _ hm hy hx (by omega), getElem?_eq_ler_byte (by omega)]
      rfl
    · rw [bgr_para_rgba_getElem? d w h _ hm hy hx (by omega)]
      rfl
  · rw [e]
    exact hd
  · intro s0 B hs0
    rw [BufferCB_eq s0 B hs0]

/-- Witness of C25: a 1 x 2 session with the sample `[1, 2, 3, 4, 5, 6]`; the take returns
the rows in reverse order with the colour bytes of each pixel reversed. -/
theorem obter_frame_rgba_conversao_witness :
    slot_exemplo.dados = some [1, 2, 3, 4, 5, 6] ∧ slot_exemplo.novo_frame = true ∧
    slot_exemplo.largura = ((1 : Nat) : Int) ∧ slot_exemplo.altura = ((2 : Nat) : Int) ∧
    3 * 1 * 2 ≤ ([1, 2, 3, 4, 5, 6] : List Byte).length ∧
    slot_exemplo.obter_frame_rgba.1 = some ⟨[6, 5, 4, 255, 3, 2, 1, 255], 1, 2⟩ ∧
    ∃ f : Frame, slot_exemplo.obter_frame_rgba.1 = some f ∧ f.largura = ((1 : Nat) : Int) ∧
      f.altura = ((2 : Nat) : Int) ∧ f.dados.length = 1 * 2 * 4 ∧
      (∀ x y, x < 1 → y < 2 →
        ((2 - 1 - y) * 1 + x) * 3 + 2 < ([1, 2, 3, 4, 5, 6] : List Byte).length ∧
        f.dados[(y * 1 + x) * 4 + 0]?
          = ([1, 2, 3, 4, 5, 6] : List Byte)[((2 - 1 - y) * 1 + x) * 3 + 2]? ∧
        f.dados[(y * 1 + x) * 4 + 1]?
          = ([1, 2, 3, 4, 5, 6] : List Byte)[((2 - 1 - y) * 1 + x) * 3 + 1]? ∧
        f.dados[(y * 1 + x) * 4 + 2]?
          = ([1, 2, 3, 4, 5, 6] : List Byte)[((2 - 1 - y) * 1 + x) * 3 + 0]? ∧
        f.dados[(y * 1 + x) * 4 + 3]? = some 255) ∧
      slot_exemplo.obter_frame_rgba.2.dados = some [1, 2, 3, 4, 5, 6] ∧
      ∀ (s0 : SampleGrabberCallback) (B : List Byte), s0.Coerente →
        (s0.BufferCB B).dados = some B :=
  ⟨rfl, rfl, rfl, rfl, by decide, by decide,
    obter_frame_rgba_conversao slot_exemplo [1, 2, 3, 4, 5, 6] 1 2 rfl rfl rfl rfl
      (by decide) (by decide) (by decide)⟩

/-! ## obter_frame_rgba: the positions it reads -/

/-- Membership in a list accumulated by a loop that appends a chunk per iteration. -/
theorem mem_foldl_append {τ : Type} (g : τ → List Nat) (ts : List τ) (init : List Nat)
    (i : Nat) :
    i ∈ ts.foldl (fun l t => l ++ g t) init ↔ i ∈ init ∨ ∃ t ∈ ts, i ∈ g t := by
  induction ts generalizing init with
  | nil => simp
  | cons a ts ih =>
    rw [List.foldl_cons, ih]
    simp only [List.mem_append, List.mem_cons, exists_eq_or_imp]
    tauto

/-- The positions the pixel loop of `obter_frame_rgba` reads are the three colour bytes of
every source pixel. -/
theorem mem_bgr_para_rgba_leituras (w h i : Nat) :
    i ∈ bgr_para_rgba_leituras w h
      ↔ ∃ y x k, y < h ∧ x < w ∧ k < 3 ∧ i = ((h - 1 - y) * w + x) * 3 + k := by
  have e : bgr_para_rgba_leituras w h
      = (List.product (List.range h) (List.range w)).foldl
          (fun l t => l ++ [((h - 1 - t.1) * w + t.2) * 3 + 2, ((h - 1 - t.1) * w + t.2) * 3 + 1,
            ((h - 1 - t.1) * w + t.2) * 3 + 0]) [] := by
    rw [foldl_product]
    rfl
  rw [e, mem_foldl_append]
  constructor
  · rintro (h0 | ⟨⟨y, x⟩, ht, hi⟩)
    · cases h0
    · simp only [List.mem_product, List.pair_mem_product, List.mem_range] at ht
      simp only [List.mem_cons, List.mem_singleton, List.not_mem_nil, or_false] at hi
      rcases hi with rfl | rfl | rfl
      · exact ⟨y, x, 2, ht.1, ht.2, by omega, rfl⟩
      · exact ⟨y, x, 1, ht.1, ht.2, by omega, rfl⟩
      · exact ⟨y, x, 0, ht.1, ht.2, by omega, rfl⟩
  · rintro ⟨y, x, k, hy, hx, hk, rfl⟩
    right
    refine ⟨(y, x), ?_, ?_⟩
    · simp only [List.mem_product, List.pair_mem_product, List.mem_range]
      exact ⟨hy, hx⟩
    · simp only [List.mem_cons, List.mem_singleton, List.not_mem_nil, or_false]
      have hk3 : k = 0 ∨ k = 1 ∨ k = 2 := by omega
      rcases hk3 with rfl | rfl | rfl
      · right; right; rfl
      · right; left; rfl
      · left; rfl

/-- For a session of positive size, every position the pixel loop reads lies below `n`
exactly when `n` is at least `3 * w * h`. -/
theorem bgr_para_rgba_leituras_lt (w h n : Nat) (hw : 0 < w) (hh : 0 < h) :
    (∀ i ∈ bgr_para_rgba_leituras w h, i < n) ↔ 3 * w * h ≤ n := by
  constructor
  · intro hall
    have hm : ((h - 1 - 0) * w + (w - 1)) * 3 + 2 ∈ bgr_para_rgba_leituras w h :=
      (mem_bgr_para_rgba_leituras w h _).2 ⟨0, w - 1, 2, hh, by omega, by omega, rfl⟩
    have h1 := hall _ hm
    have h2 : (h - 1 - 0) * w + (w - 1) + 1 = h * w := by
      obtain ⟨h', rfl⟩ : ∃ h', h = h' + 1 := ⟨h - 1, by omega⟩
      simp only [Nat.add_sub_cancel, Nat.sub_zero]
      have : (h' + 1) * w = h' * w + w := by ring
      omega
    have h3 : 3 * w * h = (h * w) * 3 := by ring
    omega
  · intro hn i hi
    obtain ⟨y, x, k, hy, hx, hk, rfl⟩ := (mem_bgr_para_rgba_leituras w h i).1 hi
    have h1 : h - 1 - y < h := by omega
    have h2 := idx_lt (c := 3) h1 hx hk
    have h3 : w * h * 3 = 3 * w * h := by ring
    omega

/-- On a slot that holds a fresh sample and has a session of positive size `w x h`, a take
reads the positions of the pixel loop. -/
theorem obter_frame_rgba_leituras_fresco (s : SampleGrabberCallback) (d : List Byte)
    (w h : Nat) (hd : s.dados = some d) (hn : s.novo_frame = true)
    (hsw : s.largura = (w : Int)) (hsh : s.altura = (h : Int)) (hw : 0 < w) (hh : 0 < h) :
    s.obter_frame_rgba_leituras = bgr_para_rgba_leituras w h := by
  unfold SampleGrabberCallback.obter_frame_rgba_leituras
  have h1 : ¬ (w : Int) ≤ 0 := by omega
  have h2 : ¬ (h : Int) ≤ 0 := by omega
  simp [hd, hn, hsw, hsh, h1, h2]

/-- Claim C26. Bounds of the take against the delivered length: on every slot with session
size `w x h` (`w, h > 0`) that holds a fresh sample of `n` bytes, every position
`obter_frame_rgba` reads from the sample is smaller than `n` if and only if
`n >= 3 * w * h`; and `BufferCB` stores a sample of any length and marks it fresh without
comparing its length with the session size, so that after the delivery of a sample shorter
than `3 * w * h` the take reads a position at or past the end of the sample. -/
theorem obter_frame_rgba_limites (s : SampleGrabberCallback) (d : List Byte) (w h : Nat)
    (hd : s.dados = some d) (hn : s.novo_frame = true) (hsw : s.largura = (w : Int))
    (hsh : s.altura = (h : Int)) (hw : 0 < w) (hh : 0 < h) :
    ((∀ i ∈ s.obter_frame_rgba_leituras, i < d.length) ↔ 3 * w * h ≤ d.length) ∧
    (∀ (s0 : SampleGrabberCallback) (B : List Byte), s0.Coerente →
      s0.largura = (w : Int) → s0.altura = (h : Int) →
      (s0.BufferCB B).dados = some B ∧ (s0.BufferCB B).novo_frame = true ∧
      (B.length < 3 * w * h →
        ∃ i ∈ (s0.BufferCB B).obter_frame_rgba_leituras, B.length ≤ i)) := by
  constructor
  · rw [obter_frame_rgba_leituras_fresco s d w h hd hn hsw hsh hw hh]
    exact bgr_para_rgba_leituras_lt w h d.length hw hh
  · intro s0 B hs0 h0w h0h
    have e := BufferCB_eq s0 B hs0
    refine ⟨by rw [e], by rw [e], ?_⟩
    intro hB
    rw [obter_frame_rgba_leituras_fresco (s0.BufferCB B) B w h (by rw [e]) (by rw [e])
      (by rw [e]; exact h0w) (by rw [e]; exact h0h) hw hh]
    by_contra hcon
    have hall : ∀ i ∈ bgr_para_rgba_leituras w h, i < B.length := by
      intro i hi
      by_contra hlt
      exact hcon ⟨i, hi, by omega⟩
    have := (bgr_para_rgba_leituras_lt w h B.length hw hh).1 hall
    omega

/-- Witness of C26: the slot of a 1 x 2 session holding six bytes, and the delivery of a
sample of four bytes to it. -/
theorem obter_frame_rgba_limites_witness :
    slot_exemplo.dados = some [1, 2, 3, 4, 5, 6] ∧ slot_exemplo.novo_frame = true ∧
    slot_exemplo.largura = ((1 : Nat) : Int) ∧ slot_exemplo.altura = ((2 : Nat) : Int) ∧
    slot_exemplo.obter_frame_rgba_leituras = [5, 4, 3, 2, 1, 0] ∧
    (slot_exemplo.BufferCB [7, 8, 9, 10]).obter_frame_rgba_leituras = [5, 4, 3, 2, 1, 0] ∧
    (((∀ i ∈ slot_exemplo.obter_frame_rgba_leituras, i < ([1, 2, 3, 4, 5, 6] : List Byte).length)
      ↔ 3 * 1 * 2 ≤ ([1, 2, 3, 4, 5, 6] : List Byte).length) ∧
    (∀ (s0 : SampleGrabberCallback) (B : List Byte), s0.Coerente →
      s0.largura = ((1 : Nat) : Int) → s0.altura = ((2 : Nat) : Int) →
      (s0.BufferCB B).dados = some B ∧ (s0.BufferCB B).novo_frame = true ∧
      (B.length < 3 * 1 * 2 →
        ∃ i ∈ (s0.BufferCB B).obter_frame_rgba_leituras, B.length ≤ i))) :=
  ⟨rfl, rfl, rfl, rfl, by decide, by decide,
    obter_frame_rgba_limites slot_exemplo [1, 2, 3, 4, 5, 6] 1 2 rfl rfl rfl rfl
      (by decide) (by decide)⟩

/-! ## rotacionar: the positions it writes -/

/-- A loop that appends one element per iteration appends the list of those elements. -/
theorem foldl_append_singleton {τ : Type} (f : τ → Nat) (ts : List τ) (init : List Nat) :
    ts.foldl (fun l t => l ++ [f t]) init = init ++ ts.map f := by
  induction ts generalizing init with
  | nil => simp
  | cons a ts ih => rw [List.foldl_cons, ih, List.map_cons, List.append_assoc]; rfl

/-- A loop whose iterations keep the size of the block keeps the size of the block. -/
theorem length_foldl_of_length {τ : Type} (f : List Byte → τ → List Byte)
    (hf : ∀ d t, (f d t).length = d.length) (ts : List τ) (d : List Byte) :
    (ts.foldl f d).length = d.length := by
  induction ts generalizing d with
  | nil => rfl
  | cons a ts ih => rw [List.foldl_cons, ih, hf]

/-- The block `rotacionar` returns has the size recorded by `rotacionar_destinos`, the size
of the allocation, whatever the angle. -/
theorem length_rotacionar (d : List Byte) (w h c : Nat) (g : Int) :
    (Filtros.rotacionar d w h c g).1.length = (Filtros.rotacionar_destinos w h c g).2 := by
  unfold Filtros.rotacionar Filtros.rotacionar_destinos
  simp only
  split
  · simp only
    rw [length_memcpy]
    simp [malloc]
  · simp only
    rw [length_foldl_of_length _ (fun d y => length_foldl_of_length _
      (fun d x => length_foldl_of_length _ (fun d k => List.length_set _ _ _) _ d) _ d)]
    simp [malloc]

/-- Angles with the same remainder modulo 360 write the same positions. -/
theorem rotacionar_destinos_congr (w h c : Nat) (g g2 : Int) (hg : g % 360 = g2 % 360) :
    Filtros.rotacionar_destinos w h c g = Filtros.rotacionar_destinos w h c g2 := by
  unfold Filtros.rotacionar_destinos
  simp only [normalizar_graus, hg]

/-- For 90 degrees `rotacionar` writes the positions `idx_rot90` of the source triples. -/
theorem rotacionar_destinos_90 (w h c : Nat) :
    Filtros.rotacionar_destinos w h c 90
      = ((List.product (List.range h) (List.product (List.range w) (List.range c))).map
          (idx_rot90 h c), h * w * c) := by
  have e : Filtros.rotacionar_destinos w h c 90
      = ((List.product (List.range h) (List.product (List.range w) (List.range c))).foldl
          (fun l t => l ++ [idx_rot90 h c t]) [], h * w * c) := by
    simp only [foldl_product]
    rfl
  rw [e, foldl_append_singleton, List.nil_append]

/-- For 180 degrees `rotacionar` writes the positions `idx_rot180` of the source triples. -/
theorem rotacionar_destinos_180 (w h c : Nat) :
    Filtros.rotacionar_destinos w h c 180
      = ((List.product (List.range h) (List.product (List.range w) (List.range c))).map
          (idx_rot180 w h c), w * h * c) := by
  have e : Filtros.rotacionar_destinos w h c 180
      = ((List.product (List.range h) (List.product (List.range w) (List.range c))).foldl
          (fun l t => l ++ [idx_rot180 w h c t]) [], w * h * c) := by
    simp only [foldl_product]
    rfl
  rw [e, foldl_append_singleton, List.nil_append]

/-- For 270 degrees `rotacionar` writes the positions `idx_rot270` of the source triples. -/
theorem rotacionar_destinos_270 (w h c : Nat) :
    Filtros.rotacionar_destinos w h c 270
      = ((List.product (List.range h) (List.product (List.range w) (List.range c))).map
          (idx_rot270 w h c), h * w * c) := by
  have e : Filtros.rotacionar_destinos w h c 270
      = ((List.product (List.range h) (List.product (List.range w) (List.range c))).foldl
          (fun l t => l ++ [idx_rot270 w h c t]) [], h * w * c) := by
    simp only [foldl_product]
    rfl
  rw [e, foldl_append_singleton, List.nil_append]

/-- The number of triples of a three-level loop nest. -/
theorem length_triplos (h w c : Nat) :
    (List.product (List.range h) (List.product (List.range w) (List.range c))).length
      = h * (w * c) := by
  have h1 : (List.product (List.range w) (List.range c)).length = w * c :=
    (List.length_product _ _).trans (by rw [List.length_range, List.length_range])
  exact (List.length_product _ _).trans (by rw [List.length_range, h1])

/-- For an angle that is 90, 180 or 270 modulo 360, on frames of any shape, every position
`rotacionar` writes lies inside the block it allocated, no position is written twice, and
the number of writes is the size of the block: every byte of the new block is written
exactly once. -/
theorem rotacionar_destinos_multiplo_90 (w h c : Nat) (g : Int)
    (hg : g % 360 = 90 ∨ g % 360 = 180 ∨ g % 360 = 270) :
    (∀ i ∈ (Filtros.rotacionar_destinos w h c g).1, i < (Filtros.rotacionar_destinos w h c g).2) ∧
    (Filtros.rotacionar_destinos w h c g).1.Nodup ∧
    (Filtros.rotacionar_destinos w h c g).1.length = (Filtros.rotacionar_destinos w h c g).2 := by
  rcases hg with hg | hg | hg
  · rw [rotacionar_destinos_congr w h c g 90 (by rw [hg]; rfl), rotacionar_destinos_90]
    refine ⟨?_, ?_, ?_⟩
    · intro i hi
      obtain ⟨⟨y, x, k⟩, ht, rfl⟩ := List.mem_map.1 hi
      obtain ⟨hy, hx, hk⟩ := mem_triplos.1 ht
      exact idx_lt (w := h) (h := w) (x := h - 1 - y) hx (by omega) hk
    · refine List.Nodup.map_on ?_ (nodup_triplos h w c)
      rintro ⟨y1, x1, k1⟩ ha ⟨y2, x2, k2⟩ hb hab
      obtain ⟨ha1, -, ha3⟩ := mem_triplos.1 ha
      obtain ⟨hb1, -, hb3⟩ := mem_triplos.1 hb
      simp only [idx_rot90] at hab
      obtain ⟨e1, e2, e3⟩ := idx_inj (w := h) (by omega) (by omega) ha3 hb3 hab
      have e4 : y1 = y2 := by omega
      subst e1 e4 e3; rfl
    · simp only [List.length_map]
      rw [length_triplos]
      ring
  · rw [rotacionar_destinos_congr w h c g 180 (by rw [hg]; rfl), rotacionar_destinos_180]
    refine ⟨?_, ?_, ?_⟩
    · intro i hi
      obtain ⟨⟨y, x, k⟩, ht, rfl⟩ := List.mem_map.1 hi
      obtain ⟨hy, hx, hk⟩ := mem_triplos.1 ht
      exact idx_lt (y := h - 1 - y) (x := w - 1 - x) (by omega) (by omega) hk
    · refine List.Nodup.map_on ?_ (nodup_triplos h w c)
      rintro ⟨y1, x1, k1⟩ ha ⟨y2, x2, k2⟩ hb hab
      obtain ⟨ha1, ha2, ha3⟩ := mem_triplos.1 ha
      obtain ⟨hb1, hb2, hb3⟩ := mem_triplos.1 hb
      simp only [idx_rot180] at hab
      obtain ⟨e1, e2, e3⟩ := idx_inj (w := w) (by omega) (by omega) ha3 hb3 hab
      have e4 : y1 = y2 := by omega
      have e5 : x1 = x2 := by omega
      subst e4 e5 e3; rfl
    · simp only [List.length_map]
      rw [length_triplos]
      ring
  · rw [rotacionar_destinos_congr w h c g 270 (by rw [hg]; rfl), rotacionar_destinos_270]
    refine ⟨?_, ?_, ?_⟩
    · intro i hi
      obtain ⟨⟨y, x, k⟩, ht, rfl⟩ := List.mem_map.1 hi
      obtain ⟨hy, hx, hk⟩ := mem_triplos.1 ht
      exact idx_lt (w := h) (h := w) (y := w - 1 - x) (by omega) hy hk
    · refine List.Nodup.map_on ?_ (nodup_triplos h w c)
      rintro ⟨y1, x1, k1⟩ ha ⟨y2, x2, k2⟩ hb hab
      obtain ⟨ha1, ha2, ha3⟩ := mem_triplos.1 ha
      obtain ⟨hb1, hb2, hb3⟩ := mem_triplos.1 hb
      simp only [idx_rot270] at hab
      obtain ⟨e1, e2, e3⟩ := idx_inj (w := h) ha1 hb1 ha3 hb3 hab
      have e4 : x1 = x2 := by omega
      subst e2 e4 e3; rfl
    · simp only [List.length_map]
      rw [length_triplos]
      ring

/-! ## rotacionar: angles that are not multiples of 90 -/

/-- Claim C27, the failing run. For 45 degrees on a 2 x 1 frame with four channels,
`rotacionar` allocates a block of `2 * 1 * 4 = 8` bytes and takes the pixel map written for
270 degrees: the source pixel `(0, 0)` is stored at the positions 8 to 11, past the end of
the block, and the positions 4 to 7 of the second destination pixel are never written. In
the model, where a store outside the block is dropped, the second pixel of the result is
left as allocated. -/
theorem rotacionar_destinos_fora :
    Filtros.rotacionar_destinos 2 1 4 45 = ([8, 9, 10, 11, 0, 1, 2, 3], 8) ∧
    (∃ i ∈ (Filtros.rotacionar_destinos 2 1 4 45).1, (Filtros.rotacionar_destinos 2 1 4 45).2 ≤ i) ∧
    (∀ k, 4 ≤ k → k < 8 → k ∉ (Filtros.rotacionar_destinos 2 1 4 45).1) ∧
    Filtros.rotacionar frame_exemplo 2 1 4 45 = ([200, 210, 220, 255, 0, 0, 0, 0], 2, 1) := by
  refine ⟨by decide, ⟨8, by decide, by decide⟩, ?_, by decide⟩
  intro k h1 h2
  have e : Filtros.rotacionar_destinos 2 1 4 45 = ([8, 9, 10, 11, 0, 1, 2, 3], 8) := by decide
  rw [e]
  simp only [List.mem_cons, List.mem_singleton, List.not_mem_nil, or_false]
  omega

/-! ## rotacionar by 180 degrees and the two flips -/

/-- What `flip_h` leaves at channel `k` of the pixel `(x, y)`: channel `k` of the pixel
`(w - 1 - x, y)` of the input. -/
theorem flip_h_em (d : List Byte) (w h c : Nat) (hlen : w * h * c ≤ d.length)
    {y x k : Nat} (hy : y < h) (hx : x < w) (hk : k < c) :
    (Filtros.flip_h d w h c)[(y * w + x) * c + k]? = d[(y * w + (w - 1 - x)) * c + k]? := by
  have key := flip_h_getElem? d w h c hlen (y := y) (x := w - 1 - x) (k := k) hy (by omega) hk
  have e : w - 1 - (w - 1 - x) = x := by omega
  rw [e] at key
  exact key

/-- What `flip_v` leaves at channel `k` of the pixel `(x, y)`: channel `k` of the pixel
`(x, h - 1 - y)` of the input. -/
theorem flip_v_em (d : List Byte) (w h c : Nat) (hlen : w * h * c ≤ d.length)
    {y x k : Nat} (hy : y < h) (hx : x < w) (hk : k < c) :
    (Filtros.flip_v d w h c)[(y * w + x) * c + k]? = d[((h - 1 - y) * w + x) * c + k]? := by
  have hl : h * (w * c) ≤ d.length := by
    have : h * (w * c) = w * h * c := by ring
    omega
  have hi : x * c + k < w * c := mul_add_lt hx hk
  have key := flip_v_getElem? d w h c hl (y := h - 1 - y) (i := x * c + k) (by omega) hi
  have e : h - 1 - (h - 1 - y) = y := by omega
  rw [e] at key
  have e1 : y * (w * c) + (x * c + k) = (y * w + x) * c + k := by ring
  have e2 : (h - 1 - y) * (w * c) + (x * c + k) = ((h - 1 - y) * w + x) * c + k := by ring
  rw [e1, e2] at key
  exact key

/-- What `rotacionar` by 180 degrees leaves at channel `k` of the pixel `(x, y)`: channel
`k` of the pixel `(w - 1 - x, h - 1 - y)` of the input. -/
theorem rotacionar_180_em (d : List Byte) (w h c : Nat) {y x k : Nat}
    (hy : y < h) (hx : x < w) (hk : k < c) :
    (Filtros.rotacionar d w h c 180).1[(y * w + x) * c + k]?
      = some (ler_byte d (((h - 1 - y) * w + (w - 1 - x)) * c + k)) := by
  have key := rotacionar_180_getElem? d w h c (y := h - 1 - y) (x := w - 1 - x) (k := k)
    (by omega) (by omega) hk
  have e1 : h - 1 - (h - 1 - y) = y := by omega
  have e2 : w - 1 - (w - 1 - x) = x := by omega
  rw [e1, e2] at key
  exact key

/-- What `rotacionar` by 90 degrees leaves at channel `k` of the pixel in column `x` of row
`y` of the result (`x < h`, `y < w`): channel `k` of the pixel `(y, h - 1 - x)` of the
input. -/
theorem rotacionar_90_em (d : List Byte) (w h c : Nat) {y x k : Nat}
    (hy : y < w) (hx : x < h) (hk : k < c) :
    (Filtros.rotacionar d w h c 90).1[(y * h + x) * c + k]?
      = some (ler_byte d (((h - 1 - x) * w + y) * c + k)) := by
  have key := rotacionar_90_getElem? d w h c (y := h - 1 - x) (x := y) (k := k)
    (by omega) hy hk
  have e1 : h - 1 - (h - 1 - x) = x := by omega
  rw [e1] at key
  exact key

/-- The dimensions `rotacionar` returns for 90 degrees. -/
theorem rotacionar_90_dims (d : List Byte) (w h c : Nat) :
    (Filtros.rotacionar d w h c 90).2 = (h, w) := by
  rw [rotacionar_90_eq]

/-- The dimensions `rotacionar` returns for 180 degrees. -/
theorem rotacionar_180_dims (d : List Byte) (w h c : Nat) :
    (Filtros.rotacionar d w h c 180).2 = (w, h) := by
  rw [rotacionar_180_eq]

/-- Claim C30. Rotating by 180 degrees equals the two flips: on every `w x h` frame with `c`
channels the block `rotacionar` returns for 180 degrees is byte for byte `flip_h` followed
by `flip_v`, and also `flip_v` followed by `flip_h`, with the width and the height
unchanged; hence rotating by 180 degrees twice gives the frame back, and rotating by 90
degrees twice gives the rotation by 180 degrees. -/
theorem rotacionar_180_flips (d : List Byte) (w h c : Nat) (hlen : d.length = w * h * c) :
    Filtros.rotacionar d w h c 180
      = (Filtros.flip_v (Filtros.flip_h d w h c) w h c, w, h) ∧
    Filtros.rotacionar d w h c 180
      = (Filtros.flip_h (Filtros.flip_v d w h c) w h c, w, h) ∧
    Filtros.rotacionar (Filtros.rotacionar d w h c 180).1 (Filtros.rotacionar d w h c 180).2.1
        (Filtros.rotacionar d w h c 180).2.2 c 180 = (d, w, h) ∧
    Filtros.rotacionar (Filtros.rotacionar d w h c 90).1 (Filtros.rotacionar d w h c 90).2.1
        (Filtros.rotacionar d w h c 90).2.2 c 90 = Filtros.rotacionar d w h c 180 := by
  have hvl : h * (w * c) ≤ d.length := by
    have : h * (w * c) = w * h * c := by ring
    omega
  have hlh : (Filtros.flip_h d w h c).length = w * h * c := by rw [length_flip_h, hlen]
  have hlv : (Filtros.flip_v d w h c).length = w * h * c := by
    rw [length_flip_v d w h c hvl, hlen]
  refine ⟨?_, ?_, ?_, ?_⟩
  · refine Prod.ext ?_ (rotacionar_180_dims d w h c)
    apply List.ext_getElem?
    intro n
    by_cases hn : n < w * h * c
    · obtain ⟨y, x, k, hy, hx, hk, rfl⟩ := exists_idx hn
      rw [rotacionar_180_em d w h c hy hx hk,
        flip_v_em _ w h c (by rw [hlh]) hy hx hk,
        flip_h_em d w h c (by rw [hlen]) (y := h - 1 - y) (by omega) hx hk]
      have hb := idx_lt (w := w) (h := h) (c := c) (y := h - 1 - y) (x := w - 1 - x) (k := k)
        (by omega) (by omega) hk
      exact (getElem?_eq_ler_byte (by rw [hlen]; exact hb)).symm
    · rw [List.getElem?_eq_none (by rw [length_rotacionar_180]; omega),
        List.getElem?_eq_none (by
          rw [length_flip_v _ w h c (by rw [hlh]; exact le_of_eq (by ring)), hlh]; omega)]
  · refine Prod.ext ?_ (rotacionar_180_dims d w h c)
    apply List.ext_getElem?
    intro n
    by_cases hn : n < w * h * c
    · obtain ⟨y, x, k, hy, hx, hk, rfl⟩ := exists_idx hn
      rw [rotacionar_180_em d w h c hy hx hk,
        flip_h_em _ w h c (by rw [hlv]) hy hx hk,
        flip_v_em d w h c (by rw [hlen]) hy (x := w - 1 - x) (by omega) hk]
      have hb := idx_lt (w := w) (h := h) (c := c) (y := h - 1 - y) (x := w - 1 - x) (k := k)
        (by omega) (by omega) hk
      exact (getElem?_eq_ler_byte (by rw [hlen]; exact hb)).symm
    · rw [List.getElem?_eq_none (by rw [length_rotacionar_180]; omega),
        List.getElem?_eq_none (by rw [length_flip_h, hlv]; omega)]
  · rw [rotacionar_180_dims]
    simp only
    refine Prod.ext ?_ (rotacionar_180_dims _ w h c)
    apply List.ext_getElem?
    intro n
    by_cases hn : n < w * h * c
    · obtain ⟨y, x, k, hy, hx, hk, rfl⟩ := exists_idx hn
      rw [rotacionar_180_em _ w h c hy hx hk]
      have h2 := rotacionar_180_em d w h c (y := h - 1 - y) (x := w - 1 - x) (k := k)
        (by omega) (by omega) hk
      have e1 : h - 1 - (h - 1 - y) = y := by omega
      have e2 : w - 1 - (w - 1 - x) = x := by omega
      rw [e1, e2] at h2
      rw [ler_byte_eq, h2]
      simp only [Option.getD_some]
      exact (getElem?_eq_ler_byte (by rw [hlen]; exact hn)).symm
    · rw [List.getElem?_eq_none (by rw [length_rotacionar_180]; omega),
        List.getElem?_eq_none (by rw [hlen]; omega)]
  · rw [rotacionar_90_dims]
    simp only
    refine Prod.ext ?_ ?_
    · apply List.ext_getElem?
      intro n
      by_cases hn : n < w * h * c
      · obtain ⟨y, x, k, hy, hx, hk, rfl⟩ := exists_idx hn
        rw [rotacionar_90_em _ h w c (y := y) (x := x) (k := k) hy hx hk,
          rotacionar_180_em d w h c hy hx hk]
        have h2 := rotacionar_90_em d w h c (y := w - 1 - x) (x := y) (k := k)
          (by omega) hy hk
        rw [ler_byte_eq, h2]
        rfl
      · rw [List.getElem?_eq_none (by rw [length_rotacionar_90]; omega),
          List.getElem?_eq_none (by rw [length_rotacionar_180]; omega)]
    · rw [rotacionar_90_dims, rotacionar_180_dims]

/-- Witness of C30: a 3 x 2 frame with one channel. -/
theorem rotacionar_180_flips_witness :
    ([1, 2, 3, 4, 5, 6] : List Byte).length = 3 * 2 * 1 ∧
    Filtros.rotacionar [1, 2, 3, 4, 5, 6] 3 2 1 180 = ([6, 5, 4, 3, 2, 1], 3, 2) ∧
    (Filtros.rotacionar [1, 2, 3, 4, 5, 6] 3 2 1 180
      = (Filtros.flip_v (Filtros.flip_h [1, 2, 3, 4, 5, 6] 3 2 1) 3 2 1, 3, 2) ∧
    Filtros.rotacionar [1, 2, 3, 4, 5, 6] 3 2 1 180
      = (Filtros.flip_h (Filtros.flip_v [1, 2, 3, 4, 5, 6] 3 2 1) 3 2 1, 3, 2) ∧
    Filtros.rotacionar (Filtros.rotacionar [1, 2, 3, 4, 5, 6] 3 2 1 180).1
        (Filtros.rotacionar [1, 2, 3, 4, 5, 6] 3 2 1 180).2.1
        (Filtros.rotacionar [1, 2, 3, 4, 5, 6] 3 2 1 180).2.2 1 180
      = ([1, 2, 3, 4, 5, 6], 3, 2) ∧
    Filtros.rotacionar (Filtros.rotacionar [1, 2, 3, 4, 5, 6] 3 2 1 90).1
        (Filtros.rotacionar [1, 2, 3, 4, 5, 6] 3 2 1 90).2.1
        (Filtros.rotacionar [1, 2, 3, 4, 5, 6] 3 2 1 90).2.2 1 90
      = Filtros.rotacionar [1, 2, 3, 4, 5, 6] 3 2 1 180) :=
  ⟨by decide, by decide, rotacionar_180_flips [1, 2, 3, 4, 5, 6] 3 2 1 (by decide)⟩

/-! ## The colour filters keep alpha and the shape of the frame -/

/-- A colour loop leaves alone every channel past the third. -/
theorem getElem?_foldl_pixel_rgb_resto (v : Byte → Byte → Byte → Byte × Byte × Byte) (c : Nat)
    (ts : List Nat) (d : List Byte) {i j : Nat} (hj : 3 ≤ j) (hjc : j < c) :
    (ts.foldl (pixel_rgb v c) d)[i * c + j]? = d[i * c + j]? := by
  apply getElem?_foldl_pixel_rgb_of_ne
  intro t _
  refine ⟨?_, ?_, ?_⟩
  · intro e
    have := (mul_add_inj (c := c) (by omega) hjc e).2
    omega
  · intro e
    have := (mul_add_inj (c := c) (by omega) hjc e).2
    omega
  · intro e
    have := (mul_add_inj (c := c) (by omega) hjc e).2
    omega

/-- With at least three channels, the loop of `sepia` is the colour loop that stores the
three clamped sepia values. -/
theorem sepia_eq_foldl {F : Type} (ops : FloatOps F) (d : List Byte) (w h c : Nat)
    (hc : 3 ≤ c) :
    Filtros.sepia ops d w h c = (List.range (w * h)).foldl (pixel_rgb (sepia_rgb ops) c) d := by
  unfold Filtros.sepia
  rw [if_neg (by omega)]
  rfl

/-- With at least three channels, the loop of `saturacao` is the colour loop that stores the
three clamped saturated values. -/
theorem saturacao_eq_foldl {F : Type} (ops : FloatOps F) (d : List Byte) (w h c : Nat)
    (valor : F) (hc : 3 ≤ c) :
    Filtros.saturacao ops d w h c valor
      = (List.range (w * h)).foldl (pixel_rgb (saturacao_rgb ops valor) c) d := by
  unfold Filtros.saturacao
  rw [if_neg (by omega)]
  rfl

/-- The loop nest of `contraste` is one loop over the pairs (pixel, colour channel). -/
theorem contraste_eq_foldl {F : Type} (ops : FloatOps F) (d : List Byte) (w h c : Nat)
    (valor : F) :
    Filtros.contraste ops d w h c valor
      = (List.product (List.range (w * h)) (List.range 3)).foldl
          (fun d t => d.set (t.1 * c + t.2)
            (clamp_byte (ops.contraste_px valor (ler_byte d (t.1 * c + t.2))))) d := by
  rw [foldl_product]
  rfl

/-- The filter `cinza` keeps the size of the block. -/
theorem length_cinza {F : Type} (ops : FloatOps F) (d : List Byte) (w h c : Nat) :
    (Filtros.cinza ops d w h c).length = d.length := by
  by_cases hc : 3 ≤ c
  · rw [cinza_eq_foldl ops d w h c hc, length_foldl_pixel_rgb]
  · unfold Filtros.cinza
    rw [if_pos (by omega)]

/-- The filter `limiar` keeps the size of the block. -/
theorem length_limiar {F : Type} (ops : FloatOps F) (d : List Byte) (w h c : Nat) (valor : Int) :
    (Filtros.limiar ops d w h c valor).length = d.length := by
  by_cases hc : 3 ≤ c
  · rw [limiar_eq_foldl ops d w h c valor hc, length_foldl_pixel_rgb]
  · unfold Filtros.limiar
    rw [if_pos (by omega)]

/-- The filter `sepia` keeps the size of the block. -/
theorem length_sepia {F : Type} (ops : FloatOps F) (d : List Byte) (w h c : Nat) :
    (Filtros.sepia ops d w h c).length = d.length := by
  by_cases hc : 3 ≤ c
  · rw [sepia_eq_foldl ops d w h c hc, length_foldl_pixel_rgb]
  · unfold Filtros.sepia
    rw [if_pos (by omega)]

/-- The filter `saturacao` keeps the size of the block. -/
theorem length_saturacao {F : Type} (ops : FloatOps F) (d : List Byte) (w h c : Nat)
    (valor : F) : (Filtros.saturacao ops d w h c valor).length = d.length := by
  by_cases hc : 3 ≤ c
  · rw [saturacao_eq_foldl ops d w h c valor hc, length_foldl_pixel_rgb]
  · unfold Filtros.saturacao
    rw [if_pos (by omega)]

/-- The filter `contraste` keeps the size of the block. -/
theorem length_contraste {F : Type} (ops : FloatOps F) (d : List Byte) (w h c : Nat)
    (valor : F) : (Filtros.contraste ops d w h c valor).length = d.length := by
  rw [contraste_eq_foldl]
  exact length_foldl_canal c (fun b => clamp_byte (ops.contraste_px valor b)) _ d

/-- Every in-place filter keeps the size of a block that holds a whole `w x h` frame. -/
theorem length_filtro_manual {F : Type} (ops : FloatOps F) (w h c : Nat) (f : ConfigFiltro F)
    (d : List Byte) (hlen : w * h * c ≤ d.length) :
    (filtro_manual ops w h c f d).length = d.length := by
  unfold filtro_manual
  cases f.tipo with
  | CINZA => exact length_cinza ops d w h c
  | INVERTER => exact length_inverter d w h c
  | BRILHO => exact length_brilho d w h c _
  | CONTRASTE => exact length_contraste ops d w h c _
  | LIMIAR => exact length_limiar ops d w h c _
  | BLUR => exact length_blur d w h c _
  | BORDAS => exact length_bordas ops d w h c
  | SEPIA => exact length_sepia ops d w h c
  | SATURACAO => exact length_saturacao ops d w h c _
  | FLIP_H => exact length_flip_h d w h c
  | FLIP_V =>
    exact length_flip_v d w h c (by
      have : h * (w * c) = w * h * c := by ring
      omega)
  | NENHUM => rfl
  | ROTACIONAR => rfl
  | REDIMENSIONAR => rfl
  | LIMIAR_FILTRO => rfl

/-- Claim C29. Colour filters never touch alpha or the frame shape: on every four-channel
frame of `w * h * 4` bytes and for every parameter value, each of `cinza`, `inverter`,
`brilho`, `contraste`, `limiar`, `blur`, `bordas`, `sepia` and `saturacao` returns a block
of the same `w * h * 4` bytes in which every alpha byte (position `4 * i + 3`) is the one of
the input; and every in-place stage of a chain keeps the width, the height and the
invariant that the block has `width * height * 4` bytes. -/
theorem filtros_cor_preservam_alfa {F : Type} (ops : FloatOps F) (d : List Byte) (w h : Nat)
    (hlen : d.length = w * h * 4) (vb vl vr : Int) (vc vs : F) :
    (∀ saida ∈ [Filtros.cinza ops d w h 4, Filtros.inverter d w h 4,
        Filtros.brilho d w h 4 vb, Filtros.contraste ops d w h 4 vc,
        Filtros.limiar ops d w h 4 vl, Filtros.blur d w h 4 vr, Filtros.bordas ops d w h 4,
        Filtros.sepia ops d w h 4, Filtros.saturacao ops d w h 4 vs],
      saida.length = w * h * 4 ∧ ∀ i, saida[4 * i + 3]? = d[4 * i + 3]?) ∧
    (∀ (st : Frame) (f : ConfigFiltro F), f.tipo.no_lugar = true →
      st.dados.length = st.largura.toNat * st.altura.toNat * 4 →
      (aplicar_filtro ops 4 st f).largura = st.largura ∧
      (aplicar_filtro ops 4 st f).altura = st.altura ∧
      (aplicar_filtro ops 4 st f).dados.length
        = (aplicar_filtro ops 4 st f).largura.toNat
            * (aplicar_filtro ops 4 st f).altura.toNat * 4) := by
  constructor
  · intro saida hs
    simp only [List.mem_cons, List.mem_singleton, List.not_mem_nil, or_false] at hs
    rcases hs with rfl | rfl | rfl | rfl | rfl | rfl | rfl | rfl | rfl
    · refine ⟨by rw [length_cinza, hlen], fun i => ?_⟩
      rw [Nat.mul_comm 4 i, cinza_eq_foldl ops d w h 4 (by omega)]
      exact getElem?_foldl_pixel_rgb_resto _ 4 _ d (by omega) (by omega)
    · refine ⟨by rw [length_inverter, hlen], fun i => ?_⟩
      rw [Nat.mul_comm 4 i]
      exact inverter_getElem?_resto d w h 4 (by omega) (by omega)
    · refine ⟨by rw [length_brilho, hlen], fun i => ?_⟩
      rw [Nat.mul_comm 4 i]
      exact brilho_getElem?_resto d w h 4 vb (by omega) (by omega)
    · refine ⟨by rw [length_contraste, hlen], fun i => ?_⟩
      rw [Nat.mul_comm 4 i, contraste_eq_foldl]
      exact getElem?_foldl_canal_resto 4 (fun b => clamp_byte (ops.contraste_px vc b)) _ d
        (by omega) (by omega)
    · refine ⟨by rw [length_limiar, hlen], fun i => ?_⟩
      rw [Nat.mul_comm 4 i, limiar_eq_foldl ops d w h 4 vl (by omega)]
      exact getElem?_foldl_pixel_rgb_resto _ 4 _ d (by omega) (by omega)
    · refine ⟨by rw [length_blur, hlen], fun i => ?_⟩
      rw [Nat.mul_comm 4 i]
      exact blur_getElem?_resto d w h 4 vr (by omega) (by omega)
    · refine ⟨by rw [length_bordas, hlen], fun i => ?_⟩
      rw [Nat.mul_comm 4 i]
      exact bordas_getElem?_resto ops d w h 4 (by omega) (by omega)
    · refine ⟨by rw [length_sepia, hlen], fun i => ?_⟩
      rw [Nat.mul_comm 4 i, sepia_eq_foldl ops d w h 4 (by omega)]
      exact getElem?_foldl_pixel_rgb_resto _ 4 _ d (by omega) (by omega)
    · refine ⟨by rw [length_saturacao, hlen], fun i => ?_⟩
      rw [Nat.mul_comm 4 i, saturacao_eq_foldl ops d w h 4 vs (by omega)]
      exact getElem?_foldl_pixel_rgb_resto _ 4 _ d (by omega) (by omega)
  · intro st f hf hst
    rw [aplicar_filtro_no_lugar ops 4 st f hf]
    refine ⟨rfl, rfl, ?_⟩
    simp only
    rw [length_filtro_manual ops _ _ 4 f st.dados (by omega), hst]

/-- Witness of C29: the 2 x 2 RGBA frame `frame_uniforme`, whose four alpha bytes differ. -/
theorem filtros_cor_preservam_alfa_witness :
    frame_uniforme.length = 2 * 2 * 4 ∧
    Filtros.brilho frame_uniforme 2 2 4 10
      = [15, 16, 17, 1, 15, 16, 17, 2, 15, 16, 17, 3, 15, 16, 17, 4] ∧
    ((∀ saida ∈ [Filtros.cinza ops_exemplo frame_uniforme 2 2 4,
        Filtros.inverter frame_uniforme 2 2 4, Filtros.brilho frame_uniforme 2 2 4 10,
        Filtros.contraste ops_exemplo frame_uniforme 2 2 4 2,
        Filtros.limiar ops_exemplo frame_uniforme 2 2 4 128, Filtros.blur frame_uniforme 2 2 4 1,
        Filtros.bordas ops_exemplo frame_uniforme 2 2 4, Filtros.sepia ops_exemplo frame_uniforme 2 2 4,
        Filtros.saturacao ops_exemplo frame_uniforme 2 2 4 2],
      saida.length = 2 * 2 * 4 ∧ ∀ i, saida[4 * i + 3]? = frame_uniforme[4 * i + 3]?) ∧
    (∀ (st : Frame) (f : ConfigFiltro Int), f.tipo.no_lugar = true →
      st.dados.length = st.largura.toNat * st.altura.toNat * 4 →
      (aplicar_filtro ops_exemplo 4 st f).largura = st.largura ∧
      (aplicar_filtro ops_exemplo 4 st f).altura = st.altura ∧
      (aplicar_filtro ops_exemplo 4 st f).dados.length
        = (aplicar_filtro ops_exemplo 4 st f).largura.toNat
            * (aplicar_filtro ops_exemplo 4 st f).altura.toNat * 4)) :=
  ⟨by decide, by decide,
    filtros_cor_preservam_alfa ops_exemplo frame_uniforme 2 2 (by decide) 10 128 1 2 2⟩

/-! ## Sources that share a camera session -/

/-- After `fechar` the session is closed. -/
theorem sessao_fechada_fechar (g : GerenciadorCameras) (id : Int) :
    (g.fechar id).SessaoFechada id := by
  unfold GerenciadorCameras.SessaoFechada GerenciadorCameras.fechar
  by_cases h0 : id < 0
  · exact Or.inl h0
  · right
    by_cases h1 : id ≥ (g.cameras.length : Int)
    · rw [if_pos (Or.inr h1), List.getD_eq_getElem?_getD, List.getElem?_eq_none (by omega)]
      rfl
    · rw [if_neg (by omega)]
      simp only
      rw [List.getD_eq_getElem?_getD, List.getElem?_set_self (by omega)]
      rfl

/-- Storing a camera at a position that holds one keeps every closed session closed. -/
theorem sessao_fechada_set (g : GerenciadorCameras) (id : Int) (hf : g.SessaoFechada id)
    (n : Nat) (cam0 cam : Camera) (hn : g.cameras.getD n none = some cam0) :
    GerenciadorCameras.SessaoFechada { g with cameras := g.cameras.set n (some cam) } id := by
  rcases hf with h0 | h1
  · exact Or.inl h0
  · right
    have hne : n ≠ id.toNat := by
      intro e
      rw [e, h1] at hn
      cases hn
    simp only
    rw [List.getD_eq_getElem?_getD, List.getElem?_set_ne hne, ← List.getD_eq_getElem?_getD]
    exact h1

/-- A delivery keeps every closed session closed. -/
theorem sessao_fechada_entregar (g : GerenciadorCameras) (id : Int) (hf : g.SessaoFechada id)
    (e : Int × List Byte) : (g.entregar e).SessaoFechada id := by
  unfold GerenciadorCameras.entregar
  split
  · exact hf
  · split
    · exact hf
    · rename_i cam hcam
      split
      · exact hf
      · exact sessao_fechada_set g id hf _ cam _ hcam

/-- A run of deliveries keeps every closed session closed. -/
theorem sessao_fechada_entregas (id : Int) (es : List (Int × List Byte)) :
    ∀ g : GerenciadorCameras, g.SessaoFechada id →
      (es.foldl GerenciadorCameras.entregar g).SessaoFechada id := by
  induction es with
  | nil => intro g hf; exact hf
  | cons e es ih => intro g hf; exact ih _ (sessao_fechada_entregar g id hf e)

/-- A read on any session keeps every closed session closed. -/
theorem sessao_fechada_ler (g : GerenciadorCameras) (id : Int) (hf : g.SessaoFechada id)
    (id2 : Int) : (g.ler id2).2.SessaoFechada id := by
  unfold GerenciadorCameras.ler
  split
  · exact hf
  · split
    · exact hf
    · rename_i cam hcam
      split
      · exact hf
      · split
        · exact hf
        · exact sessao_fechada_set g id hf _ cam _ hcam

/-- A read on a closed session returns nothing and leaves the registry as it is. -/
theorem ler_sessao_fechada (g : GerenciadorCameras) (id : Int) (hf : g.SessaoFechada id) :
    g.ler id = (none, g) := by
  unfold GerenciadorCameras.ler
  split
  · rfl
  · rename_i hr
    rcases hf with h0 | h1
    · exact absurd (Or.inl h0) hr
    · rw [h1]

/-- Closing a closed session leaves the registry as it is. -/
theorem fechar_sessao_fechada (g : GerenciadorCameras) (id : Int) (hf : g.SessaoFechada id) :
    g.fechar id = g := by
  unfold GerenciadorCameras.fechar
  split
  · rfl
  · rename_i hr
    rcases hf with h0 | h1
    · exact absurd (Or.inl h0) hr
    · have hlt : id.toNat < g.cameras.length := by omega
      have e : g.cameras.set id.toNat none = g.cameras := by
        apply List.ext_getElem?
        intro n
        by_cases hn : id.toNat = n
        · subst hn
          rw [List.getElem?_set_self hlt]
          rw [List.getD_eq_getElem?_getD, List.getElem?_eq_getElem hlt] at h1
          rw [List.getElem?_eq_getElem hlt]
          simp only [Option.getD_some] at h1
          rw [h1]
        · rw [List.getElem?_set_ne hn]
      rw [e]

/-- The filter stage hands the camera registry on. -/
theorem filtrar_captura_cameras {F : Type} (ops : FloatOps F) (fonte : Fonte F)
    (c : ResultadoCaptura) : (filtrar_captura ops fonte c).cameras = c.cameras := by
  unfold filtrar_captura
  split
  · split <;> rfl
  · rfl

/-- For a valid camera source `capturar_frame` reads the session at the stored index and
runs the filter chain on what the read returned. -/
theorem capturar_frame_camera {F : Type} (ops : FloatOps F) (amb : Ambiente)
    (cams : GerenciadorCameras) (fonte : Fonte F) (l0 a0 : Int)
    (ht : fonte.tipo = TipoFonte.CAMERA) (hv : fonte.valida = true) :
    capturar_frame ops amb cams (some fonte) l0 a0
      = filtrar_captura ops fonte
          (match (cams.ler fonte.indice).1 with
           | some fr => ⟨some fr.dados, fr.largura, fr.altura, (cams.ler fonte.indice).2⟩
           | none => ⟨none, l0, a0, (cams.ler fonte.indice).2⟩) := by
  unfold capturar_frame filtrar_captura
  simp only [hv, ht, Bool.not_true, Bool.false_eq_true, if_false]
  cases (cams.ler fonte.indice).1 <;> rfl

/-- A capture from a camera source whose session is closed returns no frame and leaves the
camera registry as it is. -/
theorem capturar_frame_sessao_fechada {F : Type} (ops : FloatOps F) (amb : Ambiente)
    (cams : GerenciadorCameras) (fonte : Fonte F) (l0 a0 : Int)
    (ht : fonte.tipo = TipoFonte.CAMERA) (hf : cams.SessaoFechada fonte.indice) :
    (capturar_frame ops amb cams (some fonte) l0 a0).dados = none ∧
    (capturar_frame ops amb cams (some fonte) l0 a0).cameras = cams := by
  by_cases hv : fonte.valida = true
  · rw [capturar_frame_camera ops amb cams fonte l0 a0 ht hv,
      ler_sessao_fechada cams fonte.indice hf]
    exact ⟨rfl, rfl⟩
  · unfold capturar_frame
    simp [hv]

/-- A capture from any source keeps every closed session closed. -/
theorem sessao_fechada_capturar_frame {F : Type} (ops : FloatOps F) (amb : Ambiente)
    (cams : GerenciadorCameras) (fonte : Option (Fonte F)) (l0 a0 : Int) (id : Int)
    (hf : cams.SessaoFechada id) :
    (capturar_frame ops amb cams fonte l0 a0).cameras.SessaoFechada id := by
  cases fonte with
  | none => exact hf
  | some fonte =>
    by_cases ht : fonte.tipo = TipoFonte.CAMERA
    · by_cases hv : fonte.valida = true
      · rw [capturar_frame_camera ops amb cams fonte l0 a0 ht hv, filtrar_captura_cameras]
        have hl := sessao_fechada_ler cams id hf fonte.indice
        cases (cams.ler fonte.indice).1 <;> exact hl
      · have e : capturar_frame ops amb cams (some fonte) l0 a0 = ⟨none, l0, a0, cams⟩ := by
          unfold capturar_frame
          simp [hv]
        rw [e]
        exact hf
    · rw [capturar_frame_cameras ops amb cams fonte l0 a0 ht]
      exact hf

/-- A capture inside the process keeps every closed session closed, and from a camera
source whose session is closed it returns no frame. -/
theorem capturar_sessao_fechada {F : Type} (ops : FloatOps F) (ext : Exterior)
    (q : Processo F) (fonte2 : Option (Fonte F)) (l0 a0 : Int) (id : Int)
    (hf : q.cameras.SessaoFechada id) :
    (q.capturar ops ext fonte2 l0 a0).2.cameras.SessaoFechada id ∧
    (q.capturar ops ext fonte2 l0 a0).2.fontes = q.fontes ∧
    ∀ fonte : Fonte F, fonte2 = some fonte → fonte.tipo = TipoFonte.CAMERA →
      fonte.indice = id → (q.capturar ops ext fonte2 l0 a0).1.dados = none := by
  have hd := sessao_fechada_entregas id (ext.entregas q.capturas) q.cameras hf
  refine ⟨?_, rfl, ?_⟩
  · exact sessao_fechada_capturar_frame ops _ _ fonte2 l0 a0 id hd
  · intro fonte e ht hi
    subst e
    subst hi
    exact (capturar_frame_sessao_fechada ops _ _ fonte l0 a0 ht hd).1

/-- The first loop of `cvn_reproduzir` leaves the source registry as it is. -/
theorem esperar_primeiro_frame_fontes {F : Type} (ops : FloatOps F) (ext : Exterior)
    (fonte : Fonte F) (m : Nat) :
    ∀ (p : Processo F) (l a : Int),
      (esperar_primeiro_frame ops ext fonte m p l a).p.fontes = p.fontes := by
  induction m with
  | zero => intro p l a; rfl
  | succ m ih =>
    intro p l a
    simp only [esperar_primeiro_frame]
    split
    · rfl
    · rw [ih]
      rfl

/-- The playback loop leaves the source registry as it is. -/
theorem laco_exibicao_fontes {F : Type} (ops : FloatOps F) (ext : Exterior) (titulo : String)
    (fonte : Fonte F) (ms : Int) (fuel : Nat) :
    ∀ (p : Processo F) (l a : Int) (pe : Processo F),
      laco_exibicao ops ext titulo fonte ms fuel p l a = some pe → pe.fontes = p.fontes := by
  induction fuel with
  | zero => intro p l a pe h; simp [laco_exibicao] at h
  | succ fuel ih =>
    intro p l a pe h
    simp only [laco_exibicao] at h
    split at h
    · simp only [Option.some.injEq] at h
      subst h
      rfl
    · rw [ih _ _ _ pe h]
      simp only [Processo.dormir]
      split <;> rfl

/-- When `cvn_reproduzir` returns `true`, the source registry is the one before the call
and, for a camera source, the session at the index of the source is closed. -/
theorem cvn_reproduzir_verdadeiro {F : Type} (ops : FloatOps F) (ext : Exterior) (fuel : Nat)
    (q : Processo F) (titulo : String) (fonte_id ms : Int) (fonte : Fonte F)
    (hq : q.fontes.obter fonte_id = some fonte) (p2 : Processo F)
    (hr : cvn_reproduzir ops ext fuel q titulo fonte_id ms = some (true, p2)) :
    p2.fontes = q.fontes ∧
    (fonte.tipo = TipoFonte.CAMERA → p2.cameras.SessaoFechada fonte.indice) := by
  unfold cvn_reproduzir at hr
  rw [hq] at hr
  simp only at hr
  split at hr
  · simp at hr
  · split at hr
    · simp at hr
    · rename_i dados hdados
      split at hr
      · simp at hr
      · rename_i pe hpe
        have hfontes : pe.fontes = q.fontes := by
          rw [laco_exibicao_fontes ops ext titulo fonte ms fuel _ _ _ pe hpe]
          simp only [Processo.atualizar]
          exact esperar_primeiro_frame_fontes ops ext fonte 100 q 0 0
        split at hr
        · simp only [Option.some.injEq, Prod.mk.injEq, true_and] at hr
          subst hr
          exact ⟨hfontes, fun _ => sessao_fechada_fechar _ _⟩
        · rename_i hnc
          simp only [Option.some.injEq, Prod.mk.injEq, true_and] at hr
          subst hr
          exact ⟨hfontes, fun ht => absurd ht hnc⟩

/-- The method `liberar` does not change what any other id resolves to. -/
theorem obter_liberar_outro {F : Type} (g : GerenciadorFontes F) (id j : Int) (hne : id ≠ j) :
    (g.liberar id).obter j = g.obter j := by
  unfold GerenciadorFontes.liberar
  split
  · rfl
  · rename_i hr
    unfold GerenciadorFontes.obter
    simp only [List.length_set]
    split
    · rfl
    · rename_i hj
      have hn : id.toNat ≠ j.toNat := by omega
      rw [List.getD_eq_getElem?_getD, List.getElem?_set_ne hn, ← List.getD_eq_getElem?_getD]

/-- Successive `clonar_com_filtro` calls do not change what a previously issued id
resolves to. -/
theorem obter_clonar_em_cadeia_antigo {F : Type} (specs : List (ConfigFiltro F)) :
    ∀ (g : GerenciadorFontes F) (id j : Int), j < (g.fontes.length : Int) →
      (g.clonar_em_cadeia id specs).2.obter j = g.obter j := by
  induction specs with
  | nil => intro g id j _; rfl
  | cons cf resto ih =>
    intro g id j hj
    simp only [GerenciadorFontes.clonar_em_cadeia]
    have hlen : (g.fontes.length : Int)
        ≤ ((g.clonar_com_filtro id cf.tipo cf.valor1 cf.valor2).2.fontes.length : Int) := by
      unfold GerenciadorFontes.clonar_com_filtro
      cases g.obter id with
      | none => exact le_refl _
      | some f =>
        simp only [GerenciadorFontes.criar, List.length_append, List.length_singleton]
        omega
    rw [ih _ _ j (by omega)]
    exact obter_clonar_com_filtro g id cf.tipo cf.valor1 cf.valor2 j hj

/-- Starting from a live id, at least one `clonar_com_filtro` call ends at an id that was
not issued before. -/
theorem clonar_em_cadeia_novo {F : Type} (specs : List (ConfigFiltro F)) :
    ∀ (g : GerenciadorFontes F) (S : Int) (fonte : Fonte F), g.obter S = some fonte →
      specs ≠ [] → (g.fontes.length : Int) ≤ (g.clonar_em_cadeia S specs).1 := by
  induction specs with
  | nil => intro g S fonte _ h; exact absurd rfl h
  | cons cf resto ih =>
    intro g S fonte hS _
    simp only [GerenciadorFontes.clonar_em_cadeia]
    rw [clonar_com_filtro_eq g S fonte hS]
    simp only
    by_cases hr : resto = []
    · subst hr
      exact le_refl _
    · have := ih { g with fontes := g.fontes ++
          [some { fonte with filtros := fonte.filtros ++ [⟨cf.tipo, cf.valor1, cf.valor2⟩] }] }
        (g.fontes.length : Int) _ (obter_append_length g _) hr
      simp only [List.length_append, List.length_singleton] at this
      omega

/-- Claim C28. Sources derived with a filter share one camera session: for every camera
source `S` of a registry and every handle `S'` obtained from `S` by any number of
`clonar_com_filtro` calls, `S'` resolves to a camera source with the session index of `S`,
and `S` still resolves to its source; when `cvn_reproduzir` on `S'` returns `true` (it left
the playback loop), and also after `cvn_camera_fechar` on a handle `S'` other than `S`, the
source `S` is still in the registry and its session is closed; once the session is closed
it stays closed under deliveries and captures from any source, every capture from `S`
returns no frame, and closing it again, by `fechar` or by `cvn_camera_fechar` on `S`,
leaves the camera registry as it is. -/
theorem fontes_derivadas_partilham_sessao {F : Type} (ops : FloatOps F)
    (g : GerenciadorFontes F) (S : Int) (fonte : Fonte F) (hS : g.obter S = some fonte)
    (ht : fonte.tipo = TipoFonte.CAMERA) (_hv : fonte.valida = true)
    (specs : List (ConfigFiltro F)) :
    (∃ derivada : Fonte F,
      (g.clonar_em_cadeia S specs).2.obter (g.clonar_em_cadeia S specs).1 = some derivada ∧
      derivada.indice = fonte.indice ∧ derivada.tipo = TipoFonte.CAMERA) ∧
    (g.clonar_em_cadeia S specs).2.obter S = some fonte ∧
    (∀ (ext : Exterior) (fuel : Nat) (titulo : String) (ms : Int) (q p2 : Processo F),
      q.fontes = (g.clonar_em_cadeia S specs).2 →
      cvn_reproduzir ops ext fuel q titulo (g.clonar_em_cadeia S specs).1 ms = some (true, p2) →
      p2.fontes.obter S = some fonte ∧ p2.cameras.SessaoFechada fonte.indice) ∧
    (specs ≠ [] → ∀ q : Processo F, q.fontes = (g.clonar_em_cadeia S specs).2 →
      (cvn_camera_fechar q (g.clonar_em_cadeia S specs).1).2.fontes.obter S = some fonte ∧
      (cvn_camera_fechar q (g.clonar_em_cadeia S specs).1).2.cameras.SessaoFechada
        fonte.indice) ∧
    (∀ q : Processo F, q.cameras.SessaoFechada fonte.indice →
      (∀ (ext : Exterior) (fonte2 : Option (Fonte F)) (l a : Int),
        (q.capturar ops ext fonte2 l a).2.cameras.SessaoFechada fonte.indice ∧
        (q.capturar ops ext fonte2 l a).2.fontes = q.fontes) ∧
      (∀ (ext : Exterior) (l a : Int), (q.capturar ops ext (some fonte) l a).1.dados = none) ∧
      q.cameras.fechar fonte.indice = q.cameras ∧
      (q.fontes.obter S = some fonte → (cvn_camera_fechar q S).2.cameras = q.cameras)) := by
  have hder := obter_clonar_em_cadeia specs g S fonte hS
  have hant := obter_clonar_em_cadeia_antigo specs g S S (obter_some_lt g S fonte hS).2
  rw [hS] at hant
  refine ⟨⟨_, hder, rfl, ht⟩, hant, ?_, ?_, ?_⟩
  · intro ext fuel titulo ms q p2 hq hr
    have hq2 : q.fontes.obter (g.clonar_em_cadeia S specs).1
        = some { fonte with filtros := fonte.filtros ++ specs } := by rw [hq]; exact hder
    obtain ⟨h1, h2⟩ := cvn_reproduzir_verdadeiro ops ext fuel q titulo _ ms _ hq2 p2 hr
    exact ⟨by rw [h1, hq]; exact hant, h2 ht⟩
  · intro hne q hq
    have hq2 : q.fontes.obter (g.clonar_em_cadeia S specs).1
        = some { fonte with filtros := fonte.filtros ++ specs } := by rw [hq]; exact hder
    have hnovo := clonar_em_cadeia_novo specs g S fonte hS hne
    have hlt := (obter_some_lt g S fonte hS).2
    unfold cvn_camera_fechar
    simp only [hq2, ht, if_true]
    constructor
    · rw [obter_liberar_outro _ _ S (by omega), hq]
      exact hant
    · exact sessao_fechada_fechar _ _
  · intro q hf
    refine ⟨?_, ?_, fechar_sessao_fechada _ _ hf, ?_⟩
    · intro ext fonte2 l a
      have := capturar_sessao_fechada ops ext q fonte2 l a fonte.indice hf
      exact ⟨this.1, this.2.1⟩
    · intro ext l a
      exact (capturar_sessao_fechada ops ext q (some fonte) l a fonte.indice hf).2.2 fonte rfl
        ht rfl
    · intro hqS
      unfold cvn_camera_fechar
      simp only [hqS, ht, if_true]
      exact fechar_sessao_fechada _ _ hf

/-- Witness of C28: the camera source under id 0 of `processo_camera` and the handle derived
from it with one grayscale filter. -/
theorem fontes_derivadas_partilham_sessao_witness :
    processo_camera.fontes.obter 0 = some (Fonte.criar_camera 0) ∧
    (Fonte.criar_camera (F := Int) 0).tipo = TipoFonte.CAMERA ∧
    (Fonte.criar_camera (F := Int) 0).valida = true ∧
    (processo_camera.fontes.clonar_em_cadeia 0 cadeia_exemplo).1 = 1 ∧
    ((∃ derivada : Fonte Int,
      (processo_camera.fontes.clonar_em_cadeia 0 cadeia_exemplo).2.obter
          (processo_camera.fontes.clonar_em_cadeia 0 cadeia_exemplo).1 = some derivada ∧
      derivada.indice = (Fonte.criar_camera (F := Int) 0).indice ∧
      derivada.tipo = TipoFonte.CAMERA) ∧
    (processo_camera.fontes.clonar_em_cadeia 0 cadeia_exemplo).2.obter 0
      = some (Fonte.criar_camera 0) ∧
    (∀ (ext : Exterior) (fuel : Nat) (titulo : String) (ms : Int) (q p2 : Processo Int),
      q.fontes = (processo_camera.fontes.clonar_em_cadeia 0 cadeia_exemplo).2 →
      cvn_reproduzir ops_exemplo ext fuel q titulo
          (processo_camera.fontes.clonar_em_cadeia 0 cadeia_exemplo).1 ms = some (true, p2) →
      p2.fontes.obter 0 = some (Fonte.criar_camera 0) ∧
      p2.cameras.SessaoFechada (Fonte.criar_camera (F := Int) 0).indice) ∧
    (cadeia_exemplo ≠ [] → ∀ q : Processo Int,
      q.fontes = (processo_camera.fontes.clonar_em_cadeia 0 cadeia_exemplo).2 →
      (cvn_camera_fechar q
          (processo_camera.fontes.clonar_em_cadeia 0 cadeia_exemplo).1).2.fontes.obter 0
        = some (Fonte.criar_camera 0) ∧
      (cvn_camera_fechar q
          (processo_camera.fontes.clonar_em_cadeia 0 cadeia_exemplo).1).2.cameras.SessaoFechada
        (Fonte.criar_camera (F := Int) 0).indice) ∧
    (∀ q : Processo Int, q.cameras.SessaoFechada (Fonte.criar_camera (F := Int) 0).indice →
      (∀ (ext : Exterior) (fonte2 : Option (Fonte Int)) (l a : Int),
        (q.capturar ops_exemplo ext fonte2 l a).2.cameras.SessaoFechada
          (Fonte.criar_camera (F := Int) 0).indice ∧
        (q.capturar ops_exemplo ext fonte2 l a).2.fontes = q.fontes) ∧
      (∀ (ext : Exterior) (l a : Int),
        (q.capturar ops_exemplo ext (some (Fonte.criar_camera 0)) l a).1.dados = none) ∧
      q.cameras.fechar (Fonte.criar_camera (F := Int) 0).indice = q.cameras ∧
      (q.fontes.obter 0 = some (Fonte.criar_camera 0) →
        (cvn_camera_fechar q 0).2.cameras = q.cameras))) :=
  ⟨rfl, rfl, rfl, by decide,
    fontes_derivadas_partilham_sessao ops_exemplo processo_camera.fontes 0
      (Fonte.criar_camera 0) rfl rfl rfl cadeia_exemplo⟩

/-- The run behind the witness of C28, evaluated: `cvn_reproduzir` on the derived handle 1
returns `true`; afterwards the handle 0 still resolves to its camera source, a capture from
it returns no frame, and `cvn_camera_fechar` on it leaves the camera vector `[none]`. -/
theorem cvn_reproduzir_derivada_exemplo :
    (cvn_reproduzir ops_exemplo ext_exemplo 1 processo_derivada "video" 1 30).map
        (fun r => (r.1, r.2.fontes.obter 0,
          (r.2.capturar ops_exemplo ext_exemplo (r.2.fontes.obter 0) 0 0).1.dados,
          (cvn_camera_fechar r.2 0).2.cameras))
      = some (true, some (Fonte.criar_camera 0), none, { cameras := [none] }) := by
  decide

end cvn
